import Mathlib

/-!
# Driver controls (`pedal.c`, `tri86.c`, `tri86.h`): embedding and properties

Conventions of the embedding.

* `unsigned char` and `unsigned int` objects are natural numbers; every store into one
  is reduced modulo `2^8` resp. `2^16` (the target is a 16-bit MSP430).
* `float` objects are rational numbers: arithmetic is exact, rounding and the special
  values are not modelled.
* The headers `pedal.h` and `can.h` are not among the sources; the constants they
  define are fields of the parameter records `PedalH` and `CanH`.
-/

set_option linter.unusedVariables false

namespace Tri86

/-! ## Constants of `tri86.h` -/

def FALSE : Nat := 0
def TRUE : Nat := 1

def MODE_OFF : Nat := 0
def MODE_ON : Nat := 1
def MODE_START : Nat := 2
def MODE_R : Nat := 3
def MODE_N : Nat := 4
def MODE_BL : Nat := 5
def MODE_DL : Nat := 6
def MODE_CHARGE : Nat := 7
def MODE_BH : Nat := 8
def MODE_DH : Nat := 9
def MODE_CO_R : Nat := 10
def MODE_CO_BL : Nat := 11
def MODE_CO_BH : Nat := 12
def MODE_CO_DL : Nat := 13
def MODE_CO_DH : Nat := 14

/-! ## Stores into fixed-width unsigned objects -/

/-- The statement `x |= m` on an `unsigned char` object `x`. -/
def u8_or (x m : Nat) : Nat := (x ||| m) % 256

/-- The statement `x &= ~m` on an `unsigned char` object `x`: only the low eight bits of
`x & ~m` survive the store, so the width of `int` plays no role. -/
def u8_and_not (x m : Nat) : Nat := (x &&& (255 ^^^ (m % 256))) % 256

/-! ## `pedal.h` and `pedal.c` -/

/-- Constants of `pedal.h`, a header that the sources at hand do not contain. Thresholds
compared with the `unsigned int` samples are naturals, the quantities entering the
`float` arithmetic are rationals, the fault masks are naturals. -/
structure PedalH where
  PEDAL_ERROR_MIN : Nat
  PEDAL_ERROR_MAX : Nat
  PEDAL_TRAVEL_MIN : Nat
  PEDAL_TRAVEL : ℚ
  REGEN_ERROR_MIN : Nat
  REGEN_ERROR_MAX : Nat
  CURRENT_MAX : ℚ
  RPM_FWD_MAX : ℚ
  RPM_REV_MAX : ℚ
  FAULT_ACCEL_LOW : Nat
  FAULT_ACCEL_HIGH : Nat
  FAULT_REGEN_LOW : Nat
  FAULT_REGEN_HIGH : Nat

/-- Modelled from the spec: the four fault masks of the missing `pedal.h` are the members
of a bitset stored in one byte (`fault_flags: bitset of {accel-low, accel-high, regen-low,
regen-high}`), that is, non-zero masks below 256 that share no bit. -/
def PedalH.masks_ok (k : PedalH) : Prop :=
  (0 < k.FAULT_ACCEL_LOW ∧ k.FAULT_ACCEL_LOW < 256) ∧
  (0 < k.FAULT_ACCEL_HIGH ∧ k.FAULT_ACCEL_HIGH < 256) ∧
  (0 < k.FAULT_REGEN_LOW ∧ k.FAULT_REGEN_LOW < 256) ∧
  (0 < k.FAULT_REGEN_HIGH ∧ k.FAULT_REGEN_HIGH < 256) ∧
  k.FAULT_ACCEL_LOW &&& k.FAULT_ACCEL_HIGH = 0 ∧
  k.FAULT_ACCEL_LOW &&& k.FAULT_REGEN_LOW = 0 ∧
  k.FAULT_ACCEL_LOW &&& k.FAULT_REGEN_HIGH = 0 ∧
  k.FAULT_ACCEL_HIGH &&& k.FAULT_REGEN_LOW = 0 ∧
  k.FAULT_ACCEL_HIGH &&& k.FAULT_REGEN_HIGH = 0 ∧
  k.FAULT_REGEN_LOW &&& k.FAULT_REGEN_HIGH = 0

instance (k : PedalH) : Decidable k.masks_ok := by
  unfold PedalH.masks_ok; infer_instance

/-- Modelled from the spec: the current limit and the pedal travel span of the missing
`pedal.h` are positive (`torque_current: real, amps, range [0, CURRENT_MAX]`). -/
def PedalH.limits_ok (k : PedalH) : Prop :=
  0 < k.CURRENT_MAX ∧ 0 < k.PEDAL_TRAVEL

instance (k : PedalH) : Decidable k.limits_ok := by
  unfold PedalH.limits_ok; infer_instance

/-- The record `command_variables` (declared in `pedal.h`; the fields are the ones the
sources read and write). -/
structure command_variables where
  rpm : ℚ
  current : ℚ
  bus_current : ℚ
  flags : Nat
  state : Nat
  deriving DecidableEq

/-- The error flag updates of `process_pedal` (pedal.c lines 55-69): the new value of
`command.flags`. -/
def update_flags (k : PedalH) (flags analog_a analog_c : Nat) : Nat :=
  let f1 := if analog_a < k.PEDAL_ERROR_MIN then u8_or flags k.FAULT_ACCEL_LOW
            else u8_and_not flags k.FAULT_ACCEL_LOW
  let f2 := if analog_a > k.PEDAL_ERROR_MAX then u8_or f1 k.FAULT_ACCEL_HIGH
            else u8_and_not f1 k.FAULT_ACCEL_HIGH
  let f3 := if analog_c < k.REGEN_ERROR_MIN then u8_or f2 k.FAULT_REGEN_LOW
            else u8_and_not f2 k.FAULT_REGEN_LOW
  if analog_c > k.REGEN_ERROR_MAX then u8_or f3 k.FAULT_REGEN_HIGH
  else u8_and_not f3 k.FAULT_REGEN_HIGH

/-- The pedal scaling of `process_pedal` (pedal.c lines 74-81): the final value of the
local `pedal`. -/
def scale_pedal (k : PedalH) (analog_a : Nat) : ℚ :=
  let pedal0 : ℚ :=
    if analog_a > k.PEDAL_TRAVEL_MIN then ((analog_a - k.PEDAL_TRAVEL_MIN : Nat) : ℚ) else 0
  let pedal1 : ℚ := pedal0 * k.CURRENT_MAX / k.PEDAL_TRAVEL
  if pedal1 > k.CURRENT_MAX then k.CURRENT_MAX else pedal1

/-- The function `process_pedal` of pedal.c, acting on the global `command`, with the
`float` operations taken as exact (`process_pedal_fl` below carries their rounding). -/
def process_pedal (k : PedalH) (command : command_variables)
    (analog_a analog_b analog_c request_regen : Nat) : command_variables :=
  let command := { command with flags := update_flags k command.flags analog_a analog_c }
  if command.flags = 0 then
    let pedal : ℚ := scale_pedal k analog_a
    let regen : ℚ := 15 / 100
    if command.state = MODE_R then
      if request_regen = FALSE then
        { command with current := pedal, rpm := k.RPM_REV_MAX }
      else
        { command with current := regen, rpm := 0 }
    else if command.state = MODE_DL ∨ command.state = MODE_DH then
      { command with current := pedal, rpm := k.RPM_FWD_MAX }
    else if command.state = MODE_BL ∨ command.state = MODE_BH then
      if pedal > 0 then
        { command with current := regen, rpm := pedal * k.RPM_FWD_MAX }
      else
        { command with current := regen, rpm := 0 }
    else
      { command with current := 0, rpm := 0 }
  else
    { command with current := 0, rpm := 0 }

/-! ## `tri86.h`: events, compile-time options; `can.h` -/

def EVENT_TIMER : Nat := 0x0001
def EVENT_COMMS : Nat := 0x0002
def EVENT_REGEN : Nat := 0x0004
def EVENT_ADC : Nat := 0x0008
def EVENT_SLOW : Nat := 0x0010
def EVENT_FORWARD : Nat := 0x0020
def EVENT_REVERSE : Nat := 0x0040
def EVENT_CONNECTED : Nat := 0x0080
def EVENT_CAN_ACTIVITY : Nat := 0x0100
def EVENT_MC_NEUTRAL : Nat := 0x0200
def EVENT_OVER_VEL_LTOH : Nat := 0x0400
def EVENT_OVER_VEL_HTOL : Nat := 0x0800
def EVENT_GAUGE1 : Nat := 0x1000
def EVENT_GAUGE2 : Nat := 0x2000
def EVENT_GAUGE3 : Nat := 0x4000
def EVENT_GAUGE4 : Nat := 0x8000

def DEVICE_ID : Nat := 0x1002

/-- The compile-time options of `tri86.h` (lines 74-77): `true` stands for a defined
macro. -/
structure Build where
  USE_EGEAR : Bool
  REGEN_ON_BRAKE : Bool
  CUTOUT_ON_BRAKE : Bool
  deriving DecidableEq

/-- The options as `tri86.h` sets them: only `REGEN_ON_BRAKE` is defined. -/
def build_configured : Build :=
  { USE_EGEAR := false, REGEN_ON_BRAKE := true, CUTOUT_ON_BRAKE := false }

/-- Constants of `can.h`, a header that the sources at hand do not contain: the switch
bitfield positions, the gearbox controller states and commands, the frame addresses and
the receive status codes that `tri86.c` names. -/
structure CanH where
  SW_MODE_R : Nat
  SW_MODE_N : Nat
  SW_MODE_B : Nat
  SW_MODE_D : Nat
  SW_IGN_ACC : Nat
  SW_IGN_ON : Nat
  SW_IGN_START : Nat
  SW_BRAKE : Nat
  SW_FUEL : Nat
  SW_ACCEL_FAULT : Nat
  SW_CAN_FAULT : Nat
  SW_BRAKE_FAULT : Nat
  SW_REV_FAULT : Nat
  EG_STATE_NEUTRAL : Nat
  EG_STATE_LOW : Nat
  EG_STATE_HIGH : Nat
  EG_CMD_NEUTRAL : Nat
  EG_CMD_LOW : Nat
  EG_CMD_HIGH : Nat
  DC_CAN_BASE : Nat
  DC_DRIVE : Nat
  DC_POWER : Nat
  DC_SWITCH : Nat
  DC_BOOTLOAD : Nat
  MC_CAN_BASE : Nat
  MC_VELOCITY : Nat
  MC_I_VECTOR : Nat
  MC_TEMP1 : Nat
  MC_LIMITS : Nat
  MC_BUS : Nat
  EG_CAN_BASE : Nat
  EG_STATUS : Nat
  EG_COMMAND : Nat
  CAN_OK : Nat
  CAN_RTR : Nat
  CAN_ERROR : Nat

/-- The C test `w & m` used as a condition: some bit of the mask `m` is set in `w`. -/
def bit_set (w m : Nat) : Prop := w &&& m ≠ 0

instance (w m : Nat) : Decidable (bit_set w m) := by
  unfold bit_set; infer_instance

/-! ## `tri86.c`: the drive-mode state machine (lines 141-260) -/

/-- The value the `switch(command.state)` of the ADC event assigns to `next_state`
(tri86.c lines 142-259), as a function of the current mode, the switch word, the event
word and the cached gearbox status. The `#ifdef USE_EGEAR` alternatives are selected by
`b.USE_EGEAR`. -/
def next_state_of (b : Build) (h : CanH) (state switches events current_egear : Nat) : Nat :=
  if state = MODE_OFF then
    if bit_set switches h.SW_IGN_ON then MODE_N
    else MODE_OFF
  else if state = MODE_N then
    if b.USE_EGEAR = false then
      if bit_set switches h.SW_MODE_R ∧
          (bit_set events EVENT_SLOW ∨ bit_set events EVENT_REVERSE) then MODE_R
      else if bit_set switches h.SW_MODE_B ∧
          (bit_set events EVENT_SLOW ∨ bit_set events EVENT_FORWARD) then MODE_BL
      else if bit_set switches h.SW_MODE_D ∧
          (bit_set events EVENT_SLOW ∨ bit_set events EVENT_FORWARD) then MODE_DL
      else if ¬ bit_set switches h.SW_IGN_ON then MODE_OFF
      else if bit_set switches h.SW_FUEL then MODE_CHARGE
      else MODE_N
    else
      if bit_set switches h.SW_MODE_R ∧
          (bit_set events EVENT_SLOW ∨ bit_set events EVENT_REVERSE) then MODE_CO_R
      else if bit_set switches h.SW_MODE_B ∧
          (bit_set events EVENT_SLOW ∨
            (¬ bit_set events EVENT_OVER_VEL_LTOH ∧ bit_set events EVENT_FORWARD)) then
        MODE_CO_BL
      else if bit_set switches h.SW_MODE_B ∧
          (bit_set events EVENT_OVER_VEL_HTOL ∧ bit_set events EVENT_FORWARD) then
        MODE_CO_BH
      else if bit_set switches h.SW_MODE_D ∧
          (bit_set events EVENT_SLOW ∨
            (¬ bit_set events EVENT_OVER_VEL_LTOH ∧ bit_set events EVENT_FORWARD)) then
        MODE_CO_DL
      else if bit_set switches h.SW_MODE_D ∧
          (bit_set events EVENT_OVER_VEL_HTOL ∧ bit_set events EVENT_FORWARD) then
        MODE_CO_DH
      else if ¬ bit_set switches h.SW_IGN_ON then MODE_OFF
      else if bit_set switches h.SW_FUEL then MODE_CHARGE
      else MODE_N
  else if state = MODE_CO_R ∨ state = MODE_CO_BL ∨ state = MODE_CO_BH ∨
      state = MODE_CO_DL ∨ state = MODE_CO_DH then
    if bit_set switches h.SW_MODE_N then MODE_N
    else if state = MODE_CO_R ∧ current_egear = h.EG_STATE_LOW then MODE_R
    else if state = MODE_CO_BL ∧ current_egear = h.EG_STATE_LOW then MODE_BL
    else if state = MODE_CO_BH ∧ current_egear = h.EG_STATE_HIGH then MODE_BH
    else if state = MODE_CO_DL ∧ current_egear = h.EG_STATE_LOW then MODE_DL
    else if state = MODE_CO_DH ∧ current_egear = h.EG_STATE_HIGH then MODE_DH
    else if ¬ bit_set switches h.SW_IGN_ON then MODE_OFF
    else if bit_set switches h.SW_FUEL then MODE_CHARGE
    else state
  else if state = MODE_R then
    if bit_set switches h.SW_MODE_N then MODE_N
    else if bit_set switches h.SW_MODE_B ∧
        (bit_set events EVENT_SLOW ∨ bit_set events EVENT_FORWARD) then MODE_BL
    else if bit_set switches h.SW_MODE_D ∧
        (bit_set events EVENT_SLOW ∨ bit_set events EVENT_FORWARD) then MODE_DL
    else if ¬ bit_set switches h.SW_IGN_ON then MODE_OFF
    else if bit_set switches h.SW_FUEL then MODE_CHARGE
    else MODE_R
  else if state = MODE_BL then
    if bit_set switches h.SW_MODE_N then MODE_N
    else if bit_set switches h.SW_MODE_R ∧
        (bit_set events EVENT_SLOW ∨ bit_set events EVENT_REVERSE) then MODE_R
    else if bit_set switches h.SW_MODE_D ∧
        (bit_set events EVENT_SLOW ∨ bit_set events EVENT_FORWARD) then MODE_DL
    else if b.USE_EGEAR = true ∧ bit_set events EVENT_OVER_VEL_LTOH then MODE_CO_BH
    else if ¬ bit_set switches h.SW_IGN_ON then MODE_OFF
    else if bit_set switches h.SW_FUEL then MODE_CHARGE
    else MODE_BL
  else if state = MODE_BH then
    if bit_set switches h.SW_MODE_N then MODE_N
    else if bit_set switches h.SW_MODE_D ∧
        (bit_set events EVENT_SLOW ∨ bit_set events EVENT_FORWARD) then MODE_DH
    else if b.USE_EGEAR = true ∧ ¬ bit_set events EVENT_OVER_VEL_HTOL then MODE_CO_BL
    else if ¬ bit_set switches h.SW_IGN_ON then MODE_OFF
    else if bit_set switches h.SW_FUEL then MODE_CHARGE
    else MODE_BH
  else if state = MODE_DL then
    if bit_set switches h.SW_MODE_N then MODE_N
    else if bit_set switches h.SW_MODE_B ∧
        (bit_set events EVENT_SLOW ∨ bit_set events EVENT_FORWARD) then MODE_BL
    else if bit_set switches h.SW_MODE_R ∧
        (bit_set events EVENT_SLOW ∨ bit_set events EVENT_REVERSE) then MODE_R
    else if b.USE_EGEAR = true ∧ bit_set events EVENT_OVER_VEL_LTOH then MODE_CO_DH
    else if ¬ bit_set switches h.SW_IGN_ON then MODE_OFF
    else if bit_set switches h.SW_FUEL then MODE_CHARGE
    else MODE_DL
  else if state = MODE_DH then
    if bit_set switches h.SW_MODE_N then MODE_N
    else if bit_set switches h.SW_MODE_B ∧
        (bit_set events EVENT_SLOW ∨ bit_set events EVENT_FORWARD) then MODE_BH
    else if b.USE_EGEAR = true ∧ ¬ bit_set events EVENT_OVER_VEL_HTOL then MODE_CO_DL
    else if ¬ bit_set switches h.SW_IGN_ON then MODE_OFF
    else if bit_set switches h.SW_FUEL then MODE_CHARGE
    else MODE_DH
  else if state = MODE_CHARGE then
    if ¬ bit_set switches h.SW_FUEL then MODE_N
    else if ¬ bit_set switches h.SW_IGN_ON then MODE_OFF
    else MODE_CHARGE
  else MODE_OFF

/-- The state-machine step of the ADC event as it acts on `command`: the `switch` followed
by `command.state = next_state` (tri86.c line 260). -/
def state_machine_step (b : Build) (h : CanH) (switches events current_egear : Nat)
    (command : command_variables) : command_variables :=
  { command with state := next_state_of b h command.state switches events current_egear }

/-! ## `tri86.c`: the comms event (lines 294-440) -/

/-- The override of the pedal commands at the head of the comms event (tri86.c lines
299-335). The brake cut-out is compiled in only when `REGEN_ON_BRAKE` is undefined and
`CUTOUT_ON_BRAKE` is defined. -/
def comms_override (b : Build) (h : CanH) (switches : Nat) (command : command_variables) :
    command_variables :=
  if bit_set switches h.SW_IGN_ON then
    if command.state = MODE_R ∨ command.state = MODE_DL ∨ command.state = MODE_DH ∨
        command.state = MODE_BL ∨ command.state = MODE_BH then
      if b.REGEN_ON_BRAKE = false ∧ b.CUTOUT_ON_BRAKE = true then
        if bit_set switches h.SW_BRAKE then { command with current := 0, rpm := 0 }
        else command
      else command
    else { command with current := 0, rpm := 0 }
  else { command with current := 0, rpm := 0 }

/-- The union `group_64` of `tri86.h` (lines 142-152): eight bytes of storage, byte `j` at
index `j`. The wider views below place the least significant byte first, as the target
does. -/
abbrev group_64 := Fin 8 → Nat

/-- The store `g.data_u8[i] = v`. -/
def set_u8 (g : group_64) (i v : Nat) : group_64 :=
  fun j => if j.val = i then v % 256 else g j

/-- The store `g.data_u16[i] = v` (a 16-bit `unsigned int`). -/
def set_u16 (g : group_64) (i v : Nat) : group_64 :=
  fun j => if j.val = 2 * i then v % 256
    else if j.val = 2 * i + 1 then v / 256 % 256
    else g j

/-- The store `g.data_u32[i] = v` (a 32-bit `unsigned long`). -/
def set_u32 (g : group_64) (i v : Nat) : group_64 :=
  fun j => if j.val = 4 * i then v % 256
    else if j.val = 4 * i + 1 then v / 256 % 256
    else if j.val = 4 * i + 2 then v / 65536 % 256
    else if j.val = 4 * i + 3 then v / 16777216 % 256
    else g j

/-- The store `g.data_fp[i] = x`: the four bytes of slot `i` receive the 32-bit pattern
`float_bits x` of the `float` object. The pattern function is a parameter. -/
def set_fp (float_bits : ℚ → Nat) (g : group_64) (i : Nat) (x : ℚ) : group_64 :=
  set_u32 g i (float_bits x)

/-- A frame record: the element type of the transmit queue and of the receive buffer `can`
(declared in `can.h`; the fields are the ones `tri86.c` reads and writes). -/
structure can_variables where
  status : Nat
  address : Nat
  data : group_64

/-- The drive command frame of the comms event (tri86.c lines 343-347), written into
the record `slot` under `can_push_ptr` and handed to `can_push`. -/
def comms_drive_frame (h : CanH) (float_bits : ℚ → Nat) (slot : can_variables)
    (command : command_variables) : can_variables :=
  { address := h.DC_CAN_BASE + h.DC_DRIVE
    status := 8
    data := set_fp float_bits (set_fp float_bits slot.data 1 command.current) 0 command.rpm }

/-- The reply to a remote request for the drive frame (tri86.c lines 519-524), written
into the record `slot` under `can_push_ptr`; `can` is the received request. -/
def rtr_drive_frame (float_bits : ℚ → Nat) (slot can : can_variables)
    (command : command_variables) : can_variables :=
  { address := can.address
    status := 8
    data := set_fp float_bits (set_fp float_bits slot.data 1 command.current) 0 command.rpm }

/-! ## `tri86.c`: the command record over the run of the control loop -/

/-- The command record after start-up (tri86.c lines 101-106). -/
def command_init : command_variables :=
  { rpm := 0, current := 0, bus_current := 1, flags := 0, state := MODE_OFF }

/-- The fault invariant of the command record: a set fault flag forces both setpoints to
zero. -/
def fault_inv (command : command_variables) : Prop :=
  command.flags ≠ 0 → command.current = 0 ∧ command.rpm = 0

instance (command : command_variables) : Decidable (fault_inv command) := by
  unfold fault_inv; infer_instance

/-- The values the global `command` can take while the control loop runs. The loop writes
`command` in three places only: `process_pedal` and the state-machine step (ADC event),
and the override of the comms event; the samples, the switch word, the event word and the
gearbox status they read are arbitrary here. The receive path and the interrupt routines
do not write `command`. -/
inductive CommandReach (b : Build) (k : PedalH) (h : CanH) : command_variables → Prop
  | init : CommandReach b k h command_init
  | pedal (c : command_variables) (analog_a analog_b analog_c request_regen : Nat) :
      CommandReach b k h c →
      CommandReach b k h (process_pedal k c analog_a analog_b analog_c request_regen)
  | mode (c : command_variables) (switches events current_egear : Nat) :
      CommandReach b k h c →
      CommandReach b k h (state_machine_step b h switches events current_egear c)
  | comms (c : command_variables) (switches : Nat) :
      CommandReach b k h c →
      CommandReach b k h (comms_override b h switches c)

/-- Following the spec's words for the pedal mapping (`samples below PEDAL_TRAVEL_MIN clip
to zero torque; samples above map to CURRENT_MAX scaled by (sample - PEDAL_TRAVEL_MIN) /
PEDAL_TRAVEL_SPAN, clipped at CURRENT_MAX`): the clipped linear pedal value. -/
def spec_pedal (k : PedalH) (sample : Nat) : ℚ :=
  if sample ≤ k.PEDAL_TRAVEL_MIN then 0
  else min k.CURRENT_MAX (k.CURRENT_MAX * (((sample : ℚ) - k.PEDAL_TRAVEL_MIN) / k.PEDAL_TRAVEL))

/-! ## `pedal.c` in the arithmetic of the type `float` -/

/-- Rounding of a rational to the nearest integer, a tie going to the even neighbour. -/
def round_half_even (x : ℚ) : ℤ :=
  if x - ⌊x⌋ < 1 / 2 then ⌊x⌋
  else if 1 / 2 < x - ⌊x⌋ then ⌊x⌋ + 1
  else if ⌊x⌋ % 2 = 0 then ⌊x⌋ else ⌊x⌋ + 1

/-- The value of the type `float` nearest to the real `x`: IEEE 754 binary32, round to
nearest, ties to even. A non-zero `x` with `2^e ≤ |x| < 2^(e+1)` becomes a multiple of
`2^(e-23)` (24 significant bits); below `2^-126` the spacing stays `2^-149` (subnormal
values). Overflow to an infinity (from `2^128` on) is not represented: `PedalH.float_ok`
keeps every value of `process_pedal` far below it. -/
def f32 (x : ℚ) : ℚ :=
  if x = 0 then 0
  else (round_half_even (x / 2 ^ (max (Int.log 2 |x|) (-126) - 23)) : ℚ)
    * 2 ^ (max (Int.log 2 |x|) (-126) - 23)

/-- The pedal scaling of `process_pedal` (pedal.c lines 74-81) with `fl` rounding the
result of each `float` operation: the product `pedal * CURRENT_MAX`, then the quotient by
`PEDAL_TRAVEL`. The difference `analog_a - PEDAL_TRAVEL_MIN` of 16-bit values converts to
`float` exactly. -/
def scale_pedal_fl (fl : ℚ → ℚ) (k : PedalH) (analog_a : Nat) : ℚ :=
  let pedal0 : ℚ :=
    if analog_a > k.PEDAL_TRAVEL_MIN then ((analog_a - k.PEDAL_TRAVEL_MIN : Nat) : ℚ) else 0
  let pedal1 : ℚ := fl (fl (pedal0 * k.CURRENT_MAX) / k.PEDAL_TRAVEL)
  if pedal1 > k.CURRENT_MAX then k.CURRENT_MAX else pedal1

/-- The function `process_pedal` of pedal.c in the arithmetic of the type `float`: `fl`
rounds the result of each `float` operation and the literal `0.15` stored in the float
`regen` (line 91); the real constants of `PedalH` stand for the values they have in the
type `float`. With `fl = id` this is `process_pedal`; with `fl = f32` it is the code on a
target whose `float` is IEEE binary32. -/
def process_pedal_fl (fl : ℚ → ℚ) (k : PedalH) (command : command_variables)
    (analog_a analog_b analog_c request_regen : Nat) : command_variables :=
  let command := { command with flags := update_flags k command.flags analog_a analog_c }
  if command.flags = 0 then
    let pedal : ℚ := scale_pedal_fl fl k analog_a
    let regen : ℚ := fl (15 / 100)
    if command.state = MODE_R then
      if request_regen = FALSE then
        { command with current := pedal, rpm := k.RPM_REV_MAX }
      else
        { command with current := regen, rpm := 0 }
    else if command.state = MODE_DL ∨ command.state = MODE_DH then
      { command with current := pedal, rpm := k.RPM_FWD_MAX }
    else if command.state = MODE_BL ∨ command.state = MODE_BH then
      if pedal > 0 then
        { command with current := regen, rpm := fl (pedal * k.RPM_FWD_MAX) }
      else
        { command with current := regen, rpm := 0 }
    else
      { command with current := 0, rpm := 0 }
  else
    { command with current := 0, rpm := 0 }

/-- Modelled from the spec: the real constants of the missing `pedal.h` are values of the
type `float` (`f32` leaves them unchanged) of ordinary magnitude for amperes, ADC counts
and rpm (`torque_current: real, amps`, `speed_setpoint: real, rpm`): CURRENT_MAX and
PEDAL_TRAVEL lie between `2^-32` and `2^32`, and RPM_FWD_MAX is at most `2^32` in
magnitude, so that no product or quotient of `process_pedal` overflows or falls into the
subnormal range. -/
def PedalH.float_ok (k : PedalH) : Prop :=
  f32 k.CURRENT_MAX = k.CURRENT_MAX ∧ f32 k.PEDAL_TRAVEL = k.PEDAL_TRAVEL ∧
  f32 k.RPM_FWD_MAX = k.RPM_FWD_MAX ∧ f32 k.RPM_REV_MAX = k.RPM_REV_MAX ∧
  (1 / 2 ^ 32 ≤ k.CURRENT_MAX ∧ k.CURRENT_MAX ≤ 2 ^ 32) ∧
  (1 / 2 ^ 32 ≤ k.PEDAL_TRAVEL ∧ k.PEDAL_TRAVEL ≤ 2 ^ 32) ∧
  |k.RPM_FWD_MAX| ≤ 2 ^ 32

instance (k : PedalH) : Decidable k.float_ok := by
  unfold PedalH.float_ok; infer_instance

/-! ## `tri86.h`: pins and control parameters -/

def IN_FUEL : Nat := 0x01
def IN_BRAKEn : Nat := 0x02
def IN_IGN_STARTn : Nat := 0x04
def IN_IGN_ONn : Nat := 0x08
def IN_IGN_ACCn : Nat := 0x10
def BRAKE_OUT : Nat := 0x20
def REVERSE_OUT : Nat := 0x40
def CAN_PWR_OUT : Nat := 0x80

def IN_GEAR_1 : Nat := 0x01
def IN_GEAR_2 : Nat := 0x02
def IN_GEAR_3 : Nat := 0x04
def IN_GEAR_4 : Nat := 0x08
def CAN_INTn : Nat := 0x80

def CAN_CSn : Nat := 0x01
def EXPANSION_TXD : Nat := 0x10
def LED_REDn : Nat := 0x40
def LED_GREENn : Nat := 0x80

def LED_GEAR_BL : Nat := 0x08
def LED_GEAR_4 : Nat := 0x10
def LED_GEAR_3 : Nat := 0x20
def LED_GEAR_2 : Nat := 0x40
def LED_GEAR_1 : Nat := 0x80
def LED_GEAR_ALL : Nat := LED_GEAR_4 ||| LED_GEAR_3 ||| LED_GEAR_2 ||| LED_GEAR_1

def ANLG_V_ENABLE : Nat := 0x01

def CHARGE_FLASH_SPEED : Nat := 20

def ENGAGE_VEL_F : ℚ := 50
def ENGAGE_VEL_R : ℚ := -50
def REGEN_THRESHOLD : ℚ := -5
def CHANGE_VEL_LTOH : ℚ := 1800
def CHANGE_VEL_HTOL : ℚ := 1600

/-- The statement `x |= m` on a 16-bit `unsigned int` object `x`. -/
def u16_or (x m : Nat) : Nat := (x ||| m) % 65536

/-- The statement `x &= ~m` on a 16-bit `unsigned int` object `x`. -/
def u16_and_not (x m : Nat) : Nat := (x &&& (65535 ^^^ (m % 65536))) % 65536

/-! ## `tri86.c`: `update_switches` (lines 752-795) -/

/-- The function `update_switches`: from the input ports and the previous switch word
`state`, the new values of `*state` and `*difference`. The two ignition tests are
commented out in the source, which leaves the unconditional stores `*state |= SW_IGN_ACC`
and `*state |= SW_IGN_ON`. -/
def update_switches (h : CanH) (P1IN P2IN state : Nat) : Nat × Nat :=
  let old_switches := state
  let state := if bit_set P2IN IN_GEAR_4 then u16_or state h.SW_MODE_R
               else u16_and_not state h.SW_MODE_R
  let state := if bit_set P2IN IN_GEAR_3 then u16_or state h.SW_MODE_N
               else u16_and_not state h.SW_MODE_N
  let state := if bit_set P2IN IN_GEAR_2 then u16_or state h.SW_MODE_B
               else u16_and_not state h.SW_MODE_B
  let state := if bit_set P2IN IN_GEAR_1 then u16_or state h.SW_MODE_D
               else u16_and_not state h.SW_MODE_D
  let state := u16_or state h.SW_IGN_ACC
  let state := u16_or state h.SW_IGN_ON
  let state := if bit_set P1IN IN_IGN_STARTn then u16_and_not state h.SW_IGN_START
               else u16_or state h.SW_IGN_START
  let state := if bit_set P1IN IN_BRAKEn then u16_and_not state h.SW_BRAKE
               else u16_or state h.SW_BRAKE
  let state := if bit_set P1IN IN_FUEL then u16_or state h.SW_FUEL
               else u16_and_not state h.SW_FUEL
  (state, state ^^^ old_switches)

/-- Following the claim's words for the switch sampler (`each switch bit is set exactly when
its line is asserted - the four gear-selector lines and the fuel line active-high, and the
ignition-accessory, ignition-on, ignition-start and brake lines active-low`): whether the
switch word `w` shows every line of the ports with its fixed polarity. -/
def switches_follow_lines (h : CanH) (P1IN P2IN w : Nat) : Prop :=
  (bit_set w h.SW_MODE_R ↔ bit_set P2IN IN_GEAR_4) ∧
  (bit_set w h.SW_MODE_N ↔ bit_set P2IN IN_GEAR_3) ∧
  (bit_set w h.SW_MODE_B ↔ bit_set P2IN IN_GEAR_2) ∧
  (bit_set w h.SW_MODE_D ↔ bit_set P2IN IN_GEAR_1) ∧
  (bit_set w h.SW_FUEL ↔ bit_set P1IN IN_FUEL) ∧
  (bit_set w h.SW_IGN_ACC ↔ ¬ bit_set P1IN IN_IGN_ACCn) ∧
  (bit_set w h.SW_IGN_ON ↔ ¬ bit_set P1IN IN_IGN_ONn) ∧
  (bit_set w h.SW_IGN_START ↔ ¬ bit_set P1IN IN_IGN_STARTn) ∧
  (bit_set w h.SW_BRAKE ↔ ¬ bit_set P1IN IN_BRAKEn)

instance (h : CanH) (P1IN P2IN w : Nat) : Decidable (switches_follow_lines h P1IN P2IN w) := by
  unfold switches_follow_lines; infer_instance

/-! ## `tri86.c`: the state of the control loop and the ADC event (lines 125-292) -/

/-- A `float` object that was read from a received frame: `none` stands for a value that
is not a number, for which every comparison is false. Infinite values are not modelled. -/
abbrev rx_float := Option ℚ

/-- The globals and the locals of `main` that the control loop reads and writes, the output
ports it drives, the frames handed to `can_push` (oldest first), and whether the store
`WDTCTL = 0x00` was executed, which forces a watchdog reset. -/
structure State where
  command : command_variables
  events : Nat
  switches : Nat
  switches_diff : Nat
  next_state : Nat
  current_egear : Nat
  comms_event_count : Nat
  charge_flash_count : Nat
  P1OUT : Nat
  P3OUT : Nat
  P5OUT : Nat
  P6OUT : Nat
  motor_rpm : rx_float
  motor_temp : rx_float
  controller_temp : rx_float
  battery_voltage : rx_float
  battery_current : rx_float
  tx : List can_variables
  reset : Bool

/-- What the hardware presents to one ADC event: the two input ports and the three
conversion results. -/
structure Inputs where
  P1IN : Nat
  P2IN : Nat
  ADC12MEM0 : Nat
  ADC12MEM1 : Nat
  ADC12MEM2 : Nat

/-- The indicator stores inside the `switch(command.state)` of the ADC event: the new
values of `P5OUT` and `charge_flash_count` (an `unsigned char`), as a function of the
current mode. -/
def state_leds (state P5OUT charge_flash_count : Nat) : Nat × Nat :=
  if state = MODE_OFF then (u8_and_not P5OUT LED_GEAR_ALL, charge_flash_count)
  else if state = MODE_N then
    (u8_or (u8_and_not P5OUT LED_GEAR_ALL) LED_GEAR_3, charge_flash_count)
  else if state = MODE_CO_R ∨ state = MODE_CO_BL ∨ state = MODE_CO_BH ∨
      state = MODE_CO_DL ∨ state = MODE_CO_DH then (P5OUT, charge_flash_count)
  else if state = MODE_R then
    (u8_or (u8_and_not P5OUT LED_GEAR_ALL) LED_GEAR_4, charge_flash_count)
  else if state = MODE_BL then
    (u8_or (u8_and_not P5OUT LED_GEAR_ALL) LED_GEAR_2, charge_flash_count)
  else if state = MODE_BH then
    (u8_or (u8_and_not P5OUT LED_GEAR_ALL) LED_GEAR_2, charge_flash_count)
  else if state = MODE_DL then
    (u8_or (u8_and_not P5OUT LED_GEAR_ALL) LED_GEAR_1, charge_flash_count)
  else if state = MODE_DH then
    (u8_or (u8_and_not P5OUT LED_GEAR_ALL) LED_GEAR_1, charge_flash_count)
  else if state = MODE_CHARGE then
    let count := (charge_flash_count + 255) % 256
    let leds := u8_and_not P5OUT (LED_GEAR_4 ||| LED_GEAR_2 ||| LED_GEAR_1)
    if count = 0 then (u8_or leds LED_GEAR_3, (CHARGE_FLASH_SPEED * 2) % 256)
    else if count = CHARGE_FLASH_SPEED then (u8_and_not leds LED_GEAR_3, count)
    else (leds, count)
  else (P5OUT, charge_flash_count)

/-- The body of `if( events & EVENT_ADC )` in the main loop (tri86.c lines 126-290), with the
pair `sampled` standing for what the call `update_switches(&switches, &switches_diff)` of
line 139 leaves in `switches` and `switches_diff`. -/
def adc_event_sampled (b : Build) (k : PedalH) (h : CanH) (i : Inputs) (sampled : Nat × Nat)
    (s : State) : State :=
  let events := u16_and_not s.events EVENT_ADC
  let request_regen :=
    if b.REGEN_ON_BRAKE = true then (s.switches &&& h.SW_BRAKE) % 256 else FALSE
  let command :=
    process_pedal k s.command i.ADC12MEM0 i.ADC12MEM1 i.ADC12MEM2 request_regen
  let switches := sampled.1
  let switches_diff := sampled.2
  let next_state := next_state_of b h command.state switches events s.current_egear
  let leds := state_leds command.state s.P5OUT s.charge_flash_count
  let command := { command with state := next_state }
  let P1OUT := if bit_set switches h.SW_BRAKE ∨ bit_set events EVENT_REGEN
               then u8_or s.P1OUT BRAKE_OUT else u8_and_not s.P1OUT BRAKE_OUT
  let P1OUT := if command.state = MODE_R then u8_or P1OUT REVERSE_OUT
               else u8_and_not P1OUT REVERSE_OUT
  let powered := bit_set switches h.SW_IGN_ACC ∨ bit_set switches h.SW_IGN_ON
  let P1OUT := if powered then u8_or P1OUT CAN_PWR_OUT else u8_and_not P1OUT CAN_PWR_OUT
  let P6OUT := if powered then u8_or s.P6OUT ANLG_V_ENABLE
               else u8_and_not s.P6OUT ANLG_V_ENABLE
  let events := if powered then events else u16_and_not events EVENT_CONNECTED
  let P5OUT := if powered then u8_or leds.1 LED_GEAR_BL else u8_and_not leds.1 LED_GEAR_BL
  let P3OUT :=
    if bit_set switches
        (h.SW_ACCEL_FAULT ||| h.SW_CAN_FAULT ||| h.SW_BRAKE_FAULT ||| h.SW_REV_FAULT)
    then u8_and_not s.P3OUT LED_REDn else u8_or s.P3OUT LED_REDn
  { s with
    command := command
    events := events
    switches := switches
    switches_diff := switches_diff
    next_state := next_state
    charge_flash_count := leds.2
    P1OUT := P1OUT
    P3OUT := P3OUT
    P5OUT := P5OUT
    P6OUT := P6OUT }

/-- The body of `if( events & EVENT_ADC )` in the main loop (tri86.c lines 126-290): the
switch word is the one `update_switches` samples from the ports. -/
def adc_event (b : Build) (k : PedalH) (h : CanH) (i : Inputs) (s : State) : State :=
  adc_event_sampled b k h i (update_switches h i.P1IN i.P2IN s.switches) s

/-- The state after the ADC events of the list, in order; each entry gives the hardware
inputs of the event and the pair left by its call of `update_switches`. -/
def adc_run (b : Build) (k : PedalH) (h : CanH) : List (Inputs × (Nat × Nat)) → State → State
  | [], s => s
  | t :: rest, s => adc_run b k h rest (adc_event_sampled b k h t.1 t.2 s)

/-- The state when the main loop is entered (tri86.c lines 43-109 and `io_init`), for the
port values that the start-up call of `update_switches` reads. -/
def power_up (h : CanH) (P1IN P2IN : Nat) : State :=
  { command := command_init
    events := u16_or 0 EVENT_CONNECTED
    switches := (update_switches h P1IN P2IN 0).1
    switches_diff := (update_switches h P1IN P2IN 0).2
    next_state := MODE_OFF
    current_egear := h.EG_STATE_NEUTRAL
    comms_event_count := 0
    charge_flash_count := CHARGE_FLASH_SPEED
    P1OUT := 0
    P3OUT := CAN_CSn ||| EXPANSION_TXD ||| LED_REDn ||| LED_GREENn
    P5OUT := 0
    P6OUT := 0
    motor_rpm := some 0
    motor_temp := some 0
    controller_temp := some 0
    battery_voltage := some 0
    battery_current := some 0
    tx := []
    reset := false }

/-- The port values with the ignition off and every switch released: the four active-low
lines of port 1 read high and the fuel line low; the gear lines of port 2 read low and no
frame is pending (`CAN_INTn` high). -/
def inputs_released : Inputs :=
  { P1IN := IN_BRAKEn ||| IN_IGN_STARTn ||| IN_IGN_ONn ||| IN_IGN_ACCn
    P2IN := CAN_INTn
    ADC12MEM0 := 0
    ADC12MEM1 := 0
    ADC12MEM2 := 0 }

/-- The state after `n` ADC events with the port values `i`. -/
def adc_ticks (b : Build) (k : PedalH) (h : CanH) (i : Inputs) : Nat → State → State
  | 0, s => s
  | n + 1, s => adc_ticks b k h i n (adc_event b k h i s)

/-! ## `tri86.c`: the frames (lines 343-365, 427-439, 506-544) -/

/-- Byte `j` of the storage, read as `g.data_u8[j]`. -/
def get_u8 (g : group_64) (j : Nat) : Nat :=
  if hj : j < 8 then g ⟨j, hj⟩ else 0

/-- The read `g.data_u16[i]`. -/
def get_u16 (g : group_64) (i : Nat) : Nat :=
  get_u8 g (2 * i) + 256 * get_u8 g (2 * i + 1)

/-- The read `g.data_u32[i]`; a read of `g.data_fp[i]` sees the same four bytes. -/
def get_u32 (g : group_64) (i : Nat) : Nat :=
  get_u8 g (4 * i) + 256 * get_u8 g (4 * i + 1) + 65536 * get_u8 g (4 * i + 2)
    + 16777216 * get_u8 g (4 * i + 3)

/-- The read `g.data_fp[i]`: the value `float_of` gives to the 32-bit pattern of slot `i`.
The value function is a parameter. -/
def get_fp (float_of : Nat → rx_float) (g : group_64) (i : Nat) : rx_float :=
  float_of (get_u32 g i)

/-- The bus command frame of the comms event (tri86.c lines 350-355). -/
def comms_power_frame (h : CanH) (float_bits : ℚ → Nat) (slot : can_variables)
    (command : command_variables) : can_variables :=
  { address := h.DC_CAN_BASE + h.DC_POWER
    status := 8
    data := set_fp float_bits (set_fp float_bits slot.data 1 command.bus_current) 0 0 }

/-- The switch position frame of the comms event (tri86.c lines 357-365). -/
def comms_switch_frame (h : CanH) (slot : can_variables) (command : command_variables)
    (switches : Nat) : can_variables :=
  { address := h.DC_CAN_BASE + h.DC_SWITCH
    status := 8
    data := set_u16 (set_u16 (set_u16 (set_u8 (set_u8 slot.data 7 command.state)
      6 command.flags) 2 0) 1 0) 0 switches }

/-- The identification frame of the comms event (tri86.c lines 431-438); 84, 48, 56, 54 are
the characters T, 0, 8, 6. -/
def comms_id_frame (h : CanH) (slot : can_variables) : can_variables :=
  { address := h.DC_CAN_BASE
    status := 8
    data := set_u32 (set_u8 (set_u8 (set_u8 (set_u8 slot.data 7 84) 6 48) 5 56) 4 54)
      0 DEVICE_ID }

/-- The reply to a remote request for the identification frame (tri86.c lines 509-517). -/
def rtr_id_frame (slot can : can_variables) : can_variables :=
  { address := can.address
    status := 8
    data := set_u32 (set_u8 (set_u8 (set_u8 (set_u8 slot.data 3 84) 2 48) 1 56) 0 54)
      1 DEVICE_ID }

/-- The reply to a remote request for the bus command frame (tri86.c lines 526-531). -/
def rtr_power_frame (float_bits : ℚ → Nat) (slot can : can_variables)
    (command : command_variables) : can_variables :=
  { address := can.address
    status := 8
    data := set_fp float_bits (set_fp float_bits slot.data 1 command.bus_current) 0 0 }

/-- The reply to a remote request for the switch position frame (tri86.c lines 533-541). -/
def rtr_switch_frame (slot can : can_variables) (command : command_variables)
    (switches : Nat) : can_variables :=
  { address := can.address
    status := 8
    data := set_u16 (set_u16 (set_u16 (set_u8 (set_u8 slot.data 7 command.state)
      6 command.flags) 2 0) 1 0) 0 switches }

/-- Modelled from the spec: `can_push` of the missing `can.c` enqueues the frame record
that was filled in under `can_push_ptr` (`send(address, payload) enqueues one frame`). -/
def can_push (frame : can_variables) (s : State) : State :=
  { s with tx := s.tx ++ [frame] }

/-! ## `tri86.c`: frame reception (lines 443-547) -/

/-- The comparison `x > c` of a received `float` with a constant. -/
def float_gt : rx_float → ℚ → Prop
  | some v, c => v > c
  | none, _ => False

/-- The comparison `x < c` of a received `float` with a constant. -/
def float_lt : rx_float → ℚ → Prop
  | some v, c => v < c
  | none, _ => False

/-- The comparison `x >= c` of a received `float` with a constant. -/
def float_ge : rx_float → ℚ → Prop
  | some v, c => v ≥ c
  | none, _ => False

/-- The comparison `x <= c` of a received `float` with a constant. -/
def float_le : rx_float → ℚ → Prop
  | some v, c => v ≤ c
  | none, _ => False

instance (x : rx_float) (c : ℚ) : Decidable (float_gt x c) := by
  cases x <;> unfold float_gt <;> infer_instance

instance (x : rx_float) (c : ℚ) : Decidable (float_lt x c) := by
  cases x <;> unfold float_lt <;> infer_instance

instance (x : rx_float) (c : ℚ) : Decidable (float_ge x c) := by
  cases x <;> unfold float_ge <;> infer_instance

instance (x : rx_float) (c : ℚ) : Decidable (float_le x c) := by
  cases x <;> unfold float_le <;> infer_instance

/-- The speed threshold flag updates of the motor velocity handler (tri86.c lines 454-464):
the new value of `events` for the received velocity `v`. -/
def velocity_events (v : rx_float) (events : Nat) : Nat :=
  let events := if float_gt v ENGAGE_VEL_F then u16_or events EVENT_FORWARD
                else u16_and_not events EVENT_FORWARD
  let events := if float_lt v ENGAGE_VEL_R then u16_or events EVENT_REVERSE
                else u16_and_not events EVENT_REVERSE
  let events := if float_ge v ENGAGE_VEL_R ∧ float_le v ENGAGE_VEL_F
                then u16_or events EVENT_SLOW
                else u16_and_not events EVENT_SLOW
  let events := if float_ge v CHANGE_VEL_LTOH then u16_or events EVENT_OVER_VEL_LTOH
                else u16_and_not events EVENT_OVER_VEL_LTOH
  if float_ge v CHANGE_VEL_HTOL then u16_or events EVENT_OVER_VEL_HTOL
  else u16_and_not events EVENT_OVER_VEL_HTOL

/-- The comparison of the eight payload bytes with the characters B, O, O, T, L, O, A, D
(tri86.c lines 493-494). -/
def bootload_token (g : group_64) : Prop :=
  get_u8 g 0 = 66 ∧ get_u8 g 1 = 79 ∧ get_u8 g 2 = 79 ∧ get_u8 g 3 = 84 ∧
  get_u8 g 4 = 76 ∧ get_u8 g 5 = 79 ∧ get_u8 g 6 = 65 ∧ get_u8 g 7 = 68

instance (g : group_64) : Decidable (bootload_token g) := by
  unfold bootload_token; infer_instance

/-- The trace that the gauge update functions of the absent `gauge.c` leave in `events`.
The header tri86.h (lines 127-130) reserves EVENT_GAUGE1..4 to signal that a gauge `has
been recalculated and requires update`, and nothing in `tri86.c` sets these bits (the
routine `timer_b0` only clears them). Each update call raises the bits of a mask; the four
masks are parameters. -/
structure GaugeC where
  tach_events : Nat
  temp_events : Nat
  power_events : Nat
  fuel_events : Nat

/-- Modelled from the spec: the gauge update calls are `fire-and-forget` collaborators, so
the only bits they may raise are the four gauge bits 12..15 that tri86.h reserves for
them: each mask is a 16-bit value with its low twelve bits clear. -/
def GaugeC.ok (g : GaugeC) : Prop :=
  (g.tach_events % 4096 = 0 ∧ g.tach_events < 65536) ∧
  (g.temp_events % 4096 = 0 ∧ g.temp_events < 65536) ∧
  (g.power_events % 4096 = 0 ∧ g.power_events < 65536) ∧
  (g.fuel_events % 4096 = 0 ∧ g.fuel_events < 65536)

instance (g : GaugeC) : Decidable g.ok := by
  unfold GaugeC.ok; infer_instance

/-- The body of `if(can.status == CAN_OK)` (tri86.c lines 449-504), for the received frame
`can`. The calls `gauge_tach_update`, `gauge_temp_update`, `gauge_power_update` and
`gauge_fuel_update` raise the event bits of their masks in `g`. -/
def can_data_frame (h : CanH) (g : GaugeC) (float_of : Nat → rx_float) (can : can_variables)
    (s : State) : State :=
  let s := { s with events := u16_or s.events EVENT_CONNECTED }
  if can.address = h.MC_CAN_BASE + h.MC_VELOCITY then
    { s with
      events := u16_or (velocity_events (get_fp float_of can.data 0) s.events) g.tach_events
      motor_rpm := get_fp float_of can.data 0 }
  else if can.address = h.MC_CAN_BASE + h.MC_I_VECTOR then
    if float_lt (get_fp float_of can.data 0) REGEN_THRESHOLD
    then { s with events := u16_or s.events EVENT_REGEN }
    else { s with events := u16_and_not s.events EVENT_REGEN }
  else if can.address = h.MC_CAN_BASE + h.MC_TEMP1 then
    { s with
      controller_temp := get_fp float_of can.data 1
      motor_temp := get_fp float_of can.data 0
      events := u16_or s.events g.temp_events }
  else if can.address = h.MC_CAN_BASE + h.MC_LIMITS then
    if get_u8 can.data 0 = 0
    then { s with events := u16_or s.events EVENT_MC_NEUTRAL }
    else { s with events := u16_and_not s.events EVENT_MC_NEUTRAL }
  else if can.address = h.MC_CAN_BASE + h.MC_BUS then
    { s with
      battery_voltage := get_fp float_of can.data 0
      battery_current := get_fp float_of can.data 1
      events := u16_or (u16_or s.events g.power_events) g.fuel_events }
  else if can.address = h.DC_CAN_BASE + h.DC_BOOTLOAD then
    if bootload_token can.data then { s with reset := true } else s
  else if can.address = h.EG_CAN_BASE + h.EG_STATUS then
    if get_u8 can.data 0 = h.EG_STATE_NEUTRAL
    then { s with current_egear := h.EG_STATE_NEUTRAL }
    else if get_u8 can.data 0 = h.EG_STATE_LOW
    then { s with current_egear := h.EG_STATE_LOW }
    else if get_u8 can.data 0 = h.EG_STATE_HIGH
    then { s with current_egear := h.EG_STATE_HIGH }
    else s
  else s

/-- The body of `if(can.status == CAN_RTR)` (tri86.c lines 507-543): the reply to the
remote request `can`, built in the record `slot` under `can_push_ptr`. -/
def can_rtr_frame (h : CanH) (float_bits : ℚ → Nat) (can slot : can_variables)
    (s : State) : State :=
  if can.address = h.DC_CAN_BASE then
    can_push (rtr_id_frame slot can) s
  else if can.address = h.DC_CAN_BASE + h.DC_DRIVE then
    can_push (rtr_drive_frame float_bits slot can s.command) s
  else if can.address = h.DC_CAN_BASE + h.DC_POWER then
    can_push (rtr_power_frame float_bits slot can s.command) s
  else if can.address = h.DC_CAN_BASE + h.DC_SWITCH then
    can_push (rtr_switch_frame slot can s.command s.switches) s
  else s

/-- The body of `if((P2IN & CAN_INTn) == 0x00)` (tri86.c lines 445-546): `can` is the frame
that `can_receive` left in the receive buffer, `slot` the record under `can_push_ptr`. The
branch for `CAN_ERROR` is empty. -/
def can_receive_event (h : CanH) (g : GaugeC) (float_of : Nat → rx_float)
    (float_bits : ℚ → Nat) (can slot : can_variables) (s : State) : State :=
  let s := if can.status = h.CAN_OK then can_data_frame h g float_of can s else s
  let s := if can.status = h.CAN_RTR then can_rtr_frame h float_bits can slot s else s
  if can.status = h.CAN_ERROR then s else s

/-- Modelled from the spec: the addresses of the missing `can.h` partition the address
space by device role and offset (`base addresses partition device roles`) and the frame
kinds are distinct, so the labels of each `switch(can.address)` are pairwise different, as
C requires of case labels, and so are the three status codes. -/
def CanH.labels_ok (h : CanH) : Prop :=
  [h.MC_CAN_BASE + h.MC_VELOCITY, h.MC_CAN_BASE + h.MC_I_VECTOR, h.MC_CAN_BASE + h.MC_TEMP1,
    h.MC_CAN_BASE + h.MC_LIMITS, h.MC_CAN_BASE + h.MC_BUS, h.DC_CAN_BASE + h.DC_BOOTLOAD,
    h.EG_CAN_BASE + h.EG_STATUS].Nodup ∧
  [h.DC_CAN_BASE, h.DC_CAN_BASE + h.DC_DRIVE, h.DC_CAN_BASE + h.DC_POWER,
    h.DC_CAN_BASE + h.DC_SWITCH].Nodup ∧
  [h.CAN_OK, h.CAN_RTR, h.CAN_ERROR].Nodup

instance (h : CanH) : Decidable h.labels_ok := by
  unfold CanH.labels_ok; infer_instance

/-! ## `tri86.c`: the transmissions of the comms event (lines 337-440) -/

/-- The gearbox command frame of the comms event (tri86.c lines 377-412): both 32-bit words
of the record `slot` are cleared and byte 0 receives the command when `cmd` is given. -/
def egear_frame (h : CanH) (slot : can_variables) (cmd : Option Nat) : can_variables :=
  { address := h.EG_CAN_BASE + h.EG_COMMAND
    status := 8
    data :=
      match cmd with
      | some c => set_u8 (set_u32 (set_u32 slot.data 0 0) 1 0) 0 c
      | none => set_u32 (set_u32 slot.data 0 0) 1 0 }

/-- The part of the comms event under `#ifdef USE_EGEAR` (tri86.c lines 368-424); `slots n`
is the record under `can_push_ptr` when `n` frames have been handed to `can_push`. -/
def comms_egear (h : CanH) (slots : Nat → can_variables) (s : State) : State :=
  if (s.command.state = MODE_CO_R ∧ s.next_state = MODE_CO_R) ∨
      (s.command.state = MODE_CO_BL ∧ s.next_state = MODE_CO_BL) ∨
      (s.command.state = MODE_CO_BH ∧ s.next_state = MODE_CO_BH) ∨
      (s.command.state = MODE_CO_DL ∧ s.next_state = MODE_CO_DL) ∨
      (s.command.state = MODE_CO_DH ∧ s.next_state = MODE_CO_DH) then
    if s.current_egear = h.EG_STATE_NEUTRAL then
      can_push (egear_frame h (slots s.tx.length)
        (if s.command.state = MODE_CO_R then some h.EG_CMD_LOW
         else if s.command.state = MODE_CO_BL then some h.EG_CMD_LOW
         else if s.command.state = MODE_CO_DL then some h.EG_CMD_LOW
         else if s.command.state = MODE_CO_BH then some h.EG_CMD_HIGH
         else if s.command.state = MODE_CO_DH then some h.EG_CMD_HIGH
         else none)) s
    else if bit_set s.events EVENT_MC_NEUTRAL then
      can_push (egear_frame h (slots s.tx.length) (some h.EG_CMD_NEUTRAL)) s
    else s
  else if s.command.state = MODE_N then
    can_push (egear_frame h (slots s.tx.length) (some h.EG_CMD_NEUTRAL)) s
  else if s.command.state = MODE_BL ∨ s.command.state = MODE_DL ∨ s.command.state = MODE_R then
    can_push (egear_frame h (slots s.tx.length) (some h.EG_CMD_LOW)) s
  else if s.command.state = MODE_BH ∨ s.command.state = MODE_DH then
    can_push (egear_frame h (slots s.tx.length) (some h.EG_CMD_HIGH)) s
  else s

/-- The head of the transmissions of the comms event (tri86.c lines 339-365): the activity
flag, then the drive, bus and switch frames. -/
def comms_telemetry (h : CanH) (float_bits : ℚ → Nat) (slots : Nat → can_variables)
    (s : State) : State :=
  let s := { s with events := u16_or s.events EVENT_CAN_ACTIVITY }
  let s := can_push (comms_drive_frame h float_bits (slots s.tx.length) s.command) s
  let s := can_push (comms_power_frame h float_bits (slots s.tx.length) s.command) s
  can_push (comms_switch_frame h (slots s.tx.length) s.command s.switches) s

/-- The tail of the transmissions of the comms event (tri86.c lines 427-439): the pass
counter (an `unsigned int`) and the identification frame on every tenth pass. -/
def comms_identify (h : CanH) (slots : Nat → can_variables) (s : State) : State :=
  let s := { s with comms_event_count := (s.comms_event_count + 1) % 65536 }
  if s.comms_event_count = 10 then
    can_push (comms_id_frame h (slots s.tx.length)) { s with comms_event_count := 0 }
  else s

/-- The transmissions of the comms event (tri86.c lines 338-440), for a state in which
EVENT_CONNECTED was found set; the gearbox command is compiled in when `USE_EGEAR` is
defined. -/
def comms_transmit (b : Build) (h : CanH) (float_bits : ℚ → Nat)
    (slots : Nat → can_variables) (s : State) : State :=
  let s := comms_telemetry h float_bits slots s
  let s := if b.USE_EGEAR = true then comms_egear h slots s else s
  comms_identify h slots s

/-- The body of `if(events & EVENT_COMMS)` in the main loop (tri86.c lines 296-440). -/
def comms_event (b : Build) (h : CanH) (float_bits : ℚ → Nat)
    (slots : Nat → can_variables) (s : State) : State :=
  let s := { s with events := u16_and_not s.events EVENT_COMMS }
  let s := { s with command := comms_override b h s.switches s.command }
  if bit_set s.events EVENT_CONNECTED then comms_transmit b h float_bits slots s else s

/-! ## `tri86.c`: the interrupt routines (lines 669-807) and the main loop (lines 115-547) -/

/-- The body of `if( events & EVENT_ADC )` in the main loop (tri86.c lines 126-290) with the
`float` operations of `process_pedal` rounded by `fl`: `adc_event_sampled` with
`process_pedal_fl fl` for the call of `process_pedal`. The pair `sampled` stands for what
the call `update_switches(&switches, &switches_diff)` of line 139 leaves in `switches`
and `switches_diff`. -/
def adc_event_fl (fl : ℚ → ℚ) (b : Build) (k : PedalH) (h : CanH) (i : Inputs)
    (sampled : Nat × Nat) (s : State) : State :=
  let events := u16_and_not s.events EVENT_ADC
  let request_regen :=
    if b.REGEN_ON_BRAKE = true then (s.switches &&& h.SW_BRAKE) % 256 else FALSE
  let command :=
    process_pedal_fl fl k s.command i.ADC12MEM0 i.ADC12MEM1 i.ADC12MEM2 request_regen
  let switches := sampled.1
  let switches_diff := sampled.2
  let next_state := next_state_of b h command.state switches events s.current_egear
  let leds := state_leds command.state s.P5OUT s.charge_flash_count
  let command := { command with state := next_state }
  let P1OUT := if bit_set switches h.SW_BRAKE ∨ bit_set events EVENT_REGEN
               then u8_or s.P1OUT BRAKE_OUT else u8_and_not s.P1OUT BRAKE_OUT
  let P1OUT := if command.state = MODE_R then u8_or P1OUT REVERSE_OUT
               else u8_and_not P1OUT REVERSE_OUT
  let powered := bit_set switches h.SW_IGN_ACC ∨ bit_set switches h.SW_IGN_ON
  let P1OUT := if powered then u8_or P1OUT CAN_PWR_OUT else u8_and_not P1OUT CAN_PWR_OUT
  let P6OUT := if powered then u8_or s.P6OUT ANLG_V_ENABLE
               else u8_and_not s.P6OUT ANLG_V_ENABLE
  let events := if powered then events else u16_and_not events EVENT_CONNECTED
  let P5OUT := if powered then u8_or leds.1 LED_GEAR_BL else u8_and_not leds.1 LED_GEAR_BL
  let P3OUT :=
    if bit_set switches
        (h.SW_ACCEL_FAULT ||| h.SW_CAN_FAULT ||| h.SW_BRAKE_FAULT ||| h.SW_REV_FAULT)
    then u8_and_not s.P3OUT LED_REDn else u8_or s.P3OUT LED_REDn
  { s with
    command := command
    events := events
    switches := switches
    switches_diff := switches_diff
    next_state := next_state
    charge_flash_count := leds.2
    P1OUT := P1OUT
    P3OUT := P3OUT
    P5OUT := P5OUT
    P6OUT := P6OUT }

/-- The number of timer ticks per comms event (tri86.h). -/
def COMMS_SPEED : Nat := 10

/-- The number of timer ticks the activity light stays on (tri86.h). -/
def ACTIVITY_SPEED : Nat := 2

/-- The static locals of the routine `timer_a0` (both `unsigned char`). -/
structure TimerA where
  comms_count : Nat
  activity_count : Nat

/-- The routine `timer_a0` (tri86.c lines 723-749), with its static locals passed in and
out. -/
def timer_a0 (t : TimerA) (s : State) : TimerA × State :=
  let events := u16_or s.events EVENT_TIMER
  let comms_count := (t.comms_count + 255) % 256
  let events := if comms_count = 0 then u16_or events EVENT_COMMS else events
  let comms_count := if comms_count = 0 then COMMS_SPEED else comms_count
  let active := bit_set events EVENT_CAN_ACTIVITY
  let events := if active then u16_and_not events EVENT_CAN_ACTIVITY else events
  let activity_count := if active then ACTIVITY_SPEED else t.activity_count
  let P3OUT := if active then u8_and_not s.P3OUT LED_GREENn else s.P3OUT
  let P3OUT := if activity_count = 0 then u8_or P3OUT LED_GREENn else P3OUT
  let activity_count := if activity_count = 0 then activity_count else activity_count - 1
  ({ comms_count := comms_count, activity_count := activity_count },
    { s with events := events, P3OUT := P3OUT })

/-- The stores of the routine `timer_b0` (tri86.c lines 673-716) into `events`: the four
gauge flags are cleared. Its gauge outputs are not part of the state. -/
def timer_b0 (s : State) : State :=
  { s with events := u16_and_not (u16_and_not (u16_and_not (u16_and_not s.events EVENT_GAUGE1)
      EVENT_GAUGE2) EVENT_GAUGE3) EVENT_GAUGE4 }

/-- The routine `adc_isr` (tri86.c lines 801-807). -/
def adc_isr (s : State) : State :=
  { s with events := u16_or s.events EVENT_ADC }

/-- What can happen next while the main loop runs: one of the three interrupt routines, or
one of the four conditional blocks of the loop body, each with the hardware inputs it
reads. For the ADC block, `sampled` is the pair that the call of `update_switches` leaves
in `switches` and `switches_diff`; for the receive block, `can` is the frame `can_receive`
left in the receive buffer and `slot` the record under `can_push_ptr`. -/
inductive LoopEvent where
  | isr_timer_a0 (t : TimerA)
  | isr_timer_b0
  | isr_adc
  | timer
  | adc (i : Inputs) (sampled : Nat × Nat)
  | comms (slots : Nat → can_variables)
  | receive (P2IN : Nat) (can slot : can_variables)

/-- The effect of one event on the state. The four blocks of the loop body carry their
guards (tri86.c lines 120, 125, 295, 444); an interrupt routine is taken to run between
blocks. The `float` operations of `process_pedal` are rounded by `fl`. -/
def loop_step (fl : ℚ → ℚ) (b : Build) (k : PedalH) (h : CanH) (g : GaugeC)
    (float_of : Nat → rx_float) (float_bits : ℚ → Nat) : LoopEvent → State → State
  | .isr_timer_a0 t, s => (timer_a0 t s).2
  | .isr_timer_b0, s => timer_b0 s
  | .isr_adc, s => adc_isr s
  | .timer, s =>
      if bit_set s.events EVENT_TIMER then { s with events := u16_and_not s.events EVENT_TIMER }
      else s
  | .adc i sampled, s =>
      if bit_set s.events EVENT_ADC then adc_event_fl fl b k h i sampled s else s
  | .comms slots, s =>
      if bit_set s.events EVENT_COMMS then comms_event b h float_bits slots s else s
  | .receive P2IN can slot, s =>
      if P2IN &&& CAN_INTn = 0 then can_receive_event h g float_of float_bits can slot s
      else s

/-- The state after the events of the list, in order. -/
def loop_run (fl : ℚ → ℚ) (b : Build) (k : PedalH) (h : CanH) (g : GaugeC)
    (float_of : Nat → rx_float) (float_bits : ℚ → Nat) : List LoopEvent → State → State
  | [], s => s
  | e :: rest, s =>
      loop_run fl b k h g float_of float_bits rest
        (loop_step fl b k h g float_of float_bits e s)

/-- Whether the event processes a motor velocity Data frame. -/
def is_velocity_frame (h : CanH) : LoopEvent → Prop
  | .receive P2IN can _ =>
      P2IN &&& CAN_INTn = 0 ∧ can.status = h.CAN_OK ∧
        can.address = h.MC_CAN_BASE + h.MC_VELOCITY
  | _ => False

/-- Whether the event processes a Data frame. -/
def is_data_frame (h : CanH) : LoopEvent → Prop
  | .receive P2IN can _ => P2IN &&& CAN_INTn = 0 ∧ can.status = h.CAN_OK
  | _ => False

/-- The mode after a sequence of state-machine steps, each with its own switch word, event
word and gearbox status (in this order in the triples). -/
def mode_run (b : Build) (h : CanH) : List (Nat × Nat × Nat) → Nat → Nat
  | [], m => m
  | t :: rest, m => mode_run b h rest (next_state_of b h m t.1 t.2.1 t.2.2)

/-- The state after `n` comms events in a row (no other event in between). -/
def comms_ticks (b : Build) (h : CanH) (float_bits : ℚ → Nat) (slots : Nat → can_variables) :
    Nat → State → State
  | 0, s => s
  | n + 1, s => comms_ticks b h float_bits slots n (comms_event b h float_bits slots s)

/-- Following the claim's words for the direction of a command (`mode Reverse` with `a speed
setpoint <= 0`; `Drive-Low, Drive-High, Brake-Low or Brake-High` with `a speed setpoint
>= 0`): whether the speed setpoint of the record agrees with the direction of its mode. -/
def direction_ok (command : command_variables) : Prop :=
  (command.state = MODE_R → command.rpm ≤ 0) ∧
  (command.state = MODE_DL ∨ command.state = MODE_DH ∨ command.state = MODE_BL ∨
    command.state = MODE_BH → 0 ≤ command.rpm)

instance (command : command_variables) : Decidable (direction_ok command) := by
  unfold direction_ok; infer_instance

/-- Whether the event is the ADC block of the main loop. -/
def is_adc_event : LoopEvent → Prop
  | .adc _ _ => True
  | _ => False

/-- Whether the mode is one of the four forward modes: Drive-Low, Drive-High, Brake-Low,
Brake-High. -/
def mode_forward (m : Nat) : Prop :=
  m = MODE_DL ∨ m = MODE_DH ∨ m = MODE_BL ∨ m = MODE_BH

instance (m : Nat) : Decidable (mode_forward m) := by
  unfold mode_forward; infer_instance

instance (h : CanH) (e : LoopEvent) : Decidable (is_velocity_frame h e) := by
  cases e <;> unfold is_velocity_frame <;> infer_instance

instance (h : CanH) (e : LoopEvent) : Decidable (is_data_frame h e) := by
  cases e <;> unfold is_data_frame <;> infer_instance

instance (e : LoopEvent) : Decidable (is_adc_event e) := by
  cases e <;> unfold is_adc_event <;> infer_instance

/-- Whether the event is the comms block of the main loop. -/
def is_comms_event : LoopEvent → Prop
  | .comms _ => True
  | _ => False

instance (e : LoopEvent) : Decidable (is_comms_event e) := by
  cases e <;> unfold is_comms_event <;> infer_instance

/-! ## Sample headers, for evaluating the definitions on concrete inputs -/

/-- A sample `pedal.h`: 12-bit samples, unit current limit, fault masks 1, 2, 16, 32. -/
def pedalH_unit : PedalH where
  PEDAL_ERROR_MIN := 50
  PEDAL_ERROR_MAX := 4000
  PEDAL_TRAVEL_MIN := 500
  PEDAL_TRAVEL := 3000
  REGEN_ERROR_MIN := 0
  REGEN_ERROR_MAX := 4095
  CURRENT_MAX := 1
  RPM_FWD_MAX := 4000
  RPM_REV_MAX := -4000
  FAULT_ACCEL_LOW := 1
  FAULT_ACCEL_HIGH := 2
  FAULT_REGEN_LOW := 16
  FAULT_REGEN_HIGH := 32

/-- The sample header with a current limit of one eighth. -/
def pedalH_eighth : PedalH := { pedalH_unit with CURRENT_MAX := 1 / 8 }

/-- The sample header with a current limit of two. -/
def pedalH_two : PedalH := { pedalH_unit with CURRENT_MAX := 2 }

/-- A sample `can.h`, with the switch bits in the low nine positions. -/
def canH_sample : CanH where
  SW_MODE_R := 0x0001
  SW_MODE_N := 0x0002
  SW_MODE_B := 0x0004
  SW_MODE_D := 0x0008
  SW_IGN_ACC := 0x0010
  SW_IGN_ON := 0x0020
  SW_IGN_START := 0x0040
  SW_BRAKE := 0x0080
  SW_FUEL := 0x0100
  SW_ACCEL_FAULT := 0x1000
  SW_CAN_FAULT := 0x2000
  SW_BRAKE_FAULT := 0x4000
  SW_REV_FAULT := 0x8000
  EG_STATE_NEUTRAL := 0
  EG_STATE_LOW := 1
  EG_STATE_HIGH := 2
  EG_CMD_NEUTRAL := 0
  EG_CMD_LOW := 1
  EG_CMD_HIGH := 2
  DC_CAN_BASE := 0x500
  DC_DRIVE := 1
  DC_POWER := 2
  DC_SWITCH := 5
  DC_BOOTLOAD := 22
  MC_CAN_BASE := 0x400
  MC_VELOCITY := 3
  MC_I_VECTOR := 6
  MC_TEMP1 := 11
  MC_LIMITS := 1
  MC_BUS := 2
  EG_CAN_BASE := 0x580
  EG_STATUS := 1
  EG_COMMAND := 2
  CAN_OK := 0x0001
  CAN_RTR := 0xFFFC
  CAN_ERROR := 0xFFFF

/-- A frame record with the given status and address and an all-zero payload. -/
def frame_of (status address : Nat) : can_variables :=
  { status := status, address := address, data := fun _ => 0 }

/-- A Data frame on the bootload address of the sample `can.h` that carries the characters
B, O, O, T, L, O, A, D in bytes 0..7. -/
def bootload_request : can_variables :=
  { status := 0x0001
    address := 0x516
    data := fun j =>
      if j.val = 0 then 66 else if j.val = 1 then 79 else if j.val = 2 then 79
      else if j.val = 3 then 84 else if j.val = 4 then 76 else if j.val = 5 then 79
      else if j.val = 6 then 65 else 68 }

/-- A sample `gauge.c` trace: the tachometer update raises EVENT_GAUGE1, the temperature
update EVENT_GAUGE3, the power update EVENT_GAUGE2 and the fuel update EVENT_GAUGE4. -/
def gauge_sample : GaugeC :=
  { tach_events := EVENT_GAUGE1, temp_events := EVENT_GAUGE3, power_events := EVENT_GAUGE2,
    fuel_events := EVENT_GAUGE4 }

/-- A sample value function for received patterns: the binary32 patterns of 60.0 and of
0.0 have their values, every other pattern counts as not a number. -/
def float_of_sample : Nat → rx_float :=
  fun bits => if bits = 0x42700000 then some 60 else if bits = 0 then some 0 else none

/-- A motor velocity Data frame of the sample `can.h` whose slot 0 holds the binary32
pattern 0x42700000 of 60.0 (bytes 00 00 70 42) and whose slot 1 holds zero. -/
def velocity_frame_60 : can_variables :=
  { status := 0x0001
    address := 0x403
    data := fun j => if j.val = 2 then 0x70 else if j.val = 3 then 0x42 else 0 }

/-- A command record with no fault flag in the given mode. -/
def command_in (mode : Nat) : command_variables :=
  { rpm := 0, current := 0, bus_current := 1, flags := 0, state := mode }

/-- A sample pattern function for transmitted values: 4000.0 and 0.0 have their binary32
patterns, every other value the pattern of a quiet not-a-number. -/
def float_bits_sample : ℚ → Nat :=
  fun x => if x = 4000 then 0x457A0000 else if x = 0 then 0 else 0x7FC00000

/-- The hardware inputs of an ADC event with the brake and start switches released, the
given gear lines on port 2, the given pedal sample on channel A and 100 on channel C. -/
def inputs_gear (P2IN pedal : Nat) : Inputs :=
  { P1IN := 0x06, P2IN := P2IN, ADC12MEM0 := pedal, ADC12MEM1 := 0, ADC12MEM2 := 100 }

/-- One period of the 10 ms timer: the timer interrupt (`comms_count` is the value of its
static counter on entry, the activity counter is at rest), the timer block of the loop,
which starts the conversions, the ADC interrupt and the ADC block. -/
def loop_tick (comms_count : Nat) (i : Inputs) (sampled : Nat × Nat) : List LoopEvent :=
  [ .isr_timer_a0 { comms_count := comms_count, activity_count := 0 }, .timer, .isr_adc,
    .adc i sampled ]

/-- The tenth period of the timer up to the comms block: the timer interrupt raises
EVENT_COMMS, the timer block starts the conversions, and the comms block runs before they
complete. -/
def loop_tick_comms : List LoopEvent :=
  [ .isr_timer_a0 { comms_count := 1, activity_count := 0 }, .timer,
    .comms (fun _ => frame_of 0 0) ]

/-- The first 100 ms of a run of the main loop from power-up with the selector in
Neutral: a motor velocity Data frame carrying 0.0 is received; seven timer periods with the
selector in Neutral and the pedal at rest (sample 600); one with the selector in Drive; one
with the selector in Reverse and the pedal fully pressed (sample 4000); then the tenth timer
interrupt and the comms block. The switch pair of each ADC event is the one
`update_switches` returns for its ports. -/
def reverse_after_drive : List LoopEvent :=
  [ .receive 0x04 (frame_of 0x0001 0x403) (frame_of 0 0) ] ++
  loop_tick 10 (inputs_gear 0x84 600) (0x0032, 0) ++
  loop_tick 9 (inputs_gear 0x84 600) (0x0032, 0) ++
  loop_tick 8 (inputs_gear 0x84 600) (0x0032, 0) ++
  loop_tick 7 (inputs_gear 0x84 600) (0x0032, 0) ++
  loop_tick 6 (inputs_gear 0x84 600) (0x0032, 0) ++
  loop_tick 5 (inputs_gear 0x84 600) (0x0032, 0) ++
  loop_tick 4 (inputs_gear 0x84 600) (0x0032, 0) ++
  loop_tick 3 (inputs_gear 0x81 600) (0x0038, 0x000A) ++
  loop_tick 2 (inputs_gear 0x88 4000) (0x0031, 0x0009) ++
  loop_tick_comms

/-- The first 100 ms of a run of the main loop from power-up in which no frame is
received: nine timer periods with the selector in Neutral and the pedal at rest, then the
tenth timer interrupt and the comms block. -/
def comms_at_power_up : List LoopEvent :=
  loop_tick 10 (inputs_gear 0x84 600) (0x0032, 0) ++
  loop_tick 9 (inputs_gear 0x84 600) (0x0032, 0) ++
  loop_tick 8 (inputs_gear 0x84 600) (0x0032, 0) ++
  loop_tick 7 (inputs_gear 0x84 600) (0x0032, 0) ++
  loop_tick 6 (inputs_gear 0x84 600) (0x0032, 0) ++
  loop_tick 5 (inputs_gear 0x84 600) (0x0032, 0) ++
  loop_tick 4 (inputs_gear 0x84 600) (0x0032, 0) ++
  loop_tick 3 (inputs_gear 0x84 600) (0x0032, 0) ++
  loop_tick 2 (inputs_gear 0x84 600) (0x0032, 0) ++
  loop_tick_comms

/-- A run of the main loop with no motor velocity frame: a timer period with the selector
in Drive, a Data frame on the motor controller bus address, a timer period with the selector
in Reverse. -/
def gears_without_velocity : List LoopEvent :=
  loop_tick 10 (inputs_gear 0x81 600) (0x0038, 0x000A) ++
  [ .receive 0x04 (frame_of 0x0001 0x402) (frame_of 0 0) ] ++
  loop_tick 9 (inputs_gear 0x88 600) (0x0031, 0x0009)

/-! ## Theorems -/

/-! ## Bit-level facts about the flag stores -/

theorem testBit_u8_or (x m i : Nat) :
    (u8_or x m).testBit i = (decide (i < 8) && (x.testBit i || m.testBit i)) := by
  unfold u8_or
  rw [show (256 : Nat) = 2 ^ 8 from rfl, Nat.testBit_mod_two_pow, Nat.testBit_or]

theorem testBit_u8_and_not (x m i : Nat) :
    (u8_and_not x m).testBit i = (decide (i < 8) && (x.testBit i && !m.testBit i)) := by
  unfold u8_and_not
  rw [show (256 : Nat) = 2 ^ 8 from rfl, Nat.testBit_mod_two_pow, Nat.testBit_and,
    Nat.testBit_xor, Nat.testBit_mod_two_pow, show (255 : Nat) = 2 ^ 8 - 1 from rfl,
    Nat.testBit_two_pow_sub_one]
  by_cases h : i < 8 <;> simp [h]

/-- A non-zero byte mask has a set bit among its low eight bits. -/
theorem exists_bit_of_mask {m : Nat} (h0 : 0 < m) (h8 : m < 256) :
    ∃ i, i < 8 ∧ m.testBit i = true := by
  obtain ⟨i, hi⟩ := Nat.ne_zero_implies_bit_true (Nat.pos_iff_ne_zero.mp h0)
  refine ⟨i, ?_, hi⟩
  by_contra hge
  have hpow : (2 : Nat) ^ 8 ≤ 2 ^ i := Nat.pow_le_pow_right (by decide) (by omega)
  have := Nat.testBit_implies_ge hi
  omega

/-- Masks without a common bit: a bit of one is not a bit of the other. -/
theorem bit_of_disjoint {m n i : Nat} (h : m &&& n = 0) (hm : m.testBit i = true) :
    n.testBit i = false := by
  have := congrArg (fun x => x.testBit i) h
  simp only [Nat.testBit_and, Nat.zero_testBit, hm, Bool.true_and] at this
  exact this

theorem ne_zero_of_testBit {x i : Nat} (h : x.testBit i = true) : x ≠ 0 := by
  rintro rfl
  simp at h

/-- An accelerator sample outside the error window leaves a fault flag set, whatever the
flags were before and whatever the regen sample is. -/
theorem update_flags_accel_fault (k : PedalH) (hk : k.masks_ok) (flags analog_a analog_c : Nat)
    (h : analog_a < k.PEDAL_ERROR_MIN ∨ analog_a > k.PEDAL_ERROR_MAX) :
    update_flags k flags analog_a analog_c ≠ 0 := by
  obtain ⟨⟨al0, al8⟩, ⟨ah0, ah8⟩, -, -, d1, d2, d3, d4, d5, -⟩ := hk
  by_cases hhigh : analog_a > k.PEDAL_ERROR_MAX
  · obtain ⟨i, hi, hb⟩ := exists_bit_of_mask ah0 ah8
    have b4 := bit_of_disjoint d4 hb
    have b5 := bit_of_disjoint d5 hb
    apply ne_zero_of_testBit (i := i)
    unfold update_flags
    simp only [hhigh, if_true]
    split_ifs <;> simp [testBit_u8_or, testBit_u8_and_not, hi, hb, b4, b5]
  · have hlow : analog_a < k.PEDAL_ERROR_MIN := h.resolve_right hhigh
    obtain ⟨i, hi, hb⟩ := exists_bit_of_mask al0 al8
    have b1 := bit_of_disjoint d1 hb
    have b2 := bit_of_disjoint d2 hb
    have b3 := bit_of_disjoint d3 hb
    apply ne_zero_of_testBit (i := i)
    unfold update_flags
    simp only [hhigh, hlow, if_true, if_false]
    split_ifs <;> simp [testBit_u8_or, testBit_u8_and_not, hi, hb, b1, b2, b3]

/-- The flag update is idempotent: a second pass over the same samples changes nothing. -/
theorem update_flags_idem (k : PedalH) (flags analog_a analog_c : Nat) :
    update_flags k (update_flags k flags analog_a analog_c) analog_a analog_c =
      update_flags k flags analog_a analog_c := by
  apply Nat.eq_of_testBit_eq
  intro i
  unfold update_flags
  split_ifs <;>
    simp only [testBit_u8_or, testBit_u8_and_not] <;>
    cases decide (i < 8) <;> cases flags.testBit i <;>
    cases k.FAULT_ACCEL_LOW.testBit i <;> cases k.FAULT_ACCEL_HIGH.testBit i <;>
    cases k.FAULT_REGEN_LOW.testBit i <;> cases k.FAULT_REGEN_HIGH.testBit i <;> rfl

theorem process_pedal_flags (k : PedalH) (c : command_variables) (a b cc r : Nat) :
    (process_pedal k c a b cc r).flags = update_flags k c.flags a cc := by
  unfold process_pedal
  simp only
  split_ifs <;> rfl

theorem process_pedal_state (k : PedalH) (c : command_variables) (a b cc r : Nat) :
    (process_pedal k c a b cc r).state = c.state := by
  unfold process_pedal
  simp only
  split_ifs <;> rfl

theorem process_pedal_bus_current (k : PedalH) (c : command_variables) (a b cc r : Nat) :
    (process_pedal k c a b cc r).bus_current = c.bus_current := by
  unfold process_pedal
  simp only
  split_ifs <;> rfl

theorem process_pedal_fault (k : PedalH) (c : command_variables) (a b cc r : Nat)
    (h : update_flags k c.flags a cc ≠ 0) :
    (process_pedal k c a b cc r).current = 0 ∧ (process_pedal k c a b cc r).rpm = 0 := by
  unfold process_pedal
  simp only [h, if_false, and_self]

theorem scale_pedal_nonneg (k : PedalH) (hk : k.limits_ok) (a : Nat) : 0 ≤ scale_pedal k a := by
  obtain ⟨hc, ht⟩ := hk
  unfold scale_pedal
  simp only
  split_ifs with h1 h2 h2
  · exact hc.le
  · exact div_nonneg (mul_nonneg (Nat.cast_nonneg _) hc.le) ht.le
  · exact hc.le
  · simp

theorem scale_pedal_le_max (k : PedalH) (a : Nat) : scale_pedal k a ≤ k.CURRENT_MAX := by
  unfold scale_pedal
  simp only
  split_ifs with h1 h2 h2
  · exact le_refl _
  · exact not_lt.mp h2
  · exact le_refl _
  · exact not_lt.mp h2

theorem scale_pedal_mono (k : PedalH) (hk : k.limits_ok) {a1 a2 : Nat} (h : a1 ≤ a2) :
    scale_pedal k a1 ≤ scale_pedal k a2 := by
  obtain ⟨hc, ht⟩ := hk
  have key : ∀ x y : ℚ, x ≤ y →
      (if x * k.CURRENT_MAX / k.PEDAL_TRAVEL > k.CURRENT_MAX then k.CURRENT_MAX
        else x * k.CURRENT_MAX / k.PEDAL_TRAVEL) ≤
      (if y * k.CURRENT_MAX / k.PEDAL_TRAVEL > k.CURRENT_MAX then k.CURRENT_MAX
        else y * k.CURRENT_MAX / k.PEDAL_TRAVEL) := by
    intro x y hxy
    have hm : x * k.CURRENT_MAX / k.PEDAL_TRAVEL ≤ y * k.CURRENT_MAX / k.PEDAL_TRAVEL :=
      div_le_div_of_nonneg_right (mul_le_mul_of_nonneg_right hxy hc.le) ht.le
    split_ifs with h1 h2 h2
    · exact le_refl _
    · exact absurd (lt_of_lt_of_le h1 hm) h2
    · exact not_lt.mp h1
    · exact hm
  unfold scale_pedal
  simp only
  apply key
  split_ifs with h1 h2 h2
  · exact_mod_cast Nat.sub_le_sub_right h _
  · omega
  · exact Nat.cast_nonneg _
  · exact le_refl _

theorem spec_pedal_eq_scale_pedal (k : PedalH) (hk : k.limits_ok) (a : Nat) :
    scale_pedal k a = spec_pedal k a := by
  obtain ⟨hc, ht⟩ := hk
  unfold scale_pedal spec_pedal
  simp only
  by_cases h : a ≤ k.PEDAL_TRAVEL_MIN
  · have h' : ¬ a > k.PEDAL_TRAVEL_MIN := by omega
    simp only [h, h', if_true, if_false, zero_mul, zero_div]
    rw [if_neg (not_lt.mpr hc.le)]
  · have h' : a > k.PEDAL_TRAVEL_MIN := by omega
    simp only [h, h', if_true, if_false]
    have hcast : ((a - k.PEDAL_TRAVEL_MIN : Nat) : ℚ) = (a : ℚ) - k.PEDAL_TRAVEL_MIN :=
      Nat.cast_sub h'.le
    rw [hcast]
    have heq : ((a : ℚ) - k.PEDAL_TRAVEL_MIN) * k.CURRENT_MAX / k.PEDAL_TRAVEL =
        k.CURRENT_MAX * (((a : ℚ) - k.PEDAL_TRAVEL_MIN) / k.PEDAL_TRAVEL) := by ring
    rw [heq]
    split_ifs with h2
    · exact (min_eq_left h2.le).symm
    · exact (min_eq_right (not_lt.mp h2)).symm

theorem pedalH_unit_masks_ok : pedalH_unit.masks_ok := by decide

theorem pedalH_unit_limits_ok : pedalH_unit.limits_ok := by
  unfold PedalH.limits_ok pedalH_unit; norm_num

/-- C1: an accelerator sample below PEDAL_ERROR_MIN or above PEDAL_ERROR_MAX makes
`process_pedal` leave `command.current = 0` and `command.rpm = 0`, for every other sample,
regen request, prior flags and mode. -/
theorem C1_out_of_range_zero (k : PedalH) (hk : k.masks_ok) (command : command_variables)
    (analog_a analog_b analog_c request_regen : Nat)
    (h : analog_a < k.PEDAL_ERROR_MIN ∨ analog_a > k.PEDAL_ERROR_MAX) :
    (process_pedal k command analog_a analog_b analog_c request_regen).current = 0 ∧
    (process_pedal k command analog_a analog_b analog_c request_regen).rpm = 0 :=
  process_pedal_fault k command analog_a analog_b analog_c request_regen
    (update_flags_accel_fault k hk command.flags analog_a analog_c h)

theorem C1_out_of_range_zero_witness :
    pedalH_unit.masks_ok ∧ (4001 > pedalH_unit.PEDAL_ERROR_MAX) ∧
    (process_pedal pedalH_unit (command_in MODE_DL) 4001 2000 100 0).current = 0 ∧
    (process_pedal pedalH_unit (command_in MODE_DL) 4001 2000 100 0).rpm = 0 :=
  ⟨by decide, by decide,
    C1_out_of_range_zero pedalH_unit (by decide) (command_in MODE_DL) 4001 2000 100 0
      (Or.inr (by decide))⟩

/-- Two accelerator samples inside the error window lead to the same fault flags. -/
theorem update_flags_in_range (k : PedalH) (flags a1 a2 cc : Nat)
    (h1 : k.PEDAL_ERROR_MIN ≤ a1 ∧ a1 ≤ k.PEDAL_ERROR_MAX)
    (h2 : k.PEDAL_ERROR_MIN ≤ a2 ∧ a2 ≤ k.PEDAL_ERROR_MAX) :
    update_flags k flags a1 cc = update_flags k flags a2 cc := by
  have e1 : ¬ a1 < k.PEDAL_ERROR_MIN := by omega
  have e2 : ¬ a1 > k.PEDAL_ERROR_MAX := by omega
  have e3 : ¬ a2 < k.PEDAL_ERROR_MIN := by omega
  have e4 : ¬ a2 > k.PEDAL_ERROR_MAX := by omega
  unfold update_flags
  simp only [e1, e2, e3, e4, if_false]

/-- The record left by `process_pedal` depends on the record it is given only through
the recomputed flags, the mode and the bus current. -/
theorem process_pedal_congr (k : PedalH) (c1 c2 : command_variables) (a b cc r : Nat)
    (hf : update_flags k c1.flags a cc = update_flags k c2.flags a cc)
    (hs : c1.state = c2.state) (hb : c1.bus_current = c2.bus_current) :
    process_pedal k c1 a b cc r = process_pedal k c2 a b cc r := by
  unfold process_pedal
  simp only [hf, hs, hb]

/-- C5: `process_pedal` is idempotent on the command record: a second call with the same
arguments returns the record the first call produced (flags, current, rpm, and also the
untouched mode and bus current). -/
theorem C5_process_pedal_idempotent (k : PedalH) (command : command_variables)
    (analog_a analog_b analog_c request_regen : Nat) :
    process_pedal k (process_pedal k command analog_a analog_b analog_c request_regen)
        analog_a analog_b analog_c request_regen =
      process_pedal k command analog_a analog_b analog_c request_regen := by
  apply process_pedal_congr
  · rw [process_pedal_flags]
    exact update_flags_idem k command.flags analog_a analog_c
  · exact process_pedal_state k command analog_a analog_b analog_c request_regen
  · exact process_pedal_bus_current k command analog_a analog_b analog_c request_regen

/-- C8: the command record left by `process_pedal` does not depend on analog_b. -/
theorem C8_independent_of_analog_b (k : PedalH) (command : command_variables)
    (analog_a analog_b analog_b2 analog_c request_regen : Nat) :
    process_pedal k command analog_a analog_b analog_c request_regen =
      process_pedal k command analog_a analog_b2 analog_c request_regen :=
  rfl

theorem fault_inv_process_pedal (k : PedalH) (c : command_variables) (a b cc r : Nat) :
    fault_inv (process_pedal k c a b cc r) := by
  intro hf
  rw [process_pedal_flags] at hf
  exact process_pedal_fault k c a b cc r hf

theorem fault_inv_state_machine_step (b : Build) (h : CanH) (switches events eg : Nat)
    (c : command_variables) (hc : fault_inv c) :
    fault_inv (state_machine_step b h switches events eg c) :=
  hc

theorem fault_inv_comms_override (b : Build) (h : CanH) (switches : Nat)
    (c : command_variables) (hc : fault_inv c) :
    fault_inv (comms_override b h switches c) := by
  unfold comms_override
  split_ifs <;> first | exact hc | exact fun _ => ⟨rfl, rfl⟩

/-- C2: the predicate `command.flags ≠ 0 → command.current = 0 ∧ command.rpm = 0` holds
in the start-up command record; `process_pedal` establishes it from any record; the
state-machine step and the comms override preserve it; hence it holds for every value the
command record takes while the loop runs, and with a fault flag set a drive frame built
from the record, by the comms event or as a remote-request reply, carries the payload that
encodes rpm 0 and current 0. -/
theorem C2_fault_invariant (b : Build) (k : PedalH) (h : CanH) (float_bits : ℚ → Nat) :
    fault_inv command_init ∧
    (∀ (c : command_variables) (analog_a analog_b analog_c request_regen : Nat),
      fault_inv (process_pedal k c analog_a analog_b analog_c request_regen)) ∧
    (∀ (c : command_variables) (switches events current_egear : Nat),
      fault_inv c → fault_inv (state_machine_step b h switches events current_egear c)) ∧
    (∀ (c : command_variables) (switches : Nat),
      fault_inv c → fault_inv (comms_override b h switches c)) ∧
    (∀ c : command_variables, CommandReach b k h c →
      fault_inv c ∧
      ∀ slot can : can_variables, c.flags ≠ 0 →
        (comms_drive_frame h float_bits slot c).data
          = set_fp float_bits (set_fp float_bits slot.data 1 0) 0 0 ∧
        (rtr_drive_frame float_bits slot can c).data
          = set_fp float_bits (set_fp float_bits slot.data 1 0) 0 0) := by
  refine ⟨fun hf => absurd rfl hf, fun c a b2 cc r => fault_inv_process_pedal k c a b2 cc r,
    fun c sw ev eg hc => fault_inv_state_machine_step b h sw ev eg c hc,
    fun c sw hc => fault_inv_comms_override b h sw c hc, ?_⟩
  intro c hr
  have hinv : fault_inv c := by
    induction hr with
    | init => exact fun hf => absurd rfl hf
    | pedal c a b2 cc r _ _ => exact fault_inv_process_pedal k c a b2 cc r
    | mode c sw ev eg _ ih => exact fault_inv_state_machine_step b h sw ev eg c ih
    | comms c sw _ ih => exact fault_inv_comms_override b h sw c ih
  refine ⟨hinv, ?_⟩
  intro slot can hf
  obtain ⟨h1, h2⟩ := hinv hf
  unfold comms_drive_frame rtr_drive_frame
  simp only [h1, h2, and_self]

theorem C2_fault_invariant_witness :
    CommandReach build_configured pedalH_unit canH_sample
      (process_pedal pedalH_unit command_init 10 10 100 0) ∧
    (process_pedal pedalH_unit command_init 10 10 100 0).flags ≠ 0 ∧
    (process_pedal pedalH_unit command_init 10 10 100 0).current = 0 ∧
    (process_pedal pedalH_unit command_init 10 10 100 0).rpm = 0 :=
  ⟨CommandReach.pedal _ _ _ _ _ CommandReach.init,
    by rw [process_pedal_flags]; decide,
    ((C2_fault_invariant build_configured pedalH_unit canH_sample (fun _ => 0)).2.2.2.2
      (process_pedal pedalH_unit command_init 10 10 100 0)
      (CommandReach.pedal _ _ _ _ _ CommandReach.init)).1
      (by rw [process_pedal_flags]; decide)⟩

/-- C9: from mode Off, for every switch word, event word and gearbox status (and either
setting of the build options), the state-machine step yields Neutral if and only if the
SW_IGN_ON bit is set in the switch word, and yields Off otherwise. -/
theorem C9_off_transition (b : Build) (h : CanH) (switches events current_egear : Nat)
    (command : command_variables) (hoff : command.state = MODE_OFF) :
    ((state_machine_step b h switches events current_egear command).state = MODE_N ↔
      bit_set switches h.SW_IGN_ON) ∧
    (¬ bit_set switches h.SW_IGN_ON →
      (state_machine_step b h switches events current_egear command).state = MODE_OFF) := by
  unfold state_machine_step next_state_of
  simp only [hoff, if_true]
  by_cases hi : bit_set switches h.SW_IGN_ON
  · simp [hi]
  · simp [ hi, MODE_OFF, MODE_N]

theorem C9_off_transition_witness :
    command_init.state = MODE_OFF ∧
    ((state_machine_step build_configured canH_sample 0x0020 0 0 command_init).state = MODE_N ↔
      bit_set 0x0020 canH_sample.SW_IGN_ON) ∧
    (¬ bit_set 0x0020 canH_sample.SW_IGN_ON →
      (state_machine_step build_configured canH_sample 0x0020 0 0 command_init).state
        = MODE_OFF) :=
  ⟨rfl, C9_off_transition build_configured canH_sample 0x0020 0 0 command_init rfl⟩

/-- C10: in the build without the gearbox actuator (USE_EGEAR undefined), from mode
Neutral, for every switch word in which SW_MODE_R is set and every event word in which
EVENT_REVERSE is set, a single state-machine step sets `command.state` to Reverse,
whatever the other switch and event bits are (the ignition-on bit included). -/
theorem C10_neutral_to_reverse (b : Build) (hb : b.USE_EGEAR = false) (h : CanH)
    (switches events current_egear : Nat) (command : command_variables)
    (hn : command.state = MODE_N)
    (hr : bit_set switches h.SW_MODE_R) (he : bit_set events EVENT_REVERSE) :
    (state_machine_step b h switches events current_egear command).state = MODE_R := by
  have h1 : ¬ (MODE_N = MODE_OFF) := by decide
  unfold state_machine_step next_state_of
  simp only [hn, h1, hb, hr, he, if_true, if_false, or_true, and_self]

theorem C10_neutral_to_reverse_witness :
    build_configured.USE_EGEAR = false ∧ (command_in MODE_N).state = MODE_N ∧
    bit_set 0x0021 canH_sample.SW_MODE_R ∧ bit_set 0x0021 canH_sample.SW_IGN_ON ∧
    bit_set 0x0040 EVENT_REVERSE ∧
    (state_machine_step build_configured canH_sample 0x0021 0x0040 0
      (command_in MODE_N)).state = MODE_R :=
  ⟨rfl, rfl, by decide, by decide, by decide,
    C10_neutral_to_reverse build_configured rfl canH_sample 0x0021 0x0040 0
      (command_in MODE_N) rfl (by decide) (by decide)⟩

/-- C11: from each of the modes Reverse, Brake-Low, Brake-High, Drive-Low and Drive-High,
for every switch word in which SW_MODE_N is set and for every event word (and gearbox
status, and either setting of the build options), the state-machine step yields Neutral. -/
theorem C11_neutral_selector_wins (b : Build) (h : CanH)
    (switches events current_egear : Nat) (command : command_variables)
    (hm : command.state = MODE_R ∨ command.state = MODE_BL ∨ command.state = MODE_BH ∨
      command.state = MODE_DL ∨ command.state = MODE_DH)
    (hn : bit_set switches h.SW_MODE_N) :
    (state_machine_step b h switches events current_egear command).state = MODE_N := by
  unfold state_machine_step next_state_of
  rcases hm with hm | hm | hm | hm | hm <;>
    simp [hm, hn, MODE_OFF, MODE_N, MODE_R, MODE_BL, MODE_BH, MODE_DL, MODE_DH, MODE_CO_R,
      MODE_CO_BL, MODE_CO_BH, MODE_CO_DL, MODE_CO_DH]

theorem C11_neutral_selector_wins_witness :
    (command_in MODE_DH).state = MODE_DH ∧ bit_set 0x002F canH_sample.SW_MODE_N ∧
    (state_machine_step build_configured canH_sample 0x002F 0x0020 0
      (command_in MODE_DH)).state = MODE_N :=
  ⟨rfl, by decide,
    C11_neutral_selector_wins build_configured canH_sample 0x002F 0x0020 0 (command_in MODE_DH)
      (Or.inr (Or.inr (Or.inr (Or.inr rfl)))) (by decide)⟩

/-- C12: in the build without the gearbox actuator, for every switch word and event word,
if the step from Neutral, Brake-Low or Drive-Low yields Reverse then EVENT_SLOW or
EVENT_REVERSE is set, and if the step from Reverse or Neutral yields Brake-Low or Drive-Low
then EVENT_SLOW or EVENT_FORWARD is set. -/
theorem C12_direction_change_gated (b : Build) (hb : b.USE_EGEAR = false) (h : CanH)
    (switches events current_egear : Nat) (command : command_variables) :
    ((command.state = MODE_N ∨ command.state = MODE_BL ∨ command.state = MODE_DL) →
      (state_machine_step b h switches events current_egear command).state = MODE_R →
      bit_set events EVENT_SLOW ∨ bit_set events EVENT_REVERSE) ∧
    ((command.state = MODE_R ∨ command.state = MODE_N) →
      ((state_machine_step b h switches events current_egear command).state = MODE_BL ∨
        (state_machine_step b h switches events current_egear command).state = MODE_DL) →
      bit_set events EVENT_SLOW ∨ bit_set events EVENT_FORWARD) := by
  unfold state_machine_step next_state_of
  constructor
  · intro hm hres
    rcases hm with hm | hm | hm <;>
      simp only [hm, hb, MODE_OFF, MODE_N, MODE_R, MODE_BL, MODE_BH, MODE_DL, MODE_DH,
        MODE_CO_R, MODE_CO_BL, MODE_CO_BH, MODE_CO_DL, MODE_CO_DH, MODE_CHARGE] at hres <;>
      simp only [Nat.reduceEqDiff, if_false, if_true, or_self, false_and,
        Bool.false_eq_true] at hres <;>
      split_ifs at hres <;> first | (exact absurd hres (by decide)) | tauto
  · intro hm hres
    rcases hm with hm | hm <;>
      simp only [hm, hb, MODE_OFF, MODE_N, MODE_R, MODE_BL, MODE_BH, MODE_DL, MODE_DH,
        MODE_CO_R, MODE_CO_BL, MODE_CO_BH, MODE_CO_DL, MODE_CO_DH, MODE_CHARGE] at hres <;>
      simp only [Nat.reduceEqDiff, if_false, if_true, or_self, false_and,
        Bool.false_eq_true] at hres <;>
      split_ifs at hres <;> first | (exact absurd hres (by decide)) | tauto

theorem C12_direction_change_gated_witness :
    build_configured.USE_EGEAR = false ∧ (command_in MODE_DL).state = MODE_DL ∧
    (state_machine_step build_configured canH_sample 0x0021 0x0040 0
      (command_in MODE_DL)).state = MODE_R ∧
    (bit_set 0x0040 EVENT_SLOW ∨ bit_set 0x0040 EVENT_REVERSE) :=
  ⟨rfl, rfl, by decide,
    (C12_direction_change_gated build_configured rfl canH_sample 0x0021 0x0040 0
      (command_in MODE_DL)).1 (Or.inr (Or.inr rfl)) (by decide)⟩

/-- C13: from mode Charge, for every switch word, event word and gearbox status (and either
setting of the build options), the step yields Neutral when SW_FUEL is not set; otherwise
Off when SW_IGN_ON is not set; otherwise Charge. The result is a function of these two
switch tests alone. -/
theorem C13_charge_transitions (b : Build) (h : CanH) (switches events current_egear : Nat)
    (command : command_variables) (hm : command.state = MODE_CHARGE) :
    (¬ bit_set switches h.SW_FUEL →
      (state_machine_step b h switches events current_egear command).state = MODE_N) ∧
    (bit_set switches h.SW_FUEL → ¬ bit_set switches h.SW_IGN_ON →
      (state_machine_step b h switches events current_egear command).state = MODE_OFF) ∧
    (bit_set switches h.SW_FUEL → bit_set switches h.SW_IGN_ON →
      (state_machine_step b h switches events current_egear command).state = MODE_CHARGE) := by
  unfold state_machine_step next_state_of
  simp only [hm, MODE_OFF, MODE_N, MODE_R, MODE_BL, MODE_BH, MODE_DL, MODE_DH,
    MODE_CO_R, MODE_CO_BL, MODE_CO_BH, MODE_CO_DL, MODE_CO_DH, MODE_CHARGE]
  refine ⟨?_, ?_, ?_⟩
  · intro hf; simp [hf]
  · intro hf hi; simp [hf, hi]
  · intro hf hi; simp [hf, hi]

theorem C13_charge_transitions_witness :
    (command_in MODE_CHARGE).state = MODE_CHARGE ∧ ¬ bit_set 0x0021 canH_sample.SW_FUEL ∧
    (state_machine_step build_configured canH_sample 0x0021 0x0010 0
      (command_in MODE_CHARGE)).state = MODE_N :=
  ⟨rfl, by decide,
    (C13_charge_transitions build_configured canH_sample 0x0021 0x0010 0
      (command_in MODE_CHARGE) rfl).1 (by decide)⟩

/-- Bit `i` after the store `x |= m` on a 16-bit object. -/
theorem testBit_u16_or (x m i : Nat) :
    (u16_or x m).testBit i = (decide (i < 16) && (x.testBit i || m.testBit i)) := by
  unfold u16_or
  rw [show (65536 : Nat) = 2 ^ 16 from rfl, Nat.testBit_mod_two_pow, Nat.testBit_or]

/-- Bit `i` after the store `x &= ~m` on a 16-bit object. -/
theorem testBit_u16_and_not (x m i : Nat) :
    (u16_and_not x m).testBit i = (decide (i < 16) && (x.testBit i && !m.testBit i)) := by
  unfold u16_and_not
  rw [show (65536 : Nat) = 2 ^ 16 from rfl, Nat.testBit_mod_two_pow, Nat.testBit_and,
    Nat.testBit_xor, Nat.testBit_mod_two_pow, show (65535 : Nat) = 2 ^ 16 - 1 from rfl,
    Nat.testBit_two_pow_sub_one]
  by_cases h : i < 16 <;> simp [h]

/-- The test `w & m` for a single-bit mask is the test of that bit. -/
theorem bit_set_two_pow (w n : Nat) : bit_set w (2 ^ n) ↔ w.testBit n = true := by
  unfold bit_set
  rw [Nat.and_two_pow]
  cases h : w.testBit n <;> simp [Nat.pos_iff_ne_zero.mp (Nat.two_pow_pos n)]

theorem bit_set_u8_or_self (x n : Nat) (hn : n < 8) : bit_set (u8_or x (2 ^ n)) (2 ^ n) := by
  rw [bit_set_two_pow, testBit_u8_or, Nat.testBit_two_pow_self]
  simp [hn]

theorem not_bit_set_u8_and_not_self (x n : Nat) :
    ¬ bit_set (u8_and_not x (2 ^ n)) (2 ^ n) := by
  rw [bit_set_two_pow, testBit_u8_and_not, Nat.testBit_two_pow_self]
  simp

theorem bit_set_u16_or_self (x n : Nat) (hn : n < 16) :
    bit_set (u16_or x (2 ^ n)) (2 ^ n) := by
  rw [bit_set_two_pow, testBit_u16_or, Nat.testBit_two_pow_self]
  simp [hn]

/-- A later `|=` keeps a bit that is set. -/
theorem bit_set_u16_or_of (x m n : Nat) (h : bit_set x (2 ^ n)) (hn : n < 16) :
    bit_set (u16_or x m) (2 ^ n) := by
  rw [bit_set_two_pow] at *
  rw [testBit_u16_or, h]
  simp [hn]

/-- A later `&= ~` of another bit keeps a bit that is set. -/
theorem bit_set_u16_and_not_of (x k n : Nat) (h : bit_set x (2 ^ n)) (hn : n < 16)
    (hk : k ≠ n) : bit_set (u16_and_not x (2 ^ k)) (2 ^ n) := by
  rw [bit_set_two_pow] at *
  rw [testBit_u16_and_not, h, Nat.testBit_two_pow]
  simp [hn, hk]

/-- A conditional store to bit `k`, of either polarity, keeps another bit that is set. -/
theorem bit_set_u16_store_of (c : Prop) [Decidable c] (x k n : Nat)
    (hx : bit_set x (2 ^ n)) (hn : n < 16) (hk : k ≠ n) :
    bit_set (if c then u16_and_not x (2 ^ k) else u16_or x (2 ^ k)) (2 ^ n) ∧
    bit_set (if c then u16_or x (2 ^ k) else u16_and_not x (2 ^ k)) (2 ^ n) := by
  constructor <;> split_ifs <;>
    first | exact bit_set_u16_or_of _ _ _ hx hn | exact bit_set_u16_and_not_of _ _ _ hx hn hk

/-- C15 (code at the failing input): with the sample `can.h`, `update_switches` sets
SW_IGN_ON (bit 5) and SW_IGN_ACC (bit 4) for every state of the input ports and every
previous switch word; with the ignition lines IN_IGN_ONn and IN_IGN_ACCn reading high the
returned switch word therefore does not follow the lines. -/
theorem C15_ignition_bits_forced :
    (∀ P1IN P2IN state : Nat,
      bit_set (update_switches canH_sample P1IN P2IN state).1 canH_sample.SW_IGN_ON ∧
      bit_set (update_switches canH_sample P1IN P2IN state).1 canH_sample.SW_IGN_ACC) ∧
    bit_set inputs_released.P1IN IN_IGN_ONn ∧
    bit_set inputs_released.P1IN IN_IGN_ACCn ∧
    (update_switches canH_sample inputs_released.P1IN inputs_released.P2IN 0).1 = 0x0030 ∧
    ¬ switches_follow_lines canH_sample inputs_released.P1IN inputs_released.P2IN
      (update_switches canH_sample inputs_released.P1IN inputs_released.P2IN 0).1 := by
  refine ⟨?_, by decide, by decide, by decide, by decide⟩
  intro P1IN P2IN state
  unfold update_switches
  simp only
  generalize (if bit_set P2IN IN_GEAR_1 then _ else _ : Nat) = s4
  have a4 : bit_set (u16_or s4 canH_sample.SW_IGN_ACC) (2 ^ 4) :=
    bit_set_u16_or_self s4 4 (by decide)
  have a5 : bit_set (u16_or (u16_or s4 canH_sample.SW_IGN_ACC) canH_sample.SW_IGN_ON)
      (2 ^ 4) := bit_set_u16_or_of _ _ 4 a4 (by decide)
  have b5 : bit_set (u16_or (u16_or s4 canH_sample.SW_IGN_ACC) canH_sample.SW_IGN_ON)
      (2 ^ 5) := bit_set_u16_or_self _ 5 (by decide)
  generalize (u16_or (u16_or s4 canH_sample.SW_IGN_ACC) canH_sample.SW_IGN_ON) = s6
    at a5 b5 ⊢
  constructor
  · exact (bit_set_u16_store_of _ _ 8 5 ((bit_set_u16_store_of _ _ 7 5
      ((bit_set_u16_store_of _ _ 6 5 b5 (by decide) (by decide)).1)
      (by decide) (by decide)).1) (by decide) (by decide)).2
  · exact (bit_set_u16_store_of _ _ 8 4 ((bit_set_u16_store_of _ _ 7 4
      ((bit_set_u16_store_of _ _ 6 4 a5 (by decide) (by decide)).1)
      (by decide) (by decide)).1) (by decide) (by decide)).2

/-- The mode after an ADC event: `process_pedal` does not write the mode, so the state
machine starts from the mode before the event. -/
theorem adc_event_state (b : Build) (k : PedalH) (h : CanH) (i : Inputs) (s : State) :
    (adc_event b k h i s).command.state =
      next_state_of b h s.command.state (update_switches h i.P1IN i.P2IN s.switches).1
        (u16_and_not s.events EVENT_ADC) s.current_egear := by
  unfold adc_event adc_event_sampled
  simp only [process_pedal_state]

theorem adc_event_switches (b : Build) (k : PedalH) (h : CanH) (i : Inputs) (s : State) :
    (adc_event b k h i s).switches = (update_switches h i.P1IN i.P2IN s.switches).1 :=
  rfl

/-- The supply outputs and EVENT_CONNECTED after an ADC event, in terms of the sampled
switch word. -/
theorem adc_event_power (b : Build) (k : PedalH) (h : CanH) (i : Inputs) (s : State) :
    (bit_set (update_switches h i.P1IN i.P2IN s.switches).1 h.SW_IGN_ACC ∨
      bit_set (update_switches h i.P1IN i.P2IN s.switches).1 h.SW_IGN_ON →
      bit_set (adc_event b k h i s).P1OUT CAN_PWR_OUT ∧
      bit_set (adc_event b k h i s).P6OUT ANLG_V_ENABLE ∧
      (adc_event b k h i s).events = u16_and_not s.events EVENT_ADC) ∧
    (¬ (bit_set (update_switches h i.P1IN i.P2IN s.switches).1 h.SW_IGN_ACC ∨
      bit_set (update_switches h i.P1IN i.P2IN s.switches).1 h.SW_IGN_ON) →
      ¬ bit_set (adc_event b k h i s).P1OUT CAN_PWR_OUT ∧
      ¬ bit_set (adc_event b k h i s).P6OUT ANLG_V_ENABLE ∧
      (adc_event b k h i s).events
        = u16_and_not (u16_and_not s.events EVENT_ADC) EVENT_CONNECTED) := by
  constructor
  · intro hp
    unfold adc_event adc_event_sampled
    simp only [hp, if_true]
    exact ⟨bit_set_u8_or_self _ 7 (by decide), bit_set_u8_or_self _ 0 (by decide), trivial⟩
  · intro hp
    unfold adc_event adc_event_sampled
    simp only [hp, if_false]
    exact ⟨not_bit_set_u8_and_not_self _ 7, not_bit_set_u8_and_not_self _ 0, trivial⟩

/-- A consequence of the forced ignition bits: from the power-up state, one ADC event with
the ignition lines off and every switch released leaves the mode Neutral, with CAN_PWR_OUT
and ANLG_V_ENABLE asserted and EVENT_CONNECTED still set; the sampled switch word has
SW_IGN_ON set although the line IN_IGN_ONn reads high. -/
theorem ignition_lines_off_enters_neutral :
    bit_set inputs_released.P1IN IN_IGN_ONn ∧
    bit_set inputs_released.P1IN IN_IGN_ACCn ∧
    (adc_ticks build_configured pedalH_unit canH_sample inputs_released 1
      (power_up canH_sample inputs_released.P1IN inputs_released.P2IN)).command.state
        = MODE_N ∧
    bit_set (adc_ticks build_configured pedalH_unit canH_sample inputs_released 1
      (power_up canH_sample inputs_released.P1IN inputs_released.P2IN)).P1OUT CAN_PWR_OUT ∧
    bit_set (adc_ticks build_configured pedalH_unit canH_sample inputs_released 1
      (power_up canH_sample inputs_released.P1IN inputs_released.P2IN)).P6OUT ANLG_V_ENABLE ∧
    bit_set (adc_ticks build_configured pedalH_unit canH_sample inputs_released 1
      (power_up canH_sample inputs_released.P1IN inputs_released.P2IN)).events
        EVENT_CONNECTED ∧
    bit_set (adc_ticks build_configured pedalH_unit canH_sample inputs_released 1
      (power_up canH_sample inputs_released.P1IN inputs_released.P2IN)).switches
        canH_sample.SW_IGN_ON := by
  have hp : bit_set (update_switches canH_sample inputs_released.P1IN inputs_released.P2IN
        (power_up canH_sample inputs_released.P1IN inputs_released.P2IN).switches).1
        canH_sample.SW_IGN_ACC ∨
      bit_set (update_switches canH_sample inputs_released.P1IN inputs_released.P2IN
        (power_up canH_sample inputs_released.P1IN inputs_released.P2IN).switches).1
        canH_sample.SW_IGN_ON := Or.inl (by decide)
  obtain ⟨h1, h6, hev⟩ := (adc_event_power build_configured pedalH_unit canH_sample
    inputs_released (power_up canH_sample inputs_released.P1IN inputs_released.P2IN)).1 hp
  refine ⟨by decide, by decide, ?_, h1, h6, ?_, ?_⟩
  · show (adc_event build_configured pedalH_unit canH_sample inputs_released
      (power_up canH_sample inputs_released.P1IN inputs_released.P2IN)).command.state = MODE_N
    rw [adc_event_state]
    decide
  · show bit_set (adc_event build_configured pedalH_unit canH_sample inputs_released
      (power_up canH_sample inputs_released.P1IN inputs_released.P2IN)).events EVENT_CONNECTED
    rw [hev]
    decide
  · show bit_set (adc_event build_configured pedalH_unit canH_sample inputs_released
      (power_up canH_sample inputs_released.P1IN inputs_released.P2IN)).switches
        canH_sample.SW_IGN_ON
    rw [adc_event_switches]
    decide

/-! ## Payload bytes -/

/-- The eight bytes after two 32-bit stores, slot 1 first: nothing of the old content is
left. -/
theorem set_u32_pair (g : group_64) (a b : Nat) :
    set_u32 (set_u32 g 1 a) 0 b = fun j : Fin 8 =>
      if j.val = 0 then b % 256 else if j.val = 1 then b / 256 % 256
      else if j.val = 2 then b / 65536 % 256 else if j.val = 3 then b / 16777216 % 256
      else if j.val = 4 then a % 256 else if j.val = 5 then a / 256 % 256
      else if j.val = 6 then a / 65536 % 256 else a / 16777216 % 256 := by
  funext j
  fin_cases j <;> simp [set_u32]

/-- The eight bytes after the five stores of the switch position frame. -/
theorem switch_payload (g : group_64) (state flags switches : Nat) :
    set_u16 (set_u16 (set_u16 (set_u8 (set_u8 g 7 state) 6 flags) 2 0) 1 0) 0 switches
      = fun j : Fin 8 =>
      if j.val = 0 then switches % 256 else if j.val = 1 then switches / 256 % 256
      else if j.val = 6 then flags % 256 else if j.val = 7 then state % 256 else 0 := by
  funext j
  fin_cases j <;> simp [set_u16, set_u8]

/-- The bytes of the identification reply: the characters 6, 8, 0, T in bytes 0..3 and the
device number in bytes 4..7. -/
theorem rtr_id_bytes (slot can : can_variables) :
    get_u8 (rtr_id_frame slot can).data 0 = 54 ∧ get_u8 (rtr_id_frame slot can).data 1 = 56 ∧
    get_u8 (rtr_id_frame slot can).data 2 = 48 ∧ get_u8 (rtr_id_frame slot can).data 3 = 84 ∧
    get_u8 (rtr_id_frame slot can).data 4 = 2 ∧ get_u8 (rtr_id_frame slot can).data 5 = 16 ∧
    get_u8 (rtr_id_frame slot can).data 6 = 0 ∧ get_u8 (rtr_id_frame slot can).data 7 = 0 :=
  ⟨rfl, rfl, rfl, rfl, rfl, rfl, rfl, rfl⟩

/-- The bytes of the periodic identification frame: the device number in bytes 0..3 and
the characters 6, 8, 0, T in bytes 4..7. -/
theorem comms_id_bytes (h : CanH) (slot : can_variables) :
    get_u8 (comms_id_frame h slot).data 0 = 2 ∧ get_u8 (comms_id_frame h slot).data 1 = 16 ∧
    get_u8 (comms_id_frame h slot).data 2 = 0 ∧ get_u8 (comms_id_frame h slot).data 3 = 0 ∧
    get_u8 (comms_id_frame h slot).data 4 = 54 ∧ get_u8 (comms_id_frame h slot).data 5 = 56 ∧
    get_u8 (comms_id_frame h slot).data 6 = 48 ∧ get_u8 (comms_id_frame h slot).data 7 = 84 :=
  ⟨rfl, rfl, rfl, rfl, rfl, rfl, rfl, rfl⟩

/-- C16 (code at the failing input): for a remote request addressed to DC_CAN_BASE the
reply path enqueues the frame of `rtr_id_frame`, whose payload is 54 56 48 84 02 16 00 00
while the periodic identification frame carries 02 16 00 00 54 56 48 84; byte 0 is 54 in
the reply and 2 in the periodic frame, so the payloads differ, whatever the transmit
buffers held. The drive, power and switch replies equal the periodic payloads. -/
theorem C16_id_reply_differs (h : CanH) (float_bits : ℚ → Nat)
    (can slot slot2 : can_variables) (s : State) :
    (can.address = h.DC_CAN_BASE →
      (can_rtr_frame h float_bits can slot s).tx = s.tx ++ [rtr_id_frame slot can]) ∧
    get_u8 (rtr_id_frame slot can).data 0 = 54 ∧
    get_u8 (comms_id_frame h slot2).data 0 = 2 ∧
    (rtr_id_frame slot can).data ≠ (comms_id_frame h slot2).data ∧
    (rtr_drive_frame float_bits slot can s.command).data
      = (comms_drive_frame h float_bits slot2 s.command).data ∧
    (rtr_power_frame float_bits slot can s.command).data
      = (comms_power_frame h float_bits slot2 s.command).data ∧
    (rtr_switch_frame slot can s.command s.switches).data
      = (comms_switch_frame h slot2 s.command s.switches).data := by
  refine ⟨?_, ?_, ?_, ?_, ?_, ?_, ?_⟩
  · intro ha
    unfold can_rtr_frame can_push
    simp only [ha, if_true]
  · exact (rtr_id_bytes slot can).1
  · exact (comms_id_bytes h slot2).1
  · intro he
    have h0 := congrArg (fun g => get_u8 g 0) he
    simp only [(rtr_id_bytes slot can).1, (comms_id_bytes h slot2).1] at h0
    exact absurd h0 (by decide)
  · unfold rtr_drive_frame comms_drive_frame set_fp
    simp only [set_u32_pair]
  · unfold rtr_power_frame comms_power_frame set_fp
    simp only [set_u32_pair]
  · unfold rtr_switch_frame comms_switch_frame
    simp only [switch_payload]

/-- C17: for every command record and switch word, a remote request for the address
DC_CAN_BASE + DC_SWITCH makes the receive path enqueue one frame whose payload, address
and length are those of the switch position frame that the comms path builds from the
same state, whatever the two transmit buffers held before. -/
theorem C17_switch_reply_identical (h : CanH) (hl : h.labels_ok) (g : GaugeC)
    (float_of : Nat → rx_float) (float_bits : ℚ → Nat) (can slot slot2 : can_variables)
    (s : State) (hs : can.status = h.CAN_RTR)
    (ha : can.address = h.DC_CAN_BASE + h.DC_SWITCH) :
    (can_receive_event h g float_of float_bits can slot s).tx
      = s.tx ++ [rtr_switch_frame slot can s.command s.switches] ∧
    (rtr_switch_frame slot can s.command s.switches).data
      = (comms_switch_frame h slot2 s.command s.switches).data ∧
    (rtr_switch_frame slot can s.command s.switches).address
      = (comms_switch_frame h slot2 s.command s.switches).address ∧
    (rtr_switch_frame slot can s.command s.switches).status
      = (comms_switch_frame h slot2 s.command s.switches).status := by
  obtain ⟨-, hr, hc⟩ := hl
  simp only [List.nodup_cons, List.mem_cons, List.mem_singleton, not_or, List.not_mem_nil,
    not_false_eq_true, List.nodup_nil, and_true] at hr hc
  have hok2 : ¬ h.CAN_RTR = h.CAN_OK := fun e => hc.1.1 e.symm
  have b0 : ¬ h.DC_CAN_BASE + h.DC_SWITCH = h.DC_CAN_BASE := fun e => hr.1.2.2 e.symm
  have b1 : ¬ h.DC_CAN_BASE + h.DC_SWITCH = h.DC_CAN_BASE + h.DC_DRIVE :=
    fun e => hr.2.1.2 e.symm
  have b2 : ¬ h.DC_CAN_BASE + h.DC_SWITCH = h.DC_CAN_BASE + h.DC_POWER :=
    fun e => hr.2.2 e.symm
  refine ⟨?_, ?_, ha, rfl⟩
  · unfold can_receive_event can_rtr_frame can_push
    simp only [hs, hok2, ha, b0, b1, b2, if_true, if_false, ite_self]
  · unfold rtr_switch_frame comms_switch_frame
    simp only [switch_payload]

theorem canH_sample_labels_ok : canH_sample.labels_ok := by decide

theorem C17_switch_reply_identical_witness :
    canH_sample.labels_ok ∧
    (frame_of 0xFFFC 0x505).status = canH_sample.CAN_RTR ∧
    (frame_of 0xFFFC 0x505).address = canH_sample.DC_CAN_BASE + canH_sample.DC_SWITCH ∧
    (rtr_switch_frame (frame_of 0 0) (frame_of 0xFFFC 0x505)
        (power_up canH_sample 0x1E 0x80).command (power_up canH_sample 0x1E 0x80).switches).data
      = (comms_switch_frame canH_sample (frame_of 8 0x501)
        (power_up canH_sample 0x1E 0x80).command (power_up canH_sample 0x1E 0x80).switches).data :=
  ⟨canH_sample_labels_ok, rfl, rfl,
    (C17_switch_reply_identical canH_sample canH_sample_labels_ok gauge_sample (fun _ => none) (fun _ => 0)
      (frame_of 0xFFFC 0x505) (frame_of 0 0) (frame_of 8 0x501)
      (power_up canH_sample 0x1E 0x80) rfl rfl).2.1⟩

/-- C18: for every pair of 32-bit values (rpm, current) and every prior content of the
payload, storing current in 32-bit slot 1 and rpm in 32-bit slot 0, as the drive frame
encoder does, and reading slots 0 and 1 back from the eight bytes returns (rpm, current);
the payload of the drive frame of the comms event is exactly this encoding of the two
patterns `float_bits command.rpm` and `float_bits command.current`. -/
theorem C18_drive_frame_round_trip (g : group_64) (rpm current : Nat)
    (hr : rpm < 2 ^ 32) (hc : current < 2 ^ 32) :
    get_u32 (set_u32 (set_u32 g 1 current) 0 rpm) 0 = rpm ∧
    get_u32 (set_u32 (set_u32 g 1 current) 0 rpm) 1 = current ∧
    ∀ (h : CanH) (float_bits : ℚ → Nat) (slot : can_variables) (command : command_variables),
      slot.data = g → float_bits command.rpm = rpm → float_bits command.current = current →
      get_u32 (comms_drive_frame h float_bits slot command).data 0 = rpm ∧
      get_u32 (comms_drive_frame h float_bits slot command).data 1 = current := by
  have key : get_u32 (set_u32 (set_u32 g 1 current) 0 rpm) 0 = rpm ∧
      get_u32 (set_u32 (set_u32 g 1 current) 0 rpm) 1 = current := by
    rw [set_u32_pair]
    unfold get_u32 get_u8
    simp
    constructor <;> omega
  refine ⟨key.1, key.2, ?_⟩
  intro h float_bits slot command hg h1 h2
  unfold comms_drive_frame set_fp
  simp only [hg, h1, h2]
  exact key

theorem C18_drive_frame_round_trip_witness :
    (0x449A5000 : Nat) < 2 ^ 32 ∧ (0x42280000 : Nat) < 2 ^ 32 ∧
    get_u32 (set_u32 (set_u32 (fun _ => 0) 1 0x42280000) 0 0x449A5000) 0 = 0x449A5000 ∧
    get_u32 (set_u32 (set_u32 (fun _ => 0) 1 0x42280000) 0 0x449A5000) 1 = 0x42280000 :=
  ⟨by decide, by decide,
    (C18_drive_frame_round_trip (fun _ => 0) 0x449A5000 0x42280000 (by decide) (by decide)).1,
    (C18_drive_frame_round_trip (fun _ => 0) 0x449A5000 0x42280000 (by decide)
      (by decide)).2.1⟩

/-- A remote-request reply changes neither the reset flag nor the events nor the command. -/
theorem can_rtr_frame_keeps (h : CanH) (float_bits : ℚ → Nat) (can slot : can_variables)
    (s : State) :
    (can_rtr_frame h float_bits can slot s).reset = s.reset ∧
    (can_rtr_frame h float_bits can slot s).events = s.events ∧
    (can_rtr_frame h float_bits can slot s).command = s.command := by
  unfold can_rtr_frame can_push
  split_ifs <;> exact ⟨rfl, rfl, rfl⟩

/-- A Data frame sets the reset flag exactly on the bootload address with the token. -/
theorem can_data_frame_reset (h : CanH) (hl : h.labels_ok) (g : GaugeC)
    (float_of : Nat → rx_float)
    (can : can_variables) (s : State) (hs : s.reset = false) :
    (can_data_frame h g float_of can s).reset = true ↔
      (can.address = h.DC_CAN_BASE + h.DC_BOOTLOAD ∧ bootload_token can.data) := by
  obtain ⟨hd, -, -⟩ := hl
  simp only [List.nodup_cons, List.mem_cons, List.mem_singleton, not_or, List.not_mem_nil,
    not_false_eq_true, List.nodup_nil, and_true] at hd
  unfold can_data_frame
  by_cases hb : can.address = h.DC_CAN_BASE + h.DC_BOOTLOAD
  · have n1 : ¬ h.DC_CAN_BASE + h.DC_BOOTLOAD = h.MC_CAN_BASE + h.MC_VELOCITY :=
      fun e => hd.1.2.2.2.2.1 e.symm
    have n2 : ¬ h.DC_CAN_BASE + h.DC_BOOTLOAD = h.MC_CAN_BASE + h.MC_I_VECTOR :=
      fun e => hd.2.1.2.2.2.1 e.symm
    have n3 : ¬ h.DC_CAN_BASE + h.DC_BOOTLOAD = h.MC_CAN_BASE + h.MC_TEMP1 :=
      fun e => hd.2.2.1.2.2.1 e.symm
    have n4 : ¬ h.DC_CAN_BASE + h.DC_BOOTLOAD = h.MC_CAN_BASE + h.MC_LIMITS :=
      fun e => hd.2.2.2.1.2.1 e.symm
    have n5 : ¬ h.DC_CAN_BASE + h.DC_BOOTLOAD = h.MC_CAN_BASE + h.MC_BUS :=
      fun e => hd.2.2.2.2.1.1 e.symm
    simp only [hb, n1, n2, n3, n4, n5, if_true, if_false, true_and]
    by_cases ht : bootload_token can.data
    · simp only [ht, if_true]
    · simp only [ht, if_false, hs, iff_false]
      exact Bool.false_ne_true
  · simp only [hb, if_false, false_and, iff_false]
    split_ifs <;> simp only [hs] <;> exact Bool.false_ne_true

/-- The reset flag after the receive path, for a state in which it was clear. -/
theorem can_receive_event_reset (h : CanH) (hl : h.labels_ok) (g : GaugeC)
    (float_of : Nat → rx_float) (float_bits : ℚ → Nat) (can slot : can_variables)
    (s : State) (hs : s.reset = false) :
    ((can_receive_event h g float_of float_bits can slot s).reset = true ↔
      (can.status = h.CAN_OK ∧ can.address = h.DC_CAN_BASE + h.DC_BOOTLOAD ∧
        bootload_token can.data)) := by
  unfold can_receive_event
  simp only [ite_self]
  by_cases hok : can.status = h.CAN_OK
  · simp only [hok, if_true, true_and]
    split_ifs
    · rw [(can_rtr_frame_keeps _ _ _ _ _).1]
      exact can_data_frame_reset h hl g float_of can s hs
    · exact can_data_frame_reset h hl g float_of can s hs
  · simp only [hok, if_false, false_and, iff_false]
    split_ifs
    · rw [(can_rtr_frame_keeps _ _ _ _ _).1, hs]; exact Bool.false_ne_true
    · rw [hs]; exact Bool.false_ne_true

/-- C19: a received frame triggers the forced watchdog reset if and only if it is a Data
frame (status CAN_OK) whose address is DC_CAN_BASE + DC_BOOTLOAD and whose payload bytes
0..7 are the characters B, O, O, T, L, O, A, D; in particular a Remote-request frame and
an Error frame never trigger it. -/
theorem C19_bootload_reset (h : CanH) (hl : h.labels_ok) (g : GaugeC)
    (float_of : Nat → rx_float) (float_bits : ℚ → Nat) (can slot : can_variables)
    (s : State) (hs : s.reset = false) :
    ((can_receive_event h g float_of float_bits can slot s).reset = true ↔
      (can.status = h.CAN_OK ∧ can.address = h.DC_CAN_BASE + h.DC_BOOTLOAD ∧
        get_u8 can.data 0 = 66 ∧ get_u8 can.data 1 = 79 ∧ get_u8 can.data 2 = 79 ∧
        get_u8 can.data 3 = 84 ∧ get_u8 can.data 4 = 76 ∧ get_u8 can.data 5 = 79 ∧
        get_u8 can.data 6 = 65 ∧ get_u8 can.data 7 = 68)) ∧
    (can.status = h.CAN_RTR →
      (can_receive_event h g float_of float_bits can slot s).reset = false) ∧
    (can.status = h.CAN_ERROR →
      (can_receive_event h g float_of float_bits can slot s).reset = false) := by
  have key := can_receive_event_reset h hl g float_of float_bits can slot s hs
  obtain ⟨-, -, hc⟩ := hl
  simp only [List.nodup_cons, List.mem_cons, List.mem_singleton, not_or, List.not_mem_nil,
    not_false_eq_true, List.nodup_nil, and_true] at hc
  refine ⟨key, ?_, ?_⟩
  · intro hr
    have hn : ¬ (can_receive_event h g float_of float_bits can slot s).reset = true := by
      rw [key]
      rintro ⟨hok, -⟩
      exact hc.1.1 (hok.symm.trans hr)
    simpa using hn
  · intro he
    have hn : ¬ (can_receive_event h g float_of float_bits can slot s).reset = true := by
      rw [key]
      rintro ⟨hok, -⟩
      exact hc.1.2 (hok.symm.trans he)
    simpa using hn

theorem C19_bootload_reset_witness :
    canH_sample.labels_ok ∧ (power_up canH_sample 0x1E 0x80).reset = false ∧
    (can_receive_event canH_sample gauge_sample (fun _ => none) (fun _ => 0) bootload_request
      (frame_of 0 0) (power_up canH_sample 0x1E 0x80)).reset = true :=
  ⟨canH_sample_labels_ok, rfl,
    (C19_bootload_reset canH_sample canH_sample_labels_ok gauge_sample (fun _ => none)
      (fun _ => 0)
      bootload_request (frame_of 0 0) (power_up canH_sample 0x1E 0x80) rfl).1.mpr
      ⟨rfl, rfl, by decide, by decide, by decide, by decide, by decide, by decide,
        by decide, by decide⟩⟩

/-- Bit `i` after a conditional store to bit `k` of a 16-bit object. -/
theorem testBit_u16_store (c : Prop) [Decidable c] (e k i : Nat) :
    (if c then u16_or e (2 ^ k) else u16_and_not e (2 ^ k)).testBit i =
      (decide (i < 16) && (if k = i then decide c else e.testBit i)) := by
  split_ifs with h1 h2 h2
  · rw [testBit_u16_or, Nat.testBit_two_pow]; simp [h1, h2]
  · rw [testBit_u16_or, Nat.testBit_two_pow]; simp [h2]
  · rw [testBit_u16_and_not, Nat.testBit_two_pow]; simp [h1, h2]
  · rw [testBit_u16_and_not, Nat.testBit_two_pow]; simp [h2]

/-- Bit `i` of the event word after the five threshold updates. -/
theorem testBit_velocity_events (v : rx_float) (e i : Nat) :
    (velocity_events v e).testBit i =
      (decide (i < 16) &&
        (if 11 = i then decide (float_ge v CHANGE_VEL_HTOL)
         else if 10 = i then decide (float_ge v CHANGE_VEL_LTOH)
         else if 4 = i then decide (float_ge v ENGAGE_VEL_R ∧ float_le v ENGAGE_VEL_F)
         else if 6 = i then decide (float_lt v ENGAGE_VEL_R)
         else if 5 = i then decide (float_gt v ENGAGE_VEL_F)
         else e.testBit i)) := by
  unfold velocity_events
  simp only
  rw [show EVENT_OVER_VEL_HTOL = 2 ^ 11 from rfl, show EVENT_OVER_VEL_LTOH = 2 ^ 10 from rfl,
    show EVENT_SLOW = 2 ^ 4 from rfl, show EVENT_REVERSE = 2 ^ 6 from rfl,
    show EVENT_FORWARD = 2 ^ 5 from rfl]
  rw [testBit_u16_store, testBit_u16_store, testBit_u16_store, testBit_u16_store,
    testBit_u16_store]
  by_cases h16 : i < 16 <;> simp [h16]

/-- In mode Off `process_pedal` leaves both setpoints zero, fault or not. -/
theorem process_pedal_off (k : PedalH) (c : command_variables) (a b cc r : Nat)
    (hoff : c.state = MODE_OFF) :
    (process_pedal k c a b cc r).current = 0 ∧ (process_pedal k c a b cc r).rpm = 0 := by
  have h1 : ¬ MODE_OFF = MODE_R := by decide
  have h2 : ¬ (MODE_OFF = MODE_DL ∨ MODE_OFF = MODE_DH) := by decide
  have h3 : ¬ (MODE_OFF = MODE_BL ∨ MODE_OFF = MODE_BH) := by decide
  unfold process_pedal
  simp only [hoff, h1, h2, h3, if_false]
  split_ifs <;> exact ⟨rfl, rfl⟩

/-- One ADC event from mode Off whose sampled switch word has both ignition bits clear. -/
theorem adc_event_sampled_off (b : Build) (k : PedalH) (h : CanH) (i : Inputs)
    (sampled : Nat × Nat) (s : State) (hoff : s.command.state = MODE_OFF)
    (hon : ¬ bit_set sampled.1 h.SW_IGN_ON) (hacc : ¬ bit_set sampled.1 h.SW_IGN_ACC) :
    (adc_event_sampled b k h i sampled s).command.state = MODE_OFF ∧
    (adc_event_sampled b k h i sampled s).command.current = 0 ∧
    (adc_event_sampled b k h i sampled s).command.rpm = 0 ∧
    ¬ bit_set (adc_event_sampled b k h i sampled s).P1OUT CAN_PWR_OUT ∧
    ¬ bit_set (adc_event_sampled b k h i sampled s).P6OUT ANLG_V_ENABLE ∧
    ¬ bit_set (adc_event_sampled b k h i sampled s).events EVENT_CONNECTED := by
  have hp : ¬ (bit_set sampled.1 h.SW_IGN_ACC ∨ bit_set sampled.1 h.SW_IGN_ON) :=
    fun hh => hh.elim hacc hon
  have hz := process_pedal_off k s.command i.ADC12MEM0 i.ADC12MEM1 i.ADC12MEM2
    (if b.REGEN_ON_BRAKE = true then (s.switches &&& h.SW_BRAKE) % 256 else FALSE) hoff
  have hnext : next_state_of b h MODE_OFF sampled.1 (u16_and_not s.events EVENT_ADC)
      s.current_egear = MODE_OFF := by
    unfold next_state_of
    simp only [if_true, hon, if_false]
  unfold adc_event_sampled
  simp only [process_pedal_state, hoff, hnext, hp, if_false]
  refine ⟨trivial, hz.1, hz.2, not_bit_set_u8_and_not_self _ 7,
    not_bit_set_u8_and_not_self _ 0, ?_⟩
  rw [show EVENT_CONNECTED = 2 ^ 7 from rfl, bit_set_two_pow, testBit_u16_and_not,
    Nat.testBit_two_pow_self]
  simp

/-- A mask that is a multiple of 4096 has its low twelve bits clear. -/
theorem gauge_mask_low (m i : Nat) (hm : m % 4096 = 0) (hi : i < 12) : m.testBit i = false := by
  have h := Nat.testBit_mod_two_pow m 12 i
  rw [show (2 : Nat) ^ 12 = 4096 from rfl, hm] at h
  simpa [hi] using h.symm

/-- The event word after a motor velocity Data frame: EVENT_CONNECTED is raised, the five
velocity flags are stored from the received value, and the tachometer update raises its
mask. -/
theorem can_receive_velocity_events (h : CanH) (g : GaugeC) (float_of : Nat → rx_float)
    (float_bits : ℚ → Nat) (can slot : can_variables) (s : State)
    (hst : can.status = h.CAN_OK) (ha : can.address = h.MC_CAN_BASE + h.MC_VELOCITY) :
    (can_receive_event h g float_of float_bits can slot s).events =
      u16_or (velocity_events (get_fp float_of can.data 0) (u16_or s.events EVENT_CONNECTED))
        g.tach_events := by
  have hd : (can_data_frame h g float_of can s).events =
      u16_or (velocity_events (get_fp float_of can.data 0) (u16_or s.events EVENT_CONNECTED))
        g.tach_events := by
    unfold can_data_frame
    simp only [ha, if_true]
  unfold can_receive_event
  simp only [hst, if_true, ite_self]
  by_cases hr : h.CAN_OK = h.CAN_RTR
  · rw [if_pos hr, (can_rtr_frame_keeps _ _ _ _ _).2.1, hd]
  · rw [if_neg hr, hd]

theorem gauge_sample_ok : gauge_sample.ok := by decide

/-- The first four payload bytes of the sample velocity frame are the little-endian
pattern 0x42700000, whose value is 60. -/
theorem velocity_frame_60_value :
    float_of_sample (get_u8 velocity_frame_60.data 0 + 256 * get_u8 velocity_frame_60.data 1
      + 65536 * get_u8 velocity_frame_60.data 2
      + 16777216 * get_u8 velocity_frame_60.data 3) = some 60 := by
  have hb : get_u8 velocity_frame_60.data 0 + 256 * get_u8 velocity_frame_60.data 1
      + 65536 * get_u8 velocity_frame_60.data 2
      + 16777216 * get_u8 velocity_frame_60.data 3 = 0x42700000 := by decide
  rw [hb]
  rfl

/-- C20 fails as stated: with a `gauge.c` whose tachometer update raises EVENT_GAUGE1
(bit 12, the bit tri86.h reserves for `gauge 1 has been recalculated`), a motor velocity
Data frame carrying 60.0 received right after power-up leaves bit 12 set, although it was
clear before and is none of the five velocity flags nor EVENT_CONNECTED. -/
theorem C20_counterexample :
    gauge_sample.ok ∧
    velocity_frame_60.status = canH_sample.CAN_OK ∧
    velocity_frame_60.address = canH_sample.MC_CAN_BASE + canH_sample.MC_VELOCITY ∧
    EVENT_GAUGE1 = 2 ^ 12 ∧
    (power_up canH_sample 0x1E 0x80).events.testBit 12 = false ∧
    (can_receive_event canH_sample gauge_sample float_of_sample (fun _ => 0)
      velocity_frame_60 (frame_of 0 0) (power_up canH_sample 0x1E 0x80)).events.testBit 12
        = true := by
  refine ⟨gauge_sample_ok, rfl, rfl, rfl, by decide, ?_⟩
  rw [can_receive_velocity_events canH_sample gauge_sample float_of_sample (fun _ => 0)
    velocity_frame_60 (frame_of 0 0) (power_up canH_sample 0x1E 0x80) rfl rfl]
  rw [testBit_u16_or]
  have : gauge_sample.tach_events.testBit 12 = true := by decide
  simp [this]

/-- C20 (amended): after a motor velocity Data frame whose first four payload bytes are,
least significant byte first, the pattern of the value v (a number, or not a number),
and whatever the event word was before: EVENT_FORWARD is set iff v is a number above 50,
EVENT_REVERSE iff v is a number below -50, EVENT_SLOW iff v is a number with
-50 ≤ v ≤ 50, EVENT_OVER_VEL_LTOH iff v is a number with v ≥ 1800, EVENT_OVER_VEL_HTOL iff
v is a number with v ≥ 1600; EVENT_CONNECTED is set; and every event bit below the gauge
bits (bits 0..11) other than these six keeps its value. The gauge bits EVENT_GAUGE1..4
(bits 12..15) belong to the tachometer update of the absent gauge.c and are not
constrained. -/
theorem C20_velocity_flags (h : CanH) (g : GaugeC) (hg : g.ok) (float_of : Nat → rx_float)
    (float_bits : ℚ → Nat) (can slot : can_variables) (s : State) (v : rx_float)
    (hst : can.status = h.CAN_OK) (ha : can.address = h.MC_CAN_BASE + h.MC_VELOCITY)
    (hv : float_of (get_u8 can.data 0 + 256 * get_u8 can.data 1 + 65536 * get_u8 can.data 2
      + 16777216 * get_u8 can.data 3) = v) :
    (bit_set (can_receive_event h g float_of float_bits can slot s).events EVENT_FORWARD ↔
      ∃ q : ℚ, v = some q ∧ q > 50) ∧
    (bit_set (can_receive_event h g float_of float_bits can slot s).events EVENT_REVERSE ↔
      ∃ q : ℚ, v = some q ∧ q < -50) ∧
    (bit_set (can_receive_event h g float_of float_bits can slot s).events EVENT_SLOW ↔
      ∃ q : ℚ, v = some q ∧ -50 ≤ q ∧ q ≤ 50) ∧
    (bit_set (can_receive_event h g float_of float_bits can slot s).events
        EVENT_OVER_VEL_LTOH ↔ ∃ q : ℚ, v = some q ∧ q ≥ 1800) ∧
    (bit_set (can_receive_event h g float_of float_bits can slot s).events
        EVENT_OVER_VEL_HTOL ↔ ∃ q : ℚ, v = some q ∧ q ≥ 1600) ∧
    bit_set (can_receive_event h g float_of float_bits can slot s).events EVENT_CONNECTED ∧
    (∀ i : Nat, i < 12 → i ≠ 4 → i ≠ 5 → i ≠ 6 → i ≠ 7 → i ≠ 10 → i ≠ 11 →
      (can_receive_event h g float_of float_bits can slot s).events.testBit i
        = s.events.testBit i) := by
  have hfp : get_fp float_of can.data 0 = v := hv
  have hlow : ∀ i, i < 12 → g.tach_events.testBit i = false :=
    fun i hi => gauge_mask_low _ i hg.1.1 hi
  rw [can_receive_velocity_events h g float_of float_bits can slot s hst ha, hfp]
  rw [show EVENT_OVER_VEL_HTOL = 2 ^ 11 from rfl, show EVENT_OVER_VEL_LTOH = 2 ^ 10 from rfl,
    show EVENT_SLOW = 2 ^ 4 from rfl, show EVENT_REVERSE = 2 ^ 6 from rfl,
    show EVENT_FORWARD = 2 ^ 5 from rfl, show EVENT_CONNECTED = 2 ^ 7 from rfl]
  simp only [bit_set_two_pow, testBit_u16_or, testBit_velocity_events, Nat.testBit_two_pow]
  have l4 := hlow 4 (by decide)
  have l5 := hlow 5 (by decide)
  have l6 := hlow 6 (by decide)
  have l7 := hlow 7 (by decide)
  have l10 := hlow 10 (by decide)
  have l11 := hlow 11 (by decide)
  refine ⟨?_, ?_, ?_, ?_, ?_, ?_, ?_⟩
  · cases v <;> simp [l5, float_gt, ENGAGE_VEL_F]
  · cases v <;> simp [l6, float_lt, ENGAGE_VEL_R]
  · cases v <;> simp [l4, float_ge, float_le, ENGAGE_VEL_F, ENGAGE_VEL_R]
  · cases v <;> simp [l10, float_ge, CHANGE_VEL_LTOH]
  · cases v <;> simp [l11, float_ge, CHANGE_VEL_HTOL]
  · simp [l7]
  · intro i h12 h4 h5 h6 h7 h10 h11
    have h16 : i < 16 := by omega
    simp [h16, hlow i h12, Ne.symm h4, Ne.symm h5, Ne.symm h6, Ne.symm h7, Ne.symm h10,
      Ne.symm h11]

/-- The amended C20 at the sample headers: the frame carrying 60.0 (bytes 00 00 70 42),
received right after power-up, sets EVENT_FORWARD and leaves EVENT_SLOW clear. -/
theorem C20_velocity_flags_witness :
    gauge_sample.ok ∧
    velocity_frame_60.status = canH_sample.CAN_OK ∧
    velocity_frame_60.address = canH_sample.MC_CAN_BASE + canH_sample.MC_VELOCITY ∧
    bit_set (can_receive_event canH_sample gauge_sample float_of_sample (fun _ => 0)
      velocity_frame_60 (frame_of 0 0) (power_up canH_sample 0x1E 0x80)).events
        EVENT_FORWARD ∧
    ¬ bit_set (can_receive_event canH_sample gauge_sample float_of_sample (fun _ => 0)
      velocity_frame_60 (frame_of 0 0) (power_up canH_sample 0x1E 0x80)).events
        EVENT_SLOW := by
  have hw := C20_velocity_flags canH_sample gauge_sample gauge_sample_ok float_of_sample
    (fun _ => 0) velocity_frame_60 (frame_of 0 0) (power_up canH_sample 0x1E 0x80) (some 60)
    rfl rfl velocity_frame_60_value
  refine ⟨gauge_sample_ok, rfl, rfl, hw.1.mpr ⟨60, rfl, by norm_num⟩, ?_⟩
  intro hs
  obtain ⟨q, hq, -, hle⟩ := hw.2.2.1.mp hs
  have : q = 60 := (Option.some.inj hq).symm
  rw [this] at hle
  norm_num at hle

/-! ## `pedal.c` in binary32: rounding, torque bounds and the mode table -/

/-- The two outcomes of the rounding to an integer: the floor when the fractional part is
at most one half, the floor plus one when it is at least one half. -/
theorem round_half_even_cases (y : ℚ) :
    round_half_even y = ⌊y⌋ ∧ y - ⌊y⌋ ≤ 1 / 2 ∨
    round_half_even y = ⌊y⌋ + 1 ∧ 1 / 2 ≤ y - ⌊y⌋ := by
  unfold round_half_even
  split_ifs with h1 h2 h3
  · exact Or.inl ⟨rfl, h1.le⟩
  · exact Or.inr ⟨rfl, h2.le⟩
  · exact Or.inl ⟨rfl, not_lt.mp h2⟩
  · exact Or.inr ⟨rfl, not_lt.mp h1⟩

/-- The rounding to an integer moves a value by at most one half. -/
theorem round_half_even_error (y : ℚ) : |(round_half_even y : ℚ) - y| ≤ 1 / 2 := by
  have hf := Int.floor_le y
  have hl := Int.lt_floor_add_one y
  rw [abs_le]
  rcases round_half_even_cases y with ⟨h, hh⟩ | ⟨h, hh⟩
  · rw [h]; constructor <;> linarith
  · rw [h]; push_cast; constructor <;> linarith

/-- The rounding to an integer keeps a non-negative value non-negative. -/
theorem round_half_even_nonneg (y : ℚ) (hy : 0 ≤ y) : 0 ≤ round_half_even y := by
  have h0 : 0 ≤ ⌊y⌋ := Int.floor_nonneg.mpr hy
  rcases round_half_even_cases y with ⟨h, -⟩ | ⟨h, -⟩ <;> rw [h] <;> omega

/-- An integer closer than one half to a value is its rounding. -/
theorem round_half_even_of_near (y : ℚ) (m : ℤ) (h : |y - m| < 1 / 2) :
    round_half_even y = m := by
  rw [abs_lt] at h
  obtain ⟨h1, h2⟩ := h
  unfold round_half_even
  by_cases hym : (m : ℚ) ≤ y
  · have hfl : ⌊y⌋ = m := by
      rw [Int.floor_eq_iff]; constructor <;> linarith
    rw [hfl, if_pos (by linarith)]
  · have hfl : ⌊y⌋ = m - 1 := by
      rw [Int.floor_eq_iff]; push_cast; constructor <;> linarith
    rw [hfl]
    push_cast
    rw [if_neg (by linarith), if_pos (by linarith)]
    ring

/-- Zero is a `float` value. -/
theorem f32_zero : f32 0 = 0 := by
  unfold f32; simp

/-- Rounding to `float` keeps a non-negative value non-negative. -/
theorem f32_nonneg (x : ℚ) (hx : 0 ≤ x) : 0 ≤ f32 x := by
  unfold f32
  split_ifs
  · exact le_refl 0
  · have hp : (0 : ℚ) < 2 ^ (max (Int.log 2 |x|) (-126) - 23) := zpow_pos (by norm_num) _
    have hr := round_half_even_nonneg (x / 2 ^ (max (Int.log 2 |x|) (-126) - 23))
      (div_nonneg hx hp.le)
    exact mul_nonneg (by exact_mod_cast hr) hp.le

/-- Evaluation of `f32` in the normal range: with `2^e ≤ |x| < 2^(e+1)`, `e ≥ -126` and the
integer `m` closer than one half to `x / 2^(e-23)`, the rounded value is `m * 2^(e-23)`. -/
theorem f32_of (x : ℚ) (e m : ℤ) (h1 : (2 : ℚ) ^ e ≤ |x|) (h2 : |x| < 2 ^ (e + 1))
    (he : -126 ≤ e) (hm : |x / 2 ^ (e - 23) - m| < 1 / 2) :
    f32 x = m * 2 ^ (e - 23) := by
  have hpos : 0 < |x| := lt_of_lt_of_le (zpow_pos (by norm_num) e) h1
  have hx : x ≠ 0 := abs_pos.mp hpos
  have hlog : Int.log 2 |x| = e := by
    apply le_antisymm
    · have := (Int.lt_zpow_iff_log_lt (by norm_num : 1 < 2) hpos).mp h2
      omega
    · exact (Int.zpow_le_iff_le_log (by norm_num : 1 < 2) hpos).mp h1
  unfold f32
  rw [if_neg hx, hlog, max_eq_left he, round_half_even_of_near _ m hm]

/-- In the normal range, rounding to `float` has relative error at most `2^-24`. -/
theorem f32_error (x : ℚ) (hx : (2 : ℚ) ^ (-126 : ℤ) ≤ |x|) :
    |f32 x - x| ≤ |x| / 2 ^ 24 := by
  have hpos : 0 < |x| := lt_of_lt_of_le (zpow_pos (by norm_num) _) hx
  have hx0 : x ≠ 0 := abs_pos.mp hpos
  have hlog : -126 ≤ Int.log 2 |x| :=
    (Int.zpow_le_iff_le_log (by norm_num : 1 < 2) hpos).mp hx
  have hle : (2 : ℚ) ^ (Int.log 2 |x|) ≤ |x| := Int.zpow_log_le_self (by norm_num) hpos
  unfold f32
  rw [if_neg hx0, max_eq_left hlog]
  generalize Int.log 2 |x| = e at hle
  have hu : (0 : ℚ) < 2 ^ (e - 23) := zpow_pos (by norm_num) _
  have hr := round_half_even_error (x / 2 ^ (e - 23))
  have heq : (round_half_even (x / 2 ^ (e - 23)) : ℚ) * 2 ^ (e - 23) - x =
      ((round_half_even (x / 2 ^ (e - 23)) : ℚ) - x / 2 ^ (e - 23)) * 2 ^ (e - 23) := by
    field_simp
  rw [heq, abs_mul, abs_of_pos hu]
  have h24 : (2 : ℚ) ^ (e - 23) = 2 ^ e / 2 ^ 23 := by
    rw [zpow_sub₀ (by norm_num)]; norm_num
  calc |(round_half_even (x / 2 ^ (e - 23)) : ℚ) - x / 2 ^ (e - 23)| * 2 ^ (e - 23)
      ≤ 1 / 2 * 2 ^ (e - 23) := mul_le_mul_of_nonneg_right hr hu.le
    _ = 2 ^ e / 2 ^ 24 := by rw [h24]; ring
    _ ≤ |x| / 2 ^ 24 := div_le_div_of_nonneg_right hle (by norm_num)


/-- The literal `0.15` as a `float` (pattern 0x3E19999A). -/
theorem f32_regen : f32 (15 / 100) = 5033165 / 33554432 := by
  rw [f32_of (15 / 100) (-3) 10066330 (by norm_num [abs_of_pos]) (by norm_num [abs_of_pos])
    (by norm_num) (by norm_num [abs_lt])]
  norm_num

/-- A rounded quotient of a rounded value: the relative error of the two roundings
together is at most `2^-22`. -/
theorem f32_two_roundings (A T : ℚ) (hA : 1 / 2 ^ 126 ≤ A) (hT : 0 < T)
    (hB : 1 / 2 ^ 126 ≤ f32 A / T) :
    |f32 (f32 A / T) - A / T| ≤ A / T / 2 ^ 22 := by
  have hz : (2 : ℚ) ^ (-126 : ℤ) = 1 / 2 ^ 126 := by norm_num
  have hApos : 0 < A := lt_of_lt_of_le (by norm_num) hA
  have hBpos : 0 < f32 A / T := lt_of_lt_of_le (by norm_num) hB
  have h1 := f32_error A (by rw [hz, abs_of_pos hApos]; exact hA)
  have h2 := f32_error (f32 A / T) (by rw [hz, abs_of_pos hBpos]; exact hB)
  rw [abs_of_pos hApos] at h1
  rw [abs_of_pos hBpos] at h2
  have hE : 0 < A / T := div_pos hApos hT
  have h3 : |f32 A / T - A / T| ≤ A / T / 2 ^ 24 := by
    have : f32 A / T - A / T = (f32 A - A) / T := by ring
    rw [this, abs_div, abs_of_pos hT]
    calc |f32 A - A| / T ≤ A / 2 ^ 24 / T := div_le_div_of_nonneg_right h1 hT.le
      _ = A / T / 2 ^ 24 := by ring
  rw [abs_le] at h2 h3 ⊢
  generalize f32 (f32 A / T) = F at h2 ⊢
  generalize f32 A / T = B at h2 h3 hBpos
  generalize A / T = E at h3 hE ⊢
  constructor <;> linarith

/-- At or below PEDAL_TRAVEL_MIN the scaled pedal value is zero. -/
theorem scale_pedal_fl_low (fl : ℚ → ℚ) (hfl : fl 0 = 0) (k : PedalH) (hk : k.limits_ok)
    (a : Nat) (ha : a ≤ k.PEDAL_TRAVEL_MIN) : scale_pedal_fl fl k a = 0 := by
  unfold scale_pedal_fl
  have h : ¬ a > k.PEDAL_TRAVEL_MIN := by omega
  simp only [h, if_false, zero_mul, hfl, zero_div]
  rw [if_neg (not_lt.mpr hk.1.le)]

/-- Above PEDAL_TRAVEL_MIN the scaled pedal value is the rounded quotient, clipped at
CURRENT_MAX. -/
theorem scale_pedal_fl_high (fl : ℚ → ℚ) (k : PedalH) (a : Nat)
    (ha : k.PEDAL_TRAVEL_MIN < a) :
    scale_pedal_fl fl k a = min k.CURRENT_MAX
      (fl (fl (((a : ℚ) - k.PEDAL_TRAVEL_MIN) * k.CURRENT_MAX) / k.PEDAL_TRAVEL)) := by
  unfold scale_pedal_fl
  have h : a > k.PEDAL_TRAVEL_MIN := ha
  simp only [h, if_true]
  rw [Nat.cast_sub ha.le]
  split_ifs with hc
  · exact (min_eq_left hc.le).symm
  · exact (min_eq_right (not_lt.mp hc)).symm

/-- The scaled pedal value is never negative. -/
theorem scale_pedal_f32_nonneg (k : PedalH) (hk : k.limits_ok) (a : Nat) :
    0 ≤ scale_pedal_fl f32 k a := by
  by_cases ha : a ≤ k.PEDAL_TRAVEL_MIN
  · rw [scale_pedal_fl_low f32 f32_zero k hk a ha]
  · rw [scale_pedal_fl_high f32 k a (by omega)]
    exact le_min hk.1.le (f32_nonneg _ (div_nonneg (f32_nonneg _ (mul_nonneg
      (by have : (k.PEDAL_TRAVEL_MIN : ℚ) ≤ a := by exact_mod_cast (by omega : k.PEDAL_TRAVEL_MIN ≤ a)
          linarith) hk.1.le)) hk.2.le))

/-- The scaled pedal value never exceeds CURRENT_MAX. -/
theorem scale_pedal_fl_le_max (fl : ℚ → ℚ) (k : PedalH) (a : Nat) :
    scale_pedal_fl fl k a ≤ k.CURRENT_MAX := by
  unfold scale_pedal_fl
  simp only
  generalize fl (fl ((if a > k.PEDAL_TRAVEL_MIN then ((a - k.PEDAL_TRAVEL_MIN : Nat) : ℚ)
    else 0) * k.CURRENT_MAX) / k.PEDAL_TRAVEL) = x
  split_ifs with h
  · exact le_refl _
  · exact not_lt.mp h

/-- Constants that are `float` values of ordinary magnitude are positive. -/
theorem float_ok_limits_ok (k : PedalH) (hk : k.float_ok) : k.limits_ok :=
  ⟨lt_of_lt_of_le (by norm_num) hk.2.2.2.2.1.1, lt_of_lt_of_le (by norm_num) hk.2.2.2.2.2.1.1⟩

/-- The scaled pedal value computed in `float` is within a relative error of `2^-22` of
the clipped linear pedal value of the spec. -/
theorem scale_pedal_f32_close (k : PedalH) (hk : k.float_ok) (a : Nat) (ha : a < 65536) :
    |scale_pedal_fl f32 k a - spec_pedal k a| ≤ spec_pedal k a / 2 ^ 22 := by
  have hl := float_ok_limits_ok k hk
  obtain ⟨-, -, -, -, ⟨hc1, hc2⟩, ⟨ht1, ht2⟩, -⟩ := hk
  by_cases hlow : a ≤ k.PEDAL_TRAVEL_MIN
  · rw [scale_pedal_fl_low f32 f32_zero k hl a hlow]
    unfold spec_pedal
    rw [if_pos hlow]
    norm_num
  · have hhigh : k.PEDAL_TRAVEL_MIN < a := by omega
    rw [scale_pedal_fl_high f32 k a hhigh]
    unfold spec_pedal
    rw [if_neg hlow]
    have hp1 : (1 : ℚ) ≤ (a : ℚ) - k.PEDAL_TRAVEL_MIN := by
      have : (k.PEDAL_TRAVEL_MIN : ℚ) + 1 ≤ a := by exact_mod_cast hhigh
      linarith
    have hp2 : (a : ℚ) - k.PEDAL_TRAVEL_MIN ≤ 65536 := by
      have h1 : (a : ℚ) ≤ 65536 := by exact_mod_cast ha.le
      have h2 : (0 : ℚ) ≤ k.PEDAL_TRAVEL_MIN := Nat.cast_nonneg _
      linarith
    generalize (a : ℚ) - k.PEDAL_TRAVEL_MIN = p at hp1 hp2
    have hC := hl.1
    have hT := hl.2
    have hA : 1 / 2 ^ 126 ≤ p * k.CURRENT_MAX := by
      calc (1 : ℚ) / 2 ^ 126 ≤ 1 / 2 ^ 32 := by norm_num
        _ ≤ k.CURRENT_MAX := hc1
        _ = 1 * k.CURRENT_MAX := (one_mul _).symm
        _ ≤ p * k.CURRENT_MAX := mul_le_mul_of_nonneg_right hp1 hC.le
    have hA32 : 1 / 2 ^ 32 ≤ p * k.CURRENT_MAX := by
      calc (1 : ℚ) / 2 ^ 32 ≤ k.CURRENT_MAX := hc1
        _ = 1 * k.CURRENT_MAX := (one_mul _).symm
        _ ≤ p * k.CURRENT_MAX := mul_le_mul_of_nonneg_right hp1 hC.le
    have hz : (2 : ℚ) ^ (-126 : ℤ) = 1 / 2 ^ 126 := by norm_num
    have hApos : 0 < p * k.CURRENT_MAX := lt_of_lt_of_le (by norm_num) hA
    have he := f32_error (p * k.CURRENT_MAX) (by rw [hz, abs_of_pos hApos]; exact hA)
    rw [abs_of_pos hApos, abs_le] at he
    have hA' : 1 / 2 ^ 33 ≤ f32 (p * k.CURRENT_MAX) := by
      have : (1 : ℚ) / 2 ^ 33 ≤ p * k.CURRENT_MAX - p * k.CURRENT_MAX / 2 ^ 24 := by
        have : p * k.CURRENT_MAX / 2 ^ 24 ≤ p * k.CURRENT_MAX / 2 := by
          apply div_le_div_of_nonneg_left hApos.le (by norm_num) (by norm_num)
        linarith
      linarith [he.1]
    have hB : 1 / 2 ^ 126 ≤ f32 (p * k.CURRENT_MAX) / k.PEDAL_TRAVEL := by
      rw [le_div_iff₀ hT]
      calc 1 / 2 ^ 126 * k.PEDAL_TRAVEL ≤ 1 / 2 ^ 126 * 2 ^ 32 :=
            mul_le_mul_of_nonneg_left ht2 (by norm_num)
        _ ≤ 1 / 2 ^ 33 := by norm_num
        _ ≤ f32 (p * k.CURRENT_MAX) := hA'
    have h2 := f32_two_roundings (p * k.CURRENT_MAX) k.PEDAL_TRAVEL hA hT hB
    have hE : k.CURRENT_MAX * (p / k.PEDAL_TRAVEL) = p * k.CURRENT_MAX / k.PEDAL_TRAVEL := by
      ring
    rw [hE]
    have hEpos : 0 < p * k.CURRENT_MAX / k.PEDAL_TRAVEL := div_pos hApos hT
    generalize f32 (f32 (p * k.CURRENT_MAX) / k.PEDAL_TRAVEL) = F at h2 ⊢
    generalize p * k.CURRENT_MAX / k.PEDAL_TRAVEL = E at h2 hEpos ⊢
    generalize k.CURRENT_MAX = C at hC ⊢
    rw [abs_le] at h2 ⊢
    rcases le_total C F with h1 | h1 <;> rcases le_total C E with h3 | h3 <;>
      simp only [min_eq_left, min_eq_right, h1, h3] <;> constructor <;> linarith

/-- With exact arithmetic (`fl = id`) the function is `process_pedal`. -/
theorem process_pedal_fl_id (k : PedalH) (command : command_variables) (a b c r : Nat) :
    process_pedal_fl id k command a b c r = process_pedal k command a b c r := rfl

/-- The flags left by `process_pedal_fl` are the updated flags. -/
theorem process_pedal_fl_flags (fl : ℚ → ℚ) (k : PedalH) (c : command_variables)
    (a b cc r : Nat) :
    (process_pedal_fl fl k c a b cc r).flags = update_flags k c.flags a cc := by
  unfold process_pedal_fl
  simp only
  split_ifs <;> rfl

/-- With a fault flag left set, `process_pedal_fl` commands zero current and zero rpm. -/
theorem process_pedal_fl_fault (fl : ℚ → ℚ) (k : PedalH) (c : command_variables)
    (a b cc r : Nat) (hf : (process_pedal_fl fl k c a b cc r).flags ≠ 0) :
    (process_pedal_fl fl k c a b cc r).current = 0 ∧
    (process_pedal_fl fl k c a b cc r).rpm = 0 := by
  rw [process_pedal_fl_flags] at hf
  unfold process_pedal_fl
  simp only [hf, if_false, and_self]

/-- With no fault flag left set, the outputs of `process_pedal_fl` per mode, in terms of
the scaled pedal value and the stored regen level. -/
theorem process_pedal_fl_no_fault (fl : ℚ → ℚ) (k : PedalH) (c : command_variables)
    (a b cc r : Nat) (hf : (process_pedal_fl fl k c a b cc r).flags = 0) :
    (c.state = MODE_R → r = 0 →
      (process_pedal_fl fl k c a b cc r).current = scale_pedal_fl fl k a ∧
      (process_pedal_fl fl k c a b cc r).rpm = k.RPM_REV_MAX) ∧
    (c.state = MODE_R → r ≠ 0 →
      (process_pedal_fl fl k c a b cc r).current = fl (15 / 100) ∧
      (process_pedal_fl fl k c a b cc r).rpm = 0) ∧
    (c.state = MODE_DL ∨ c.state = MODE_DH →
      (process_pedal_fl fl k c a b cc r).current = scale_pedal_fl fl k a ∧
      (process_pedal_fl fl k c a b cc r).rpm = k.RPM_FWD_MAX) ∧
    (c.state = MODE_BL ∨ c.state = MODE_BH → scale_pedal_fl fl k a > 0 →
      (process_pedal_fl fl k c a b cc r).current = fl (15 / 100) ∧
      (process_pedal_fl fl k c a b cc r).rpm = fl (scale_pedal_fl fl k a * k.RPM_FWD_MAX)) ∧
    (c.state = MODE_BL ∨ c.state = MODE_BH → ¬ scale_pedal_fl fl k a > 0 →
      (process_pedal_fl fl k c a b cc r).current = fl (15 / 100) ∧
      (process_pedal_fl fl k c a b cc r).rpm = 0) ∧
    (c.state ≠ MODE_R → c.state ≠ MODE_DL → c.state ≠ MODE_DH → c.state ≠ MODE_BL →
      c.state ≠ MODE_BH →
      (process_pedal_fl fl k c a b cc r).current = 0 ∧
      (process_pedal_fl fl k c a b cc r).rpm = 0) := by
  rw [process_pedal_fl_flags] at hf
  unfold process_pedal_fl
  simp only [hf, if_true, FALSE, MODE_R, MODE_DL, MODE_DH, MODE_BL, MODE_BH]
  refine ⟨?_, ?_, ?_, ?_, ?_, ?_⟩
  · intro h1 h2; simp [h1, h2]
  · intro h1 h2; simp [h1, h2]
  · intro h1; rcases h1 with h1 | h1 <;> simp [h1]
  · intro h1 h2; rcases h1 with h1 | h1 <;> simp [h1, h2]
  · intro h1 h2; rcases h1 with h1 | h1 <;> simp [h1, h2]
  · intro h1 h2 h3 h4 h5; simp [h1, h2, h3, h4, h5]

theorem f32_one : f32 1 = 1 := by
  rw [f32_of 1 0 8388608 (by norm_num) (by norm_num) (by norm_num) (by norm_num [abs_lt])]
  norm_num

theorem f32_two : f32 2 = 2 := by
  rw [f32_of 2 1 8388608 (by norm_num) (by norm_num) (by norm_num) (by norm_num [abs_lt])]
  norm_num

theorem f32_eighth : f32 (1 / 8) = 1 / 8 := by
  rw [f32_of (1 / 8) (-3) 8388608 (by norm_num [abs_of_pos]) (by norm_num [abs_of_pos])
    (by norm_num) (by norm_num [abs_lt])]
  norm_num

theorem f32_3000 : f32 3000 = 3000 := by
  rw [f32_of 3000 11 12288000 (by norm_num [abs_of_pos]) (by norm_num [abs_of_pos])
    (by norm_num) (by norm_num [abs_lt])]
  norm_num

theorem f32_4000 : f32 4000 = 4000 := by
  rw [f32_of 4000 11 16384000 (by norm_num [abs_of_pos]) (by norm_num [abs_of_pos])
    (by norm_num) (by norm_num [abs_lt])]
  norm_num

theorem f32_neg_4000 : f32 (-4000) = -4000 := by
  rw [f32_of (-4000) 11 (-16384000) (by norm_num [abs_of_pos]) (by norm_num [abs_of_pos])
    (by norm_num) (by norm_num [abs_lt])]
  norm_num

theorem f32_500 : f32 500 = 500 := by
  rw [f32_of 500 8 16384000 (by norm_num [abs_of_pos]) (by norm_num [abs_of_pos])
    (by norm_num) (by norm_num [abs_lt])]
  norm_num

theorem f32_1500 : f32 1500 = 1500 := by
  rw [f32_of 1500 10 12288000 (by norm_num [abs_of_pos]) (by norm_num [abs_of_pos])
    (by norm_num) (by norm_num [abs_lt])]
  norm_num

theorem f32_half : f32 (1 / 2) = 1 / 2 := by
  rw [f32_of (1 / 2) (-1) 8388608 (by norm_num [abs_of_pos]) (by norm_num [abs_of_pos])
    (by norm_num) (by norm_num [abs_lt])]
  norm_num

theorem f32_sixth : f32 (1 / 6) = 11184811 / 67108864 := by
  rw [f32_of (1 / 6) (-3) 11184811 (by norm_num [abs_of_pos]) (by norm_num [abs_of_pos])
    (by norm_num) (by norm_num [abs_lt])]
  norm_num

/-- The `float` product of the scaled pedal value at `analog_a = 1000` and 4000 rpm
(666.666687...). -/
theorem f32_brake_rpm : f32 (11184811 / 67108864 * 4000) = 10922667 / 16384 := by
  rw [f32_of (11184811 / 67108864 * 4000) 9 10922667 (by norm_num [abs_of_pos])
    (by norm_num [abs_of_pos]) (by norm_num) (by norm_num [abs_lt])]
  norm_num

/-- The constants of the sample header are `float` values of ordinary magnitude. -/
theorem pedalH_unit_float_ok : pedalH_unit.float_ok := by
  refine ⟨f32_one, f32_3000, f32_4000, f32_neg_4000, ?_, ?_, ?_⟩ <;>
    simp only [pedalH_unit] <;> norm_num [abs_of_pos]

/-- The sample header at `analog_a = 1000`: 500 counts of 3000, rounded to `float`. -/
theorem scale_pedal_f32_unit_1000 :
    scale_pedal_fl f32 pedalH_unit 1000 = 11184811 / 67108864 := by
  rw [scale_pedal_fl_high f32 pedalH_unit 1000 (by decide)]
  have h1 : ((1000 : Nat) : ℚ) - pedalH_unit.PEDAL_TRAVEL_MIN = 500 := by
    simp only [pedalH_unit]; norm_num
  have h2 : pedalH_unit.CURRENT_MAX = 1 := rfl
  have h3 : pedalH_unit.PEDAL_TRAVEL = 3000 := rfl
  rw [h1, h2, h3, mul_one, f32_500, show (500 : ℚ) / 3000 = 1 / 6 by norm_num, f32_sixth]
  norm_num

/-- The sample header at half travel, `analog_a = 2000`. -/
theorem scale_pedal_f32_unit_2000 :
    scale_pedal_fl f32 pedalH_unit 2000 = 1 / 2 := by
  rw [scale_pedal_fl_high f32 pedalH_unit 2000 (by decide)]
  have h1 : ((2000 : Nat) : ℚ) - pedalH_unit.PEDAL_TRAVEL_MIN = 1500 := by
    simp only [pedalH_unit]; norm_num
  have h2 : pedalH_unit.CURRENT_MAX = 1 := rfl
  have h3 : pedalH_unit.PEDAL_TRAVEL = 3000 := rfl
  rw [h1, h2, h3, mul_one, f32_1500, show (1500 : ℚ) / 3000 = 1 / 2 by norm_num, f32_half]
  norm_num

theorem pedalH_eighth_limits_ok : pedalH_eighth.limits_ok := by
  unfold PedalH.limits_ok pedalH_eighth pedalH_unit; norm_num

theorem pedalH_two_limits_ok : pedalH_two.limits_ok := by
  unfold PedalH.limits_ok pedalH_two pedalH_unit; norm_num

/-- C4, as stated, fails: with CURRENT_MAX = 1/8 (positive, a `float` value),
PEDAL_TRAVEL = 3000 and the in-range sample 1000 in mode Brake-Low, the torque command is
the fixed regen level, the `float` value 5033165/33554432 of 0.15, above CURRENT_MAX. -/
theorem C4_counterexample :
    pedalH_eighth.limits_ok ∧ f32 pedalH_eighth.CURRENT_MAX = pedalH_eighth.CURRENT_MAX ∧
    (pedalH_eighth.PEDAL_ERROR_MIN ≤ 1000 ∧ 1000 ≤ pedalH_eighth.PEDAL_ERROR_MAX) ∧
    (process_pedal_fl f32 pedalH_eighth (command_in MODE_BL) 1000 1000 100 0).current
      = 5033165 / 33554432 ∧
    ¬ ((process_pedal_fl f32 pedalH_eighth (command_in MODE_BL) 1000 1000 100 0).current
        ≤ pedalH_eighth.CURRENT_MAX) := by
  have hf : (process_pedal_fl f32 pedalH_eighth (command_in MODE_BL) 1000 1000 100 0).flags
      = 0 := by
    rw [process_pedal_fl_flags]; decide
  have hrow := process_pedal_fl_no_fault f32 pedalH_eighth (command_in MODE_BL) 1000 1000 100 0
    hf
  have hcur : (process_pedal_fl f32 pedalH_eighth (command_in MODE_BL) 1000 1000 100 0).current
      = 5033165 / 33554432 := by
    by_cases hp : scale_pedal_fl f32 pedalH_eighth 1000 > 0
    · rw [(hrow.2.2.2.1 (Or.inl rfl) hp).1, f32_regen]
    · rw [(hrow.2.2.2.2.1 (Or.inl rfl) hp).1, f32_regen]
  refine ⟨pedalH_eighth_limits_ok, f32_eighth, by decide, hcur, ?_⟩
  rw [hcur, show pedalH_eighth.CURRENT_MAX = 1 / 8 from rfl]
  norm_num

/-- C4 (amended): for every sample, regen request, prior flags and mode (CURRENT_MAX a
positive `float` value, PEDAL_TRAVEL positive), the torque command left by `process_pedal`
is never negative; it is at most CURRENT_MAX except when no fault flag is set and the mode
is Reverse with a regen request, Brake-Low or Brake-High; and in exactly those rows it is
the fixed regen level, the `float` value 5033165/33554432 of the literal 0.15, whatever
CURRENT_MAX is. -/
theorem C4_torque_bounds (k : PedalH) (hk : k.limits_ok)
    (hc : f32 k.CURRENT_MAX = k.CURRENT_MAX) (command : command_variables)
    (analog_a analog_b analog_c request_regen : Nat) :
    0 ≤ (process_pedal_fl f32 k command analog_a analog_b analog_c request_regen).current ∧
    (¬ ((process_pedal_fl f32 k command analog_a analog_b analog_c request_regen).flags = 0 ∧
        (command.state = MODE_R ∧ request_regen ≠ 0 ∨ command.state = MODE_BL ∨
          command.state = MODE_BH)) →
      (process_pedal_fl f32 k command analog_a analog_b analog_c request_regen).current
        ≤ k.CURRENT_MAX) ∧
    ((process_pedal_fl f32 k command analog_a analog_b analog_c request_regen).flags = 0 →
      (command.state = MODE_R ∧ request_regen ≠ 0 ∨ command.state = MODE_BL ∨
          command.state = MODE_BH) →
      (process_pedal_fl f32 k command analog_a analog_b analog_c request_regen).current
        = 5033165 / 33554432) := by
  have h0 := scale_pedal_f32_nonneg k hk analog_a
  have h1 := scale_pedal_fl_le_max f32 k analog_a
  have hC : (0 : ℚ) ≤ k.CURRENT_MAX := hk.1.le
  by_cases hf : (process_pedal_fl f32 k command analog_a analog_b analog_c request_regen).flags
      = 0
  · have hrow := process_pedal_fl_no_fault f32 k command analog_a analog_b analog_c
      request_regen hf
    have hregen : (command.state = MODE_R ∧ request_regen ≠ 0 ∨ command.state = MODE_BL ∨
          command.state = MODE_BH) →
        (process_pedal_fl f32 k command analog_a analog_b analog_c request_regen).current
          = 5033165 / 33554432 := by
      rintro (⟨hm, hr⟩ | hm | hm)
      · rw [(hrow.2.1 hm hr).1, f32_regen]
      · by_cases hp : scale_pedal_fl f32 k analog_a > 0
        · rw [(hrow.2.2.2.1 (Or.inl hm) hp).1, f32_regen]
        · rw [(hrow.2.2.2.2.1 (Or.inl hm) hp).1, f32_regen]
      · by_cases hp : scale_pedal_fl f32 k analog_a > 0
        · rw [(hrow.2.2.2.1 (Or.inr hm) hp).1, f32_regen]
        · rw [(hrow.2.2.2.2.1 (Or.inr hm) hp).1, f32_regen]
    by_cases hrg : (command.state = MODE_R ∧ request_regen ≠ 0 ∨ command.state = MODE_BL ∨
          command.state = MODE_BH)
    · refine ⟨?_, fun hn => absurd ⟨hf, hrg⟩ hn, fun _ => hregen⟩
      rw [hregen hrg]; norm_num
    · have hrg2 := hrg
      simp only [not_or, not_and_or, not_not] at hrg2
      obtain ⟨hR, hBL, hBH⟩ := hrg2
      have hcur : (process_pedal_fl f32 k command analog_a analog_b analog_c
            request_regen).current = scale_pedal_fl f32 k analog_a ∨
          (process_pedal_fl f32 k command analog_a analog_b analog_c
            request_regen).current = 0 := by
        by_cases hmR : command.state = MODE_R
        · rcases hR with hR | hR
          · exact absurd hmR hR
          · exact Or.inl (hrow.1 hmR hR).1
        · by_cases hmD : command.state = MODE_DL ∨ command.state = MODE_DH
          · exact Or.inl (hrow.2.2.1 hmD).1
          · simp only [not_or] at hmD
            exact Or.inr (hrow.2.2.2.2.2 hmR hmD.1 hmD.2 hBL hBH).1
      refine ⟨?_, fun _ => ?_, fun _ h => absurd h hrg⟩
      · rcases hcur with h | h <;> rw [h]
        exact h0
      · rcases hcur with h | h <;> rw [h]
        · exact h1
        · exact hC
  · have hz := (process_pedal_fl_fault f32 k command analog_a analog_b analog_c request_regen
      hf).1
    refine ⟨by rw [hz], fun _ => by rw [hz]; exact hC, fun h => absurd h hf⟩

/-- The amended C4 at the sample header: Brake-Low commands the regen level, Drive-Low
stays within CURRENT_MAX. -/
theorem C4_torque_bounds_witness :
    pedalH_unit.limits_ok ∧ f32 pedalH_unit.CURRENT_MAX = pedalH_unit.CURRENT_MAX ∧
    (process_pedal_fl f32 pedalH_unit (command_in MODE_BL) 1000 1000 100 0).flags = 0 ∧
    (process_pedal_fl f32 pedalH_unit (command_in MODE_BL) 1000 1000 100 0).current
      = 5033165 / 33554432 ∧
    (process_pedal_fl f32 pedalH_unit (command_in MODE_DL) 1000 1000 100 0).current
      ≤ pedalH_unit.CURRENT_MAX := by
  have hf : (process_pedal_fl f32 pedalH_unit (command_in MODE_BL) 1000 1000 100 0).flags
      = 0 := by
    rw [process_pedal_fl_flags]; decide
  refine ⟨pedalH_unit_limits_ok, f32_one, hf,
    (C4_torque_bounds pedalH_unit pedalH_unit_limits_ok f32_one (command_in MODE_BL)
      1000 1000 100 0).2.2 hf (Or.inr (Or.inl rfl)), ?_⟩
  exact (C4_torque_bounds pedalH_unit pedalH_unit_limits_ok f32_one (command_in MODE_DL)
      1000 1000 100 0).2.1 (by
        rintro ⟨-, ⟨h, -⟩ | h | h⟩ <;> exact absurd h (by decide))

/-- C6, as stated, fails: with the sample header (PEDAL_TRAVEL_MIN = 500,
PEDAL_TRAVEL = 3000, CURRENT_MAX = 1), no fault flag, mode Drive-Low and `analog_a = 1000`,
the torque command is the `float` 11184811/67108864 and not
min(CURRENT_MAX, 500 * CURRENT_MAX / PEDAL_TRAVEL) = 1/6. -/
theorem C6_counterexample :
    pedalH_unit.float_ok ∧
    (process_pedal_fl f32 pedalH_unit (command_in MODE_DL) 1000 0 100 0).flags = 0 ∧
    pedalH_unit.PEDAL_TRAVEL_MIN < 1000 ∧
    (process_pedal_fl f32 pedalH_unit (command_in MODE_DL) 1000 0 100 0).current
      = 11184811 / 67108864 ∧
    (process_pedal_fl f32 pedalH_unit (command_in MODE_DL) 1000 0 100 0).current ≠
      min pedalH_unit.CURRENT_MAX
        ((((1000 : Nat) : ℚ) - pedalH_unit.PEDAL_TRAVEL_MIN) * pedalH_unit.CURRENT_MAX
          / pedalH_unit.PEDAL_TRAVEL) := by
  have hf : (process_pedal_fl f32 pedalH_unit (command_in MODE_DL) 1000 0 100 0).flags
      = 0 := by
    rw [process_pedal_fl_flags]; decide
  have hcur : (process_pedal_fl f32 pedalH_unit (command_in MODE_DL) 1000 0 100 0).current
      = 11184811 / 67108864 := by
    rw [((process_pedal_fl_no_fault f32 pedalH_unit (command_in MODE_DL) 1000 0 100 0
      hf).2.2.1 (Or.inl rfl)).1, scale_pedal_f32_unit_1000]
  refine ⟨pedalH_unit_float_ok, hf, by decide, hcur, ?_⟩
  rw [hcur]
  simp only [pedalH_unit]
  norm_num

/-- C6 (amended): with no fault flag set and mode Drive-Low or Drive-High, for a 16-bit
sample and `float` constants of ordinary magnitude, `process_pedal` sets
`command.rpm = RPM_FWD_MAX`, and `command.current = 0` when `analog_a ≤ PEDAL_TRAVEL_MIN`;
otherwise `command.current` is min(CURRENT_MAX, r), where r is
`(analog_a - PEDAL_TRAVEL_MIN) * CURRENT_MAX / PEDAL_TRAVEL` evaluated in `float` (product
rounded, then quotient rounded), which lies within a relative error of `2^-22` of
min(CURRENT_MAX, (analog_a - PEDAL_TRAVEL_MIN) * CURRENT_MAX / PEDAL_TRAVEL); at
`analog_a = PEDAL_TRAVEL_MIN + PEDAL_TRAVEL/2` the torque is half of CURRENT_MAX to within
that error. -/
theorem C6_drive_mapping (k : PedalH) (hk : k.float_ok) (command : command_variables)
    (analog_a analog_b analog_c request_regen : Nat) (ha : analog_a < 65536)
    (hf : (process_pedal_fl f32 k command analog_a analog_b analog_c request_regen).flags = 0)
    (hm : command.state = MODE_DL ∨ command.state = MODE_DH) :
    (process_pedal_fl f32 k command analog_a analog_b analog_c request_regen).rpm
      = k.RPM_FWD_MAX ∧
    (analog_a ≤ k.PEDAL_TRAVEL_MIN →
      (process_pedal_fl f32 k command analog_a analog_b analog_c request_regen).current = 0) ∧
    (k.PEDAL_TRAVEL_MIN < analog_a →
      (process_pedal_fl f32 k command analog_a analog_b analog_c request_regen).current =
        min k.CURRENT_MAX
          (f32 (f32 (((analog_a : ℚ) - k.PEDAL_TRAVEL_MIN) * k.CURRENT_MAX)
            / k.PEDAL_TRAVEL)) ∧
      |(process_pedal_fl f32 k command analog_a analog_b analog_c request_regen).current -
          min k.CURRENT_MAX
            (((analog_a : ℚ) - k.PEDAL_TRAVEL_MIN) * k.CURRENT_MAX / k.PEDAL_TRAVEL)|
        ≤ min k.CURRENT_MAX
            (((analog_a : ℚ) - k.PEDAL_TRAVEL_MIN) * k.CURRENT_MAX / k.PEDAL_TRAVEL)
          / 2 ^ 22) ∧
    ((analog_a : ℚ) = k.PEDAL_TRAVEL_MIN + k.PEDAL_TRAVEL / 2 →
      |(process_pedal_fl f32 k command analog_a analog_b analog_c request_regen).current -
          1 / 2 * k.CURRENT_MAX| ≤ 1 / 2 * k.CURRENT_MAX / 2 ^ 22) := by
  obtain ⟨hcur, hrpm⟩ :=
    (process_pedal_fl_no_fault f32 k command analog_a analog_b analog_c request_regen
      hf).2.2.1 hm
  have hl := float_ok_limits_ok k hk
  have hclose := scale_pedal_f32_close k hk analog_a ha
  have hspec : k.PEDAL_TRAVEL_MIN < analog_a → spec_pedal k analog_a =
      min k.CURRENT_MAX
        (((analog_a : ℚ) - k.PEDAL_TRAVEL_MIN) * k.CURRENT_MAX / k.PEDAL_TRAVEL) := by
    intro h
    unfold spec_pedal
    rw [if_neg (by omega)]
    congr 1
    ring
  rw [hcur]
  refine ⟨hrpm, ?_, ?_, ?_⟩
  · intro h
    exact scale_pedal_fl_low f32 f32_zero k hl analog_a h
  · intro h
    refine ⟨scale_pedal_fl_high f32 k analog_a h, ?_⟩
    rw [← hspec h]
    exact hclose
  · intro h
    have hlt : k.PEDAL_TRAVEL_MIN < analog_a := by
      by_contra hle
      have : (analog_a : ℚ) ≤ k.PEDAL_TRAVEL_MIN := by exact_mod_cast (not_lt.mp hle)
      linarith [hl.2]
    have hs : spec_pedal k analog_a = 1 / 2 * k.CURRENT_MAX := by
      rw [hspec hlt, h]
      have : ((k.PEDAL_TRAVEL_MIN : ℚ) + k.PEDAL_TRAVEL / 2 - k.PEDAL_TRAVEL_MIN)
          * k.CURRENT_MAX / k.PEDAL_TRAVEL = 1 / 2 * k.CURRENT_MAX := by
        have := hl.2.ne'
        field_simp
        ring
      rw [this]
      exact min_eq_right (by linarith [hl.1])
    rw [← hs]
    exact hclose

/-- The amended C6 at the sample header, half travel (`analog_a = 2000`), mode Drive-Low. -/
theorem C6_drive_mapping_witness :
    pedalH_unit.float_ok ∧
    (process_pedal_fl f32 pedalH_unit (command_in MODE_DL) 2000 0 100 0).flags = 0 ∧
    ((2000 : Nat) : ℚ) = pedalH_unit.PEDAL_TRAVEL_MIN + pedalH_unit.PEDAL_TRAVEL / 2 ∧
    (process_pedal_fl f32 pedalH_unit (command_in MODE_DL) 2000 0 100 0).rpm = 4000 ∧
    |(process_pedal_fl f32 pedalH_unit (command_in MODE_DL) 2000 0 100 0).current
      - 1 / 2 * pedalH_unit.CURRENT_MAX| ≤ 1 / 2 * pedalH_unit.CURRENT_MAX / 2 ^ 22 := by
  have hf : (process_pedal_fl f32 pedalH_unit (command_in MODE_DL) 2000 0 100 0).flags
      = 0 := by
    rw [process_pedal_fl_flags]; decide
  have hhalf : ((2000 : Nat) : ℚ) =
      pedalH_unit.PEDAL_TRAVEL_MIN + pedalH_unit.PEDAL_TRAVEL / 2 := by
    simp only [pedalH_unit]; norm_num
  have h := C6_drive_mapping pedalH_unit pedalH_unit_float_ok (command_in MODE_DL)
    2000 0 100 0 (by decide) hf (Or.inl rfl)
  exact ⟨pedalH_unit_float_ok, hf, hhalf, h.1, h.2.2.2 hhalf⟩

/-- The constants of the sample header with current limit two are `float` values of
ordinary magnitude. -/
theorem pedalH_two_float_ok : pedalH_two.float_ok := by
  refine ⟨f32_two, f32_3000, f32_4000, f32_neg_4000, ?_, ?_, ?_⟩ <;>
    simp only [pedalH_two, pedalH_unit] <;> norm_num [abs_of_pos]

/-- C7, as stated, fails: with CURRENT_MAX = 2, in mode Reverse with a regen request and
no fault flag set, the torque command is the `float` value 5033165/33554432 of 0.15, more
than 1/10 below 0.15 of CURRENT_MAX. -/
theorem C7_counterexample :
    pedalH_two.float_ok ∧
    (process_pedal_fl f32 pedalH_two (command_in MODE_R) 1000 0 100 1).flags = 0 ∧
    (process_pedal_fl f32 pedalH_two (command_in MODE_R) 1000 0 100 1).current
      = 5033165 / 33554432 ∧
    15 / 100 * pedalH_two.CURRENT_MAX -
      (process_pedal_fl f32 pedalH_two (command_in MODE_R) 1000 0 100 1).current > 1 / 10 := by
  have hf : (process_pedal_fl f32 pedalH_two (command_in MODE_R) 1000 0 100 1).flags = 0 := by
    rw [process_pedal_fl_flags]; decide
  have hcur : (process_pedal_fl f32 pedalH_two (command_in MODE_R) 1000 0 100 1).current
      = 5033165 / 33554432 := by
    rw [((process_pedal_fl_no_fault f32 pedalH_two (command_in MODE_R) 1000 0 100 1 hf).2.1
      rfl (by decide)).1, f32_regen]
  refine ⟨pedalH_two_float_ok, hf, hcur, ?_⟩
  rw [hcur, show pedalH_two.CURRENT_MAX = 2 from rfl]
  norm_num

/-- C7 (amended): with no fault flag set, for a 16-bit sample and `float` constants of
ordinary magnitude, `process_pedal` equals the mode table for every mode value, where
pedal is the clipped linear pedal value as computed in `float` (never negative, within a
relative error of `2^-22` of the exact clipped linear value) and regen is the fixed
constant 0.15 as a `float`, 5033165/33554432, not scaled by CURRENT_MAX: Reverse without
regen request gives (pedal, RPM_REV_MAX); Reverse with regen request gives (regen, 0);
Drive-Low/Drive-High give (pedal, RPM_FWD_MAX); Brake-Low/Brake-High give (regen, the
`float` product pedal * RPM_FWD_MAX) when pedal > 0 and (regen, 0) when pedal = 0; every
other mode value gives (0, 0). -/
theorem C7_mode_table (k : PedalH) (hk : k.float_ok) (command : command_variables)
    (analog_a analog_b analog_c request_regen : Nat) (ha : analog_a < 65536)
    (hf : (process_pedal_fl f32 k command analog_a analog_b analog_c request_regen).flags = 0) :
    (command.state = MODE_R → request_regen = 0 →
      (process_pedal_fl f32 k command analog_a analog_b analog_c request_regen).current
        = scale_pedal_fl f32 k analog_a ∧
      (process_pedal_fl f32 k command analog_a analog_b analog_c request_regen).rpm
        = k.RPM_REV_MAX) ∧
    (command.state = MODE_R → request_regen ≠ 0 →
      (process_pedal_fl f32 k command analog_a analog_b analog_c request_regen).current
        = 5033165 / 33554432 ∧
      (process_pedal_fl f32 k command analog_a analog_b analog_c request_regen).rpm = 0) ∧
    (command.state = MODE_DL ∨ command.state = MODE_DH →
      (process_pedal_fl f32 k command analog_a analog_b analog_c request_regen).current
        = scale_pedal_fl f32 k analog_a ∧
      (process_pedal_fl f32 k command analog_a analog_b analog_c request_regen).rpm
        = k.RPM_FWD_MAX) ∧
    (command.state = MODE_BL ∨ command.state = MODE_BH → scale_pedal_fl f32 k analog_a > 0 →
      (process_pedal_fl f32 k command analog_a analog_b analog_c request_regen).current
        = 5033165 / 33554432 ∧
      (process_pedal_fl f32 k command analog_a analog_b analog_c request_regen).rpm
        = f32 (scale_pedal_fl f32 k analog_a * k.RPM_FWD_MAX)) ∧
    (command.state = MODE_BL ∨ command.state = MODE_BH → scale_pedal_fl f32 k analog_a = 0 →
      (process_pedal_fl f32 k command analog_a analog_b analog_c request_regen).current
        = 5033165 / 33554432 ∧
      (process_pedal_fl f32 k command analog_a analog_b analog_c request_regen).rpm = 0) ∧
    (command.state ≠ MODE_R → command.state ≠ MODE_DL → command.state ≠ MODE_DH →
      command.state ≠ MODE_BL → command.state ≠ MODE_BH →
      (process_pedal_fl f32 k command analog_a analog_b analog_c request_regen).current = 0 ∧
      (process_pedal_fl f32 k command analog_a analog_b analog_c request_regen).rpm = 0) ∧
    0 ≤ scale_pedal_fl f32 k analog_a ∧
    |scale_pedal_fl f32 k analog_a - spec_pedal k analog_a|
      ≤ spec_pedal k analog_a / 2 ^ 22 := by
  have h := process_pedal_fl_no_fault f32 k command analog_a analog_b analog_c request_regen hf
  rw [f32_regen] at h
  refine ⟨h.1, h.2.1, h.2.2.1, h.2.2.2.1, ?_, h.2.2.2.2.2,
    scale_pedal_f32_nonneg k (float_ok_limits_ok k hk) analog_a,
    scale_pedal_f32_close k hk analog_a ha⟩
  intro hm hz
  exact h.2.2.2.2.1 hm (by rw [hz]; exact lt_irrefl 0)

/-- The amended C7 at the sample header in mode Brake-Low with `analog_a = 1000`: the
regen level and the `float` product 10922667/16384 (666.666687...). -/
theorem C7_mode_table_witness :
    pedalH_unit.float_ok ∧
    (process_pedal_fl f32 pedalH_unit (command_in MODE_BL) 1000 0 100 0).flags = 0 ∧
    (process_pedal_fl f32 pedalH_unit (command_in MODE_BL) 1000 0 100 0).current
      = 5033165 / 33554432 ∧
    (process_pedal_fl f32 pedalH_unit (command_in MODE_BL) 1000 0 100 0).rpm
      = 10922667 / 16384 := by
  have hf : (process_pedal_fl f32 pedalH_unit (command_in MODE_BL) 1000 0 100 0).flags
      = 0 := by
    rw [process_pedal_fl_flags]; decide
  have hp : scale_pedal_fl f32 pedalH_unit 1000 > 0 := by
    rw [scale_pedal_f32_unit_1000]; norm_num
  have h := (C7_mode_table pedalH_unit pedalH_unit_float_ok (command_in MODE_BL)
    1000 0 100 0 (by decide) hf).2.2.2.1 (Or.inl rfl) hp
  refine ⟨pedalH_unit_float_ok, hf, h.1, ?_⟩
  rw [h.2, scale_pedal_f32_unit_1000, show pedalH_unit.RPM_FWD_MAX = 4000 from rfl,
    f32_brake_rpm]

/-! ## The comms event, the interrupt routines and runs of the main loop -/

/-- With exact arithmetic (`fl = id`) the rounded ADC event is `adc_event_sampled`. -/
theorem adc_event_fl_id (b : Build) (k : PedalH) (h : CanH) (i : Inputs)
    (sampled : Nat × Nat) (s : State) :
    adc_event_fl id b k h i sampled s = adc_event_sampled b k h i sampled s := rfl

/-- The function `process_pedal_fl` leaves the mode unchanged. -/
theorem process_pedal_fl_state (fl : ℚ → ℚ) (k : PedalH) (c : command_variables)
    (a b cc r : Nat) :
    (process_pedal_fl fl k c a b cc r).state = c.state := by
  unfold process_pedal_fl
  simp only
  split_ifs <;> rfl

/-- The two 32-bit slots after the stores of a frame with two `float` fields. -/
theorem fp_pair_payload (float_bits : ℚ → Nat) (g : group_64) (x y : ℚ) :
    get_u32 (set_fp float_bits (set_fp float_bits g 1 x) 0 y) 0 = float_bits y % 2 ^ 32 ∧
    get_u32 (set_fp float_bits (set_fp float_bits g 1 x) 0 y) 1 = float_bits x % 2 ^ 32 := by
  unfold set_fp
  rw [set_u32_pair]
  unfold get_u32 get_u8
  simp
  constructor <;> omega

/-- The frames after the head of the transmissions. -/
theorem comms_telemetry_tx (h : CanH) (float_bits : ℚ → Nat) (slots : Nat → can_variables)
    (s : State) :
    (comms_telemetry h float_bits slots s).tx =
      s.tx ++ [comms_drive_frame h float_bits (slots s.tx.length) s.command,
        comms_power_frame h float_bits (slots (s.tx.length + 1)) s.command,
        comms_switch_frame h (slots (s.tx.length + 2)) s.command s.switches] ∧
    (comms_telemetry h float_bits slots s).comms_event_count = s.comms_event_count ∧
    (comms_telemetry h float_bits slots s).command = s.command ∧
    (comms_telemetry h float_bits slots s).switches = s.switches ∧
    (comms_telemetry h float_bits slots s).events = u16_or s.events EVENT_CAN_ACTIVITY := by
  unfold comms_telemetry can_push
  simp [List.append_assoc]

/-- The frames after the tail of the transmissions. -/
theorem comms_identify_tx (h : CanH) (slots : Nat → can_variables) (s : State) :
    (comms_identify h slots s).tx =
      s.tx ++ (if (s.comms_event_count + 1) % 65536 = 10
        then [comms_id_frame h (slots s.tx.length)] else []) ∧
    (comms_identify h slots s).comms_event_count =
      (if (s.comms_event_count + 1) % 65536 = 10 then 0
        else (s.comms_event_count + 1) % 65536) ∧
    (comms_identify h slots s).command = s.command ∧
    (comms_identify h slots s).switches = s.switches ∧
    (comms_identify h slots s).events = s.events := by
  unfold comms_identify can_push
  simp only
  split_ifs <;> simp

/-- One more frame at most is queued by the gearbox part of the comms event. -/
theorem comms_egear_tx (h : CanH) (slots : Nat → can_variables) (s : State) :
    ∃ rest : List can_variables, (comms_egear h slots s).tx = s.tx ++ rest := by
  unfold comms_egear can_push
  split_ifs
  all_goals first
    | exact ⟨[], (List.append_nil _).symm⟩
    | exact ⟨_, rfl⟩

/-- In either build, the frames of a comms event start with the drive, bus and switch
frames, built from the same command record and switch word. -/
theorem comms_transmit_head (b : Build) (h : CanH) (float_bits : ℚ → Nat)
    (slots : Nat → can_variables) (s : State) :
    ∃ rest : List can_variables,
      (comms_transmit b h float_bits slots s).tx =
        s.tx ++ [comms_drive_frame h float_bits (slots s.tx.length) s.command,
          comms_power_frame h float_bits (slots (s.tx.length + 1)) s.command,
          comms_switch_frame h (slots (s.tx.length + 2)) s.command s.switches] ++ rest := by
  unfold comms_transmit
  simp only
  rw [(comms_identify_tx h slots _).1]
  by_cases hb : b.USE_EGEAR = true
  · rw [if_pos hb]
    obtain ⟨r, hr⟩ := comms_egear_tx h slots (comms_telemetry h float_bits slots s)
    rw [hr, (comms_telemetry_tx h float_bits slots s).1]
    exact ⟨_, List.append_assoc _ _ _⟩
  · rw [if_neg hb, (comms_telemetry_tx h float_bits slots s).1]
    exact ⟨_, rfl⟩

/-- Without the gearbox actuator, the frames and the pass counter after the transmissions
of a comms event. -/
theorem comms_transmit_tx (b : Build) (hb : b.USE_EGEAR = false) (h : CanH)
    (float_bits : ℚ → Nat) (slots : Nat → can_variables) (s : State)
    (hn : s.comms_event_count ≤ 9) :
    (comms_transmit b h float_bits slots s).tx =
      s.tx ++ [comms_drive_frame h float_bits (slots s.tx.length) s.command,
        comms_power_frame h float_bits (slots (s.tx.length + 1)) s.command,
        comms_switch_frame h (slots (s.tx.length + 2)) s.command s.switches]
      ++ (if s.comms_event_count = 9 then [comms_id_frame h (slots (s.tx.length + 3))]
          else []) ∧
    (comms_transmit b h float_bits slots s).comms_event_count =
      (if s.comms_event_count = 9 then 0 else s.comms_event_count + 1) ∧
    (comms_transmit b h float_bits slots s).command = s.command ∧
    (comms_transmit b h float_bits slots s).switches = s.switches := by
  have hmod : (s.comms_event_count + 1) % 65536 = s.comms_event_count + 1 :=
    Nat.mod_eq_of_lt (by omega)
  have ht := comms_telemetry_tx h float_bits slots s
  unfold comms_transmit
  simp only [hb, Bool.false_eq_true, if_false]
  have hi := comms_identify_tx h slots (comms_telemetry h float_bits slots s)
  rw [hi.1, hi.2.1, hi.2.2.1, hi.2.2.2.1, ht.1, ht.2.1, ht.2.2.1, ht.2.2.2.1, hmod]
  have hlen : (s.tx ++ [comms_drive_frame h float_bits (slots s.tx.length) s.command,
        comms_power_frame h float_bits (slots (s.tx.length + 1)) s.command,
        comms_switch_frame h (slots (s.tx.length + 2)) s.command s.switches]).length
      = s.tx.length + 3 := by simp
  rw [hlen]
  by_cases h9 : s.comms_event_count = 9
  · simp [h9]
  · have : ¬ s.comms_event_count + 1 = 10 := by omega
    simp [h9, this]

/-- Without the gearbox actuator, one state-machine step from a mode among Off, Neutral,
Reverse, Brake-Low, Drive-Low and Charge ends in one of these six modes. -/
theorem next_state_of_no_egear (b : Build) (hb : b.USE_EGEAR = false) (h : CanH)
    (state switches events current_egear : Nat)
    (hm : state = MODE_OFF ∨ state = MODE_N ∨ state = MODE_R ∨ state = MODE_BL ∨
      state = MODE_DL ∨ state = MODE_CHARGE) :
    next_state_of b h state switches events current_egear = MODE_OFF ∨
    next_state_of b h state switches events current_egear = MODE_N ∨
    next_state_of b h state switches events current_egear = MODE_R ∨
    next_state_of b h state switches events current_egear = MODE_BL ∨
    next_state_of b h state switches events current_egear = MODE_DL ∨
    next_state_of b h state switches events current_egear = MODE_CHARGE := by
  unfold next_state_of
  rcases hm with hm | hm | hm | hm | hm | hm <;>
    simp only [hm, hb, MODE_OFF, MODE_N, MODE_R, MODE_BL, MODE_BH, MODE_DL, MODE_DH,
      MODE_CO_R, MODE_CO_BL, MODE_CO_BH, MODE_CO_DL, MODE_CO_DH, MODE_CHARGE] <;>
    simp only [Nat.reduceEqDiff, if_false, if_true, or_self, false_and,
      Bool.false_eq_true] <;>
    split_ifs <;> simp

/-- With none of EVENT_SLOW, EVENT_FORWARD and EVENT_REVERSE set, one state-machine step
from Off, Neutral or Charge ends in Off, Neutral or Charge, in either build. -/
theorem next_state_of_no_velocity (b : Build) (h : CanH)
    (state switches events current_egear : Nat)
    (hs : ¬ bit_set events EVENT_SLOW) (hf : ¬ bit_set events EVENT_FORWARD)
    (hr : ¬ bit_set events EVENT_REVERSE)
    (hm : state = MODE_OFF ∨ state = MODE_N ∨ state = MODE_CHARGE) :
    next_state_of b h state switches events current_egear = MODE_OFF ∨
    next_state_of b h state switches events current_egear = MODE_N ∨
    next_state_of b h state switches events current_egear = MODE_CHARGE := by
  unfold next_state_of
  rcases hm with hm | hm | hm <;>
    simp only [hm, hs, hf, hr, MODE_OFF, MODE_N, MODE_R, MODE_BL, MODE_BH, MODE_DL, MODE_DH,
      MODE_CO_R, MODE_CO_BL, MODE_CO_BH, MODE_CO_DL, MODE_CO_DH, MODE_CHARGE] <;>
    simp only [Nat.reduceEqDiff, if_false, if_true, or_self, false_and, and_false,
      Bool.false_eq_true] <;>
    split_ifs <;> simp

/-- The event word after an ADC event. -/
theorem adc_event_fl_events (fl : ℚ → ℚ) (b : Build) (k : PedalH) (h : CanH) (i : Inputs)
    (sampled : Nat × Nat) (s : State) :
    (adc_event_fl fl b k h i sampled s).events =
      if bit_set sampled.1 h.SW_IGN_ACC ∨ bit_set sampled.1 h.SW_IGN_ON
      then u16_and_not s.events EVENT_ADC
      else u16_and_not (u16_and_not s.events EVENT_ADC) EVENT_CONNECTED := rfl

/-- The mode after an ADC event. -/
theorem adc_event_fl_state (fl : ℚ → ℚ) (b : Build) (k : PedalH) (h : CanH) (i : Inputs)
    (sampled : Nat × Nat) (s : State) :
    (adc_event_fl fl b k h i sampled s).command.state =
      next_state_of b h s.command.state sampled.1 (u16_and_not s.events EVENT_ADC)
        s.current_egear := by
  unfold adc_event_fl
  simp only [process_pedal_fl_state]

theorem comms_egear_keeps (h : CanH) (slots : Nat → can_variables) (s : State) :
    (comms_egear h slots s).events = s.events ∧
    (comms_egear h slots s).command = s.command ∧
    (comms_egear h slots s).comms_event_count = s.comms_event_count ∧
    (comms_egear h slots s).switches = s.switches := by
  unfold comms_egear can_push
  split_ifs <;> exact ⟨rfl, rfl, rfl, rfl⟩

theorem comms_transmit_keeps (b : Build) (h : CanH) (float_bits : ℚ → Nat)
    (slots : Nat → can_variables) (s : State) :
    (comms_transmit b h float_bits slots s).events = u16_or s.events EVENT_CAN_ACTIVITY ∧
    (comms_transmit b h float_bits slots s).command = s.command ∧
    (comms_transmit b h float_bits slots s).switches = s.switches := by
  have ht := comms_telemetry_tx h float_bits slots s
  unfold comms_transmit
  simp only
  have hi := comms_identify_tx h slots
    (if b.USE_EGEAR = true then comms_egear h slots (comms_telemetry h float_bits slots s)
      else comms_telemetry h float_bits slots s)
  rw [hi.2.2.1, hi.2.2.2.1, hi.2.2.2.2]
  split_ifs
  · rw [(comms_egear_keeps h slots _).1, (comms_egear_keeps h slots _).2.1,
      (comms_egear_keeps h slots _).2.2.2, ht.2.2.1, ht.2.2.2.1, ht.2.2.2.2]
    exact ⟨rfl, rfl, rfl⟩
  · rw [ht.2.2.1, ht.2.2.2.1, ht.2.2.2.2]
    exact ⟨rfl, rfl, rfl⟩

/-- The event word, the command and the switch word after a comms event. -/
theorem comms_event_keeps (b : Build) (h : CanH) (float_bits : ℚ → Nat)
    (slots : Nat → can_variables) (s : State) :
    (comms_event b h float_bits slots s).events =
      (if bit_set (u16_and_not s.events EVENT_COMMS) EVENT_CONNECTED
       then u16_or (u16_and_not s.events EVENT_COMMS) EVENT_CAN_ACTIVITY
       else u16_and_not s.events EVENT_COMMS) ∧
    (comms_event b h float_bits slots s).command = comms_override b h s.switches s.command ∧
    (comms_event b h float_bits slots s).switches = s.switches := by
  unfold comms_event
  simp only
  split_ifs
  · simp only [comms_transmit_keeps, and_self]
  · exact ⟨rfl, rfl, rfl⟩

/-- The event word after the `timer_a0` routine. -/
theorem timer_a0_events_bit (t : TimerA) (s : State) (i : Nat) (h0 : i ≠ 0) (h1 : i ≠ 1)
    (h8 : i ≠ 8) (hi : i < 16) :
    (timer_a0 t s).2.events.testBit i = s.events.testBit i := by
  unfold timer_a0
  simp only
  rw [show EVENT_TIMER = 2 ^ 0 from rfl, show EVENT_COMMS = 2 ^ 1 from rfl,
    show EVENT_CAN_ACTIVITY = 2 ^ 8 from rfl]
  split_ifs <;> simp only [testBit_u16_or, testBit_u16_and_not, Nat.testBit_two_pow] <;>
    simp [hi, Ne.symm h0, Ne.symm h1, Ne.symm h8]

/-- The event word after the `timer_b0` routine. -/
theorem timer_b0_events_bit (s : State) (i : Nat) (hi : i < 12) :
    (timer_b0 s).events.testBit i = s.events.testBit i := by
  unfold timer_b0
  simp only
  rw [show EVENT_GAUGE1 = 2 ^ 12 from rfl, show EVENT_GAUGE2 = 2 ^ 13 from rfl,
    show EVENT_GAUGE3 = 2 ^ 14 from rfl, show EVENT_GAUGE4 = 2 ^ 15 from rfl]
  have h16 : i < 16 := by omega
  have a : ¬ 12 = i := by omega
  have b : ¬ 13 = i := by omega
  have c : ¬ 14 = i := by omega
  have d : ¬ 15 = i := by omega
  simp only [testBit_u16_and_not, Nat.testBit_two_pow]
  simp [h16, a, b, c, d]

theorem can_data_frame_events (h : CanH) (g : GaugeC) (float_of : Nat → rx_float)
    (can : can_variables) (s : State) :
    (can_data_frame h g float_of can s).events =
      if can.address = h.MC_CAN_BASE + h.MC_VELOCITY then
        u16_or (velocity_events (get_fp float_of can.data 0) (u16_or s.events EVENT_CONNECTED))
          g.tach_events
      else if can.address = h.MC_CAN_BASE + h.MC_I_VECTOR then
        if float_lt (get_fp float_of can.data 0) REGEN_THRESHOLD
        then u16_or (u16_or s.events EVENT_CONNECTED) EVENT_REGEN
        else u16_and_not (u16_or s.events EVENT_CONNECTED) EVENT_REGEN
      else if can.address = h.MC_CAN_BASE + h.MC_TEMP1 then
        u16_or (u16_or s.events EVENT_CONNECTED) g.temp_events
      else if can.address = h.MC_CAN_BASE + h.MC_LIMITS then
        if get_u8 can.data 0 = 0
        then u16_or (u16_or s.events EVENT_CONNECTED) EVENT_MC_NEUTRAL
        else u16_and_not (u16_or s.events EVENT_CONNECTED) EVENT_MC_NEUTRAL
      else if can.address = h.MC_CAN_BASE + h.MC_BUS then
        u16_or (u16_or (u16_or s.events EVENT_CONNECTED) g.power_events) g.fuel_events
      else u16_or s.events EVENT_CONNECTED := by
  by_cases h1 : can.address = h.MC_CAN_BASE + h.MC_VELOCITY
  · simp only [can_data_frame, if_pos h1]
  by_cases h2 : can.address = h.MC_CAN_BASE + h.MC_I_VECTOR
  · simp only [can_data_frame, if_neg h1, if_pos h2]
    by_cases hc : float_lt (get_fp float_of can.data 0) REGEN_THRESHOLD
    · simp only [if_pos hc]
    · simp only [if_neg hc]
  by_cases h3 : can.address = h.MC_CAN_BASE + h.MC_TEMP1
  · simp only [can_data_frame, if_neg h1, if_neg h2, if_pos h3]
  by_cases h4 : can.address = h.MC_CAN_BASE + h.MC_LIMITS
  · simp only [can_data_frame, if_neg h1, if_neg h2, if_neg h3, if_pos h4]
    by_cases hc : get_u8 can.data 0 = 0
    · simp only [if_pos hc]
    · simp only [if_neg hc]
  by_cases h5 : can.address = h.MC_CAN_BASE + h.MC_BUS
  · simp only [can_data_frame, if_neg h1, if_neg h2, if_neg h3, if_neg h4, if_pos h5]
  by_cases h6 : can.address = h.DC_CAN_BASE + h.DC_BOOTLOAD
  · simp only [can_data_frame, if_neg h1, if_neg h2, if_neg h3, if_neg h4, if_neg h5, if_pos h6]
    by_cases hc : bootload_token can.data
    · simp only [if_pos hc]
    · simp only [if_neg hc]
  by_cases h7 : can.address = h.EG_CAN_BASE + h.EG_STATUS
  · simp only [can_data_frame, if_neg h1, if_neg h2, if_neg h3, if_neg h4, if_neg h5, if_neg h6, if_pos h7]
    by_cases ha : get_u8 can.data 0 = h.EG_STATE_NEUTRAL
    · simp only [if_pos ha]
    by_cases hb : get_u8 can.data 0 = h.EG_STATE_LOW
    · simp only [if_neg ha, if_pos hb]
    by_cases hc : get_u8 can.data 0 = h.EG_STATE_HIGH
    · simp only [if_neg ha, if_neg hb, if_pos hc]
    · simp only [if_neg ha, if_neg hb, if_neg hc]
  · simp only [can_data_frame, if_neg h1, if_neg h2, if_neg h3, if_neg h4, if_neg h5, if_neg h6, if_neg h7]

theorem can_data_frame_command (h : CanH) (g : GaugeC) (float_of : Nat → rx_float)
    (can : can_variables) (s : State) :
    (can_data_frame h g float_of can s).command = s.command ∧
    (can_data_frame h g float_of can s).switches = s.switches ∧
    (can_data_frame h g float_of can s).comms_event_count = s.comms_event_count ∧
    (can_data_frame h g float_of can s).tx = s.tx := by
  by_cases h1 : can.address = h.MC_CAN_BASE + h.MC_VELOCITY
  · simp only [can_data_frame, if_pos h1, and_self]
  by_cases h2 : can.address = h.MC_CAN_BASE + h.MC_I_VECTOR
  · simp only [can_data_frame, if_neg h1, if_pos h2, and_self]
    by_cases hc : float_lt (get_fp float_of can.data 0) REGEN_THRESHOLD
    · simp only [if_pos hc, and_self]
    · simp only [if_neg hc, and_self]
  by_cases h3 : can.address = h.MC_CAN_BASE + h.MC_TEMP1
  · simp only [can_data_frame, if_neg h1, if_neg h2, if_pos h3, and_self]
  by_cases h4 : can.address = h.MC_CAN_BASE + h.MC_LIMITS
  · simp only [can_data_frame, if_neg h1, if_neg h2, if_neg h3, if_pos h4, and_self]
    by_cases hc : get_u8 can.data 0 = 0
    · simp only [if_pos hc, and_self]
    · simp only [if_neg hc, and_self]
  by_cases h5 : can.address = h.MC_CAN_BASE + h.MC_BUS
  · simp only [can_data_frame, if_neg h1, if_neg h2, if_neg h3, if_neg h4, if_pos h5, and_self]
  by_cases h6 : can.address = h.DC_CAN_BASE + h.DC_BOOTLOAD
  · simp only [can_data_frame, if_neg h1, if_neg h2, if_neg h3, if_neg h4, if_neg h5, if_pos h6, and_self]
    by_cases hc : bootload_token can.data
    · simp only [if_pos hc, and_self]
    · simp only [if_neg hc, and_self]
  by_cases h7 : can.address = h.EG_CAN_BASE + h.EG_STATUS
  · simp only [can_data_frame, if_neg h1, if_neg h2, if_neg h3, if_neg h4, if_neg h5, if_neg h6, if_pos h7, and_self]
    by_cases ha : get_u8 can.data 0 = h.EG_STATE_NEUTRAL
    · simp only [if_pos ha, and_self]
    by_cases hb : get_u8 can.data 0 = h.EG_STATE_LOW
    · simp only [if_neg ha, if_pos hb, and_self]
    by_cases hc : get_u8 can.data 0 = h.EG_STATE_HIGH
    · simp only [if_neg ha, if_neg hb, if_pos hc, and_self]
    · simp only [if_neg ha, if_neg hb, if_neg hc, and_self]
  · simp only [can_data_frame, if_neg h1, if_neg h2, if_neg h3, if_neg h4, if_neg h5, if_neg h6, if_neg h7, and_self]

theorem can_data_frame_events_bit (h : CanH) (g : GaugeC) (hg : g.ok)
    (float_of : Nat → rx_float) (can : can_variables) (s : State) (i : Nat)
    (hv : can.address ≠ h.MC_CAN_BASE + h.MC_VELOCITY)
    (hi : i < 12) (h2 : i ≠ 2) (h7 : i ≠ 7) (h9 : i ≠ 9) :
    (can_data_frame h g float_of can s).events.testBit i = s.events.testBit i := by
  have h16 : i < 16 := by omega
  have g1 := gauge_mask_low _ i hg.2.1.1 hi
  have g2 := gauge_mask_low _ i hg.2.2.1.1 hi
  have g3 := gauge_mask_low _ i hg.2.2.2.1 hi
  rw [can_data_frame_events, if_neg hv]
  rw [show EVENT_CONNECTED = 2 ^ 7 from rfl, show EVENT_REGEN = 2 ^ 2 from rfl,
    show EVENT_MC_NEUTRAL = 2 ^ 9 from rfl]
  split_ifs <;> simp only [testBit_u16_or, testBit_u16_and_not, Nat.testBit_two_pow] <;>
    simp [h16, Ne.symm h2, Ne.symm h7, Ne.symm h9, g1, g2, g3]

/-- The event word after the receive block, for a frame that is not a Data frame. -/
theorem can_receive_event_events (h : CanH) (g : GaugeC) (float_of : Nat → rx_float)
    (float_bits : ℚ → Nat) (can slot : can_variables) (s : State) :
    (can_receive_event h g float_of float_bits can slot s).events =
      if can.status = h.CAN_OK then (can_data_frame h g float_of can s).events
      else s.events := by
  unfold can_receive_event
  simp only [ite_self]
  split_ifs <;> simp only [(can_rtr_frame_keeps _ _ _ _ _).2.1]

theorem can_rtr_frame_keeps2 (h : CanH) (float_bits : ℚ → Nat) (can slot : can_variables)
    (s : State) :
    (can_rtr_frame h float_bits can slot s).switches = s.switches ∧
    (can_rtr_frame h float_bits can slot s).comms_event_count = s.comms_event_count := by
  unfold can_rtr_frame can_push
  split_ifs <;> exact ⟨rfl, rfl⟩

theorem can_receive_event_command (h : CanH) (g : GaugeC) (float_of : Nat → rx_float)
    (float_bits : ℚ → Nat) (can slot : can_variables) (s : State) :
    (can_receive_event h g float_of float_bits can slot s).command = s.command ∧
    (can_receive_event h g float_of float_bits can slot s).switches = s.switches ∧
    (can_receive_event h g float_of float_bits can slot s).comms_event_count
      = s.comms_event_count := by
  unfold can_receive_event
  simp only [ite_self]
  split_ifs <;>
    simp only [(can_rtr_frame_keeps _ _ _ _ _).2.2, can_rtr_frame_keeps2,
      can_data_frame_command, and_self]

/-- An event that is not the reception of a motor velocity Data frame leaves the five
velocity flags (bits 4, 5, 6, 10 and 11 of the event word) unchanged. -/
theorem loop_step_velocity_bits (fl : ℚ → ℚ) (b : Build) (k : PedalH) (h : CanH)
    (g : GaugeC) (hg : g.ok) (float_of : Nat → rx_float) (float_bits : ℚ → Nat) (e : LoopEvent) (s : State)
    (hv : ¬ is_velocity_frame h e) (i : Nat)
    (hi : i = 4 ∨ i = 5 ∨ i = 6 ∨ i = 10 ∨ i = 11) :
    (loop_step fl b k h g float_of float_bits e s).events.testBit i = s.events.testBit i := by
  have h12 : i < 12 := by omega
  have h16 : i < 16 := by omega
  have n0 : ¬ 0 = i := by omega
  have n1 : ¬ 1 = i := by omega
  have n3 : ¬ 3 = i := by omega
  have n7 : ¬ 7 = i := by omega
  have n8 : ¬ 8 = i := by omega
  cases e with
  | isr_timer_a0 t =>
    exact timer_a0_events_bit t s i (by omega) (by omega) (by omega) h16
  | isr_timer_b0 => exact timer_b0_events_bit s i h12
  | isr_adc =>
    show (u16_or s.events EVENT_ADC).testBit i = s.events.testBit i
    rw [show EVENT_ADC = 2 ^ 3 from rfl]
    simp only [testBit_u16_or, Nat.testBit_two_pow]
    simp [h16, n3]
  | timer =>
    show (if bit_set s.events EVENT_TIMER
      then { s with events := u16_and_not s.events EVENT_TIMER } else s).events.testBit i = _
    split_ifs
    · show (u16_and_not s.events EVENT_TIMER).testBit i = s.events.testBit i
      rw [show EVENT_TIMER = 2 ^ 0 from rfl]
      simp only [testBit_u16_and_not, Nat.testBit_two_pow]
      simp [h16, n0]
    · rfl
  | adc inp sampled =>
    show (if bit_set s.events EVENT_ADC then adc_event_fl fl b k h inp sampled s
      else s).events.testBit i = _
    split_ifs
    · rw [adc_event_fl_events, show EVENT_ADC = 2 ^ 3 from rfl,
        show EVENT_CONNECTED = 2 ^ 7 from rfl]
      split_ifs <;> simp only [testBit_u16_and_not, Nat.testBit_two_pow] <;> simp [h16, n3, n7]
    · rfl
  | comms slots =>
    show (if bit_set s.events EVENT_COMMS then comms_event b h float_bits slots s
      else s).events.testBit i = _
    split_ifs
    · rw [(comms_event_keeps b h float_bits slots s).1, show EVENT_COMMS = 2 ^ 1 from rfl,
        show EVENT_CAN_ACTIVITY = 2 ^ 8 from rfl]
      split_ifs <;> simp only [testBit_u16_or, testBit_u16_and_not, Nat.testBit_two_pow] <;>
        simp [h16, n1, n8]
    · rfl
  | receive P2IN can slot =>
    show (if P2IN &&& CAN_INTn = 0 then can_receive_event h g float_of float_bits can slot s
      else s).events.testBit i = _
    split_ifs with hp
    · rw [can_receive_event_events]
      split_ifs with hok
      · have hva : can.address ≠ h.MC_CAN_BASE + h.MC_VELOCITY :=
          fun ha => hv ⟨hp, hok, ha⟩
        exact can_data_frame_events_bit h g hg float_of can s i hva h12 (by omega) (by omega)
          (by omega)
      · rfl
    · rfl

/-- Only the ADC event writes the mode. -/
theorem loop_step_state (fl : ℚ → ℚ) (b : Build) (k : PedalH) (h : CanH) (g : GaugeC)
    (float_of : Nat → rx_float) (float_bits : ℚ → Nat) (e : LoopEvent) (s : State) :
    (loop_step fl b k h g float_of float_bits e s).command.state = s.command.state ∨
    ∃ switches : Nat, (loop_step fl b k h g float_of float_bits e s).command.state =
      next_state_of b h s.command.state switches (u16_and_not s.events EVENT_ADC)
        s.current_egear := by
  cases e with
  | isr_timer_a0 t => exact Or.inl rfl
  | isr_timer_b0 => exact Or.inl rfl
  | isr_adc => exact Or.inl rfl
  | timer =>
    show (if bit_set s.events EVENT_TIMER
      then { s with events := u16_and_not s.events EVENT_TIMER } else s).command.state = _ ∨ _
    split_ifs <;> exact Or.inl rfl
  | adc inp sampled =>
    simp only [loop_step]
    split_ifs
    · exact Or.inr ⟨sampled.1, adc_event_fl_state fl b k h inp sampled s⟩
    · exact Or.inl rfl
  | comms slots =>
    show (if bit_set s.events EVENT_COMMS then comms_event b h float_bits slots s
      else s).command.state = _ ∨ _
    split_ifs
    · left
      rw [(comms_event_keeps b h float_bits slots s).2.1]
      unfold comms_override
      split_ifs <;> rfl
    · exact Or.inl rfl
  | receive P2IN can slot =>
    show (if P2IN &&& CAN_INTn = 0 then can_receive_event h g float_of float_bits can slot s
      else s).command.state = _ ∨ _
    split_ifs
    · left
      rw [(can_receive_event_command h g float_of float_bits can slot s).1]
    · exact Or.inl rfl

/-- The comms event in a state with EVENT_CONNECTED set transmits. -/
theorem comms_event_connected (b : Build) (h : CanH) (float_bits : ℚ → Nat)
    (slots : Nat → can_variables) (s : State) (hc : bit_set s.events EVENT_CONNECTED) :
    comms_event b h float_bits slots s =
      comms_transmit b h float_bits slots
        { s with events := u16_and_not s.events EVENT_COMMS
                 command := comms_override b h s.switches s.command } := by
  have hc' : bit_set (u16_and_not s.events EVENT_COMMS) EVENT_CONNECTED :=
    bit_set_u16_and_not_of s.events 1 7 hc (by decide) (by decide)
  unfold comms_event
  simp only [hc', if_true]

/-- The comms event in a state with EVENT_CONNECTED clear transmits nothing. -/
theorem comms_event_unconnected (b : Build) (h : CanH) (float_bits : ℚ → Nat)
    (slots : Nat → can_variables) (s : State) (hc : ¬ bit_set s.events EVENT_CONNECTED) :
    comms_event b h float_bits slots s =
      { s with events := u16_and_not s.events EVENT_COMMS
               command := comms_override b h s.switches s.command } := by
  have hc' : ¬ bit_set (u16_and_not s.events EVENT_COMMS) EVENT_CONNECTED := by
    rw [show EVENT_CONNECTED = 2 ^ 7 from rfl, bit_set_two_pow] at hc ⊢
    rw [testBit_u16_and_not]
    simp [hc]
  unfold comms_event
  simp only [hc', if_false]

/-- The pass counter of the comms event stays below ten. -/
theorem comms_event_count_le (b : Build) (hb : b.USE_EGEAR = false) (h : CanH)
    (float_bits : ℚ → Nat) (slots : Nat → can_variables) (s : State)
    (hn : s.comms_event_count ≤ 9) :
    (comms_event b h float_bits slots s).comms_event_count ≤ 9 := by
  by_cases hc : bit_set s.events EVENT_CONNECTED
  · rw [comms_event_connected b h float_bits slots s hc]
    have ht := (comms_transmit_tx b hb h float_bits slots
      { s with events := u16_and_not s.events EVENT_COMMS
               command := comms_override b h s.switches s.command } hn).2.1
    rw [ht]
    show (if s.comms_event_count = 9 then 0 else s.comms_event_count + 1) ≤ 9
    split_ifs <;> omega
  · rw [comms_event_unconnected b h float_bits slots s hc]
    exact hn

/-- The pass counter stays below ten over every event. -/
theorem loop_step_count_le (fl : ℚ → ℚ) (b : Build) (hb : b.USE_EGEAR = false)
    (k : PedalH) (h : CanH) (g : GaugeC) (float_of : Nat → rx_float) (float_bits : ℚ → Nat) (e : LoopEvent)
    (s : State) (hn : s.comms_event_count ≤ 9) :
    (loop_step fl b k h g float_of float_bits e s).comms_event_count ≤ 9 := by
  cases e with
  | isr_timer_a0 t => exact hn
  | isr_timer_b0 => exact hn
  | isr_adc => exact hn
  | timer =>
    simp only [loop_step]
    split_ifs <;> exact hn
  | adc inp sampled =>
    simp only [loop_step]
    split_ifs
    · exact hn
    · exact hn
  | comms slots =>
    simp only [loop_step]
    split_ifs
    · exact comms_event_count_le b hb h float_bits slots s hn
    · exact hn
  | receive P2IN can slot =>
    simp only [loop_step]
    split_ifs
    · rw [(can_receive_event_command h g float_of float_bits can slot s).2.2]
      exact hn
    · exact hn

/-- After `n` comms events in a row from a connected state whose pass counter is `c`, the
counter is `(c + n) % 10` and `3 n + (c + n) / 10` frames were handed to `can_push`: three
per event and one identification frame each time the counter wraps. -/
theorem comms_ticks_count (b : Build) (hb : b.USE_EGEAR = false) (h : CanH)
    (float_bits : ℚ → Nat) (slots : Nat → can_variables) (n : Nat) (s : State)
    (hc : bit_set s.events EVENT_CONNECTED) (hn : s.comms_event_count ≤ 9) :
    (comms_ticks b h float_bits slots n s).comms_event_count
      = (s.comms_event_count + n) % 10 ∧
    (comms_ticks b h float_bits slots n s).tx.length
      = s.tx.length + 3 * n + (s.comms_event_count + n) / 10 := by
  induction n generalizing s with
  | zero =>
    show s.comms_event_count = _ ∧ s.tx.length = _
    constructor <;> omega
  | succ n ih =>
    show (comms_ticks b h float_bits slots n (comms_event b h float_bits slots s)).comms_event_count
        = _ ∧
      (comms_ticks b h float_bits slots n (comms_event b h float_bits slots s)).tx.length = _
    have hc1 : bit_set (comms_event b h float_bits slots s).events EVENT_CONNECTED := by
      rw [(comms_event_keeps b h float_bits slots s).1]
      have hc' : bit_set (u16_and_not s.events EVENT_COMMS) EVENT_CONNECTED :=
        bit_set_u16_and_not_of s.events 1 7 hc (by decide) (by decide)
      rw [if_pos hc']
      exact bit_set_u16_or_of _ _ 7 hc' (by decide)
    have hev := comms_event_connected b h float_bits slots s hc
    have ht := comms_transmit_tx b hb h float_bits slots
      { s with events := u16_and_not s.events EVENT_COMMS
               command := comms_override b h s.switches s.command } hn
    have hcount : (comms_event b h float_bits slots s).comms_event_count =
        (if s.comms_event_count = 9 then 0 else s.comms_event_count + 1) := by
      rw [hev]; exact ht.2.1
    have hlen : (comms_event b h float_bits slots s).tx.length =
        s.tx.length + 3 + (if s.comms_event_count = 9 then 1 else 0) := by
      rw [hev, ht.1]
      simp only [List.length_append, List.length_cons, List.length_nil]
      split_ifs <;> simp
    have hn1 : (comms_event b h float_bits slots s).comms_event_count ≤ 9 := by
      rw [hcount]; split_ifs <;> omega
    obtain ⟨i1, i2⟩ := ih (comms_event b h float_bits slots s) hc1 hn1
    rw [i1, i2, hcount, hlen]
    split_ifs with h9 <;> constructor <;> omega

/-- Only the comms event writes the pass counter. -/
theorem loop_step_count (fl : ℚ → ℚ) (b : Build) (k : PedalH) (h : CanH) (g : GaugeC)
    (float_of : Nat → rx_float) (float_bits : ℚ → Nat) (e : LoopEvent) (s : State)
    (he : ¬ is_comms_event e) :
    (loop_step fl b k h g float_of float_bits e s).comms_event_count
      = s.comms_event_count := by
  cases e with
  | isr_timer_a0 t => rfl
  | isr_timer_b0 => rfl
  | isr_adc => rfl
  | timer =>
    simp only [loop_step]
    split_ifs <;> rfl
  | adc inp sampled =>
    simp only [loop_step]
    split_ifs <;> rfl
  | comms slots => exact absurd trivial he
  | receive P2IN can slot =>
    simp only [loop_step]
    split_ifs
    · exact (can_receive_event_command h g float_of float_bits can slot s).2.2
    · rfl

/-- A Data frame leaves EVENT_CONNECTED set. -/
theorem can_data_frame_connected (h : CanH) (g : GaugeC) (float_of : Nat → rx_float)
    (can : can_variables) (s : State) :
    bit_set (can_data_frame h g float_of can s).events EVENT_CONNECTED := by
  have c7 : EVENT_CONNECTED.testBit 7 = true := by decide
  rw [show EVENT_CONNECTED = 2 ^ 7 from rfl, bit_set_two_pow, can_data_frame_events]
  rw [show EVENT_REGEN = 2 ^ 2 from rfl, show EVENT_MC_NEUTRAL = 2 ^ 9 from rfl]
  split_ifs <;>
    simp only [testBit_u16_or, testBit_u16_and_not, testBit_velocity_events,
      Nat.testBit_two_pow] <;>
    simp [c7]

/-- An event that does not process a Data frame does not set EVENT_CONNECTED. -/
theorem loop_step_unconnected (fl : ℚ → ℚ) (b : Build) (k : PedalH) (h : CanH) (g : GaugeC)
    (float_of : Nat → rx_float) (float_bits : ℚ → Nat) (e : LoopEvent) (s : State)
    (hd : ¬ is_data_frame h e) (hc : ¬ bit_set s.events EVENT_CONNECTED) :
    ¬ bit_set (loop_step fl b k h g float_of float_bits e s).events EVENT_CONNECTED := by
  rw [show EVENT_CONNECTED = 2 ^ 7 from rfl, bit_set_two_pow] at hc ⊢
  have hc' : s.events.testBit 7 = false := by simpa using hc
  cases e with
  | isr_timer_a0 t =>
    show ¬ (timer_a0 t s).2.events.testBit 7 = true
    rw [timer_a0_events_bit t s 7 (by decide) (by decide) (by decide) (by decide), hc']
    simp
  | isr_timer_b0 =>
    show ¬ (timer_b0 s).events.testBit 7 = true
    rw [timer_b0_events_bit s 7 (by decide), hc']
    simp
  | isr_adc =>
    show ¬ (u16_or s.events EVENT_ADC).testBit 7 = true
    rw [show EVENT_ADC = 2 ^ 3 from rfl, testBit_u16_or, Nat.testBit_two_pow, hc']
    simp
  | timer =>
    simp only [loop_step]
    split_ifs
    · show ¬ (u16_and_not s.events EVENT_TIMER).testBit 7 = true
      rw [testBit_u16_and_not, hc']
      simp
    · exact hc
  | adc inp sampled =>
    simp only [loop_step]
    split_ifs
    · rw [adc_event_fl_events]
      split_ifs <;> simp only [testBit_u16_and_not, hc'] <;> simp
    · exact hc
  | comms slots =>
    simp only [loop_step]
    split_ifs
    · have hn : ¬ bit_set s.events EVENT_CONNECTED := by
        rw [show EVENT_CONNECTED = 2 ^ 7 from rfl, bit_set_two_pow]; exact hc
      rw [comms_event_unconnected b h float_bits slots s hn]
      show ¬ (u16_and_not s.events EVENT_COMMS).testBit 7 = true
      rw [testBit_u16_and_not, hc']
      simp
    · exact hc
  | receive P2IN can slot =>
    simp only [loop_step]
    split_ifs with hp
    · rw [can_receive_event_events]
      have hok : ¬ can.status = h.CAN_OK := fun hok => hd ⟨hp, hok⟩
      rw [if_neg hok]
      exact hc
    · exact hc

/-- EVENT_CONNECTED is cleared only by an ADC event whose switch word has neither ignition
bit. -/
theorem loop_step_connected (fl : ℚ → ℚ) (b : Build) (k : PedalH) (h : CanH) (g : GaugeC)
    (float_of : Nat → rx_float) (float_bits : ℚ → Nat) (e : LoopEvent) (s : State)
    (hc : bit_set s.events EVENT_CONNECTED)
    (hn : ¬ bit_set (loop_step fl b k h g float_of float_bits e s).events EVENT_CONNECTED) :
    ∃ (i : Inputs) (sampled : Nat × Nat), e = LoopEvent.adc i sampled ∧
      bit_set s.events EVENT_ADC ∧
      ¬ bit_set sampled.1 h.SW_IGN_ACC ∧ ¬ bit_set sampled.1 h.SW_IGN_ON := by
  rw [show EVENT_CONNECTED = 2 ^ 7 from rfl, bit_set_two_pow] at hc hn
  cases e with
  | isr_timer_a0 t =>
    exfalso; apply hn
    show (timer_a0 t s).2.events.testBit 7 = true
    rw [timer_a0_events_bit t s 7 (by decide) (by decide) (by decide) (by decide), hc]
  | isr_timer_b0 =>
    exfalso; apply hn
    show (timer_b0 s).events.testBit 7 = true
    rw [timer_b0_events_bit s 7 (by decide), hc]
  | isr_adc =>
    exfalso; apply hn
    show (u16_or s.events EVENT_ADC).testBit 7 = true
    rw [testBit_u16_or, hc]
    simp
  | timer =>
    exfalso; apply hn
    simp only [loop_step]
    split_ifs
    · show (u16_and_not s.events EVENT_TIMER).testBit 7 = true
      rw [show EVENT_TIMER = 2 ^ 0 from rfl, testBit_u16_and_not, hc, Nat.testBit_two_pow]
      simp
    · exact hc
  | adc inp sampled =>
    simp only [loop_step] at hn
    by_cases hg : bit_set s.events EVENT_ADC
    · rw [if_pos hg, adc_event_fl_events] at hn
      by_cases hp : bit_set sampled.1 h.SW_IGN_ACC ∨ bit_set sampled.1 h.SW_IGN_ON
      · exfalso; apply hn
        rw [if_pos hp, show EVENT_ADC = 2 ^ 3 from rfl, testBit_u16_and_not, hc,
          Nat.testBit_two_pow]
        simp
      · exact ⟨inp, sampled, rfl, hg, fun hh => hp (Or.inl hh), fun hh => hp (Or.inr hh)⟩
    · rw [if_neg hg] at hn
      exact absurd hc hn
  | comms slots =>
    exfalso; apply hn
    simp only [loop_step]
    split_ifs
    · rw [(comms_event_keeps b h float_bits slots s).1, show EVENT_COMMS = 2 ^ 1 from rfl,
        show EVENT_CAN_ACTIVITY = 2 ^ 8 from rfl]
      split_ifs <;> simp only [testBit_u16_or, testBit_u16_and_not, Nat.testBit_two_pow, hc] <;>
        simp
    · exact hc
  | receive P2IN can slot =>
    exfalso; apply hn
    simp only [loop_step]
    split_ifs
    · rw [can_receive_event_events]
      split_ifs
      · have := can_data_frame_connected h g float_of can s
        rwa [show EVENT_CONNECTED = 2 ^ 7 from rfl, bit_set_two_pow] at this
      · exact hc
    · exact hc

/-! ## Frames, modes and flags over runs of the main loop -/

/-- C22: for every mode and fault-flag byte (values below 256) and every 16-bit switch word,
the payload of the switch/status frame of the comms event is fully determined: bytes 0..1
hold the switch word, low byte first, bytes 2..5 are 0, byte 6 is `command.flags` and byte 7
is `command.state`; the payload is the same whatever the record under `can_push_ptr` held
before. -/
theorem C22_switch_frame_payload (h : CanH) (slot : can_variables)
    (command : command_variables) (switches : Nat)
    (hm : command.state < 256) (hf : command.flags < 256) (hs : switches < 65536) :
    get_u8 (comms_switch_frame h slot command switches).data 0 = switches % 256 ∧
    get_u8 (comms_switch_frame h slot command switches).data 1 = switches / 256 ∧
    get_u8 (comms_switch_frame h slot command switches).data 2 = 0 ∧
    get_u8 (comms_switch_frame h slot command switches).data 3 = 0 ∧
    get_u8 (comms_switch_frame h slot command switches).data 4 = 0 ∧
    get_u8 (comms_switch_frame h slot command switches).data 5 = 0 ∧
    get_u8 (comms_switch_frame h slot command switches).data 6 = command.flags ∧
    get_u8 (comms_switch_frame h slot command switches).data 7 = command.state ∧
    get_u16 (comms_switch_frame h slot command switches).data 0 = switches ∧
    (∀ slot2 : can_variables,
      (comms_switch_frame h slot2 command switches).data
        = (comms_switch_frame h slot command switches).data) := by
  have hd : ∀ sl : can_variables, (comms_switch_frame h sl command switches).data =
      fun j : Fin 8 =>
      if j.val = 0 then switches % 256 else if j.val = 1 then switches / 256 % 256
      else if j.val = 6 then command.flags % 256 else if j.val = 7 then command.state % 256
      else 0 := fun sl => switch_payload sl.data command.state command.flags switches
  have h1 : switches / 256 % 256 = switches / 256 := Nat.mod_eq_of_lt (by omega)
  have h6 : command.flags % 256 = command.flags := Nat.mod_eq_of_lt hf
  have h7 : command.state % 256 = command.state := Nat.mod_eq_of_lt hm
  refine ⟨?_, ?_, ?_, ?_, ?_, ?_, ?_, ?_, ?_, fun slot2 => by rw [hd slot2, hd slot]⟩
  · rw [hd]; rfl
  · rw [hd]; exact h1
  · rw [hd]; rfl
  · rw [hd]; rfl
  · rw [hd]; rfl
  · rw [hd]; rfl
  · rw [hd]; exact h6
  · rw [hd]; exact h7
  · rw [hd]
    show switches % 256 + 256 * (switches / 256 % 256) = switches
    omega

/-- A Data frame on an address without a handler only sets EVENT_CONNECTED. -/
theorem can_data_frame_unhandled (h : CanH) (g : GaugeC) (float_of : Nat → rx_float)
    (can : can_variables) (s : State)
    (h1 : can.address ≠ h.MC_CAN_BASE + h.MC_VELOCITY)
    (h2 : can.address ≠ h.MC_CAN_BASE + h.MC_I_VECTOR)
    (h3 : can.address ≠ h.MC_CAN_BASE + h.MC_TEMP1)
    (h4 : can.address ≠ h.MC_CAN_BASE + h.MC_LIMITS)
    (h5 : can.address ≠ h.MC_CAN_BASE + h.MC_BUS)
    (h6 : can.address ≠ h.DC_CAN_BASE + h.DC_BOOTLOAD)
    (h7 : can.address ≠ h.EG_CAN_BASE + h.EG_STATUS) :
    can_data_frame h g float_of can s = { s with events := u16_or s.events EVENT_CONNECTED } := by
  unfold can_data_frame
  simp only [h1, h2, h3, h4, h5, h6, h7, if_false]

/-- C23: with the three status labels of `can.h` distinct, the receive block on a Data frame
(status CAN_OK) whose address is none of the seven handled ones (motor velocity, current
vector, temperature, limits, bus, bootload, gearbox status) leaves the state it found with
EVENT_CONNECTED set in the event word and nothing else changed: the command, the telemetry
caches, the gearbox status and the transmit queue are the old ones, and every other bit of
the event word keeps its value. On a frame of status CAN_ERROR it leaves the state
unchanged. -/
theorem C23_unhandled_frames (h : CanH) (hl : h.labels_ok) (g : GaugeC)
    (float_of : Nat → rx_float) (float_bits : ℚ → Nat) (can slot : can_variables) (s : State) :
    (can.status = h.CAN_OK →
      can.address ≠ h.MC_CAN_BASE + h.MC_VELOCITY →
      can.address ≠ h.MC_CAN_BASE + h.MC_I_VECTOR →
      can.address ≠ h.MC_CAN_BASE + h.MC_TEMP1 →
      can.address ≠ h.MC_CAN_BASE + h.MC_LIMITS →
      can.address ≠ h.MC_CAN_BASE + h.MC_BUS →
      can.address ≠ h.DC_CAN_BASE + h.DC_BOOTLOAD →
      can.address ≠ h.EG_CAN_BASE + h.EG_STATUS →
      can_receive_event h g float_of float_bits can slot s
          = { s with events := u16_or s.events EVENT_CONNECTED } ∧
        bit_set (can_receive_event h g float_of float_bits can slot s).events
          EVENT_CONNECTED ∧
        (∀ i : Nat, i < 16 → i ≠ 7 →
          (can_receive_event h g float_of float_bits can slot s).events.testBit i
            = s.events.testBit i)) ∧
    (can.status = h.CAN_ERROR →
      can_receive_event h g float_of float_bits can slot s = s) := by
  obtain ⟨-, -, hst⟩ := hl
  simp only [List.nodup_cons, List.mem_cons, List.mem_singleton, not_or, List.not_mem_nil,
    not_false_eq_true, List.nodup_nil, and_true] at hst
  obtain ⟨⟨hor, hoe⟩, hre⟩ := hst
  constructor
  · intro hok h1 h2 h3 h4 h5 h6 h7
    have hev : can_receive_event h g float_of float_bits can slot s
        = { s with events := u16_or s.events EVENT_CONNECTED } := by
      unfold can_receive_event
      simp only [hok, if_true, ite_self]
      rw [if_neg hor]
      exact can_data_frame_unhandled h g float_of can s h1 h2 h3 h4 h5 h6 h7
    refine ⟨hev, ?_, ?_⟩
    · rw [hev]
      exact bit_set_u16_or_self s.events 7 (by decide)
    · intro i hi h7'
      rw [hev]
      show (u16_or s.events EVENT_CONNECTED).testBit i = s.events.testBit i
      rw [testBit_u16_or, show EVENT_CONNECTED = 2 ^ 7 from rfl, Nat.testBit_two_pow]
      simp [hi, Ne.symm h7']
  · intro herr
    unfold can_receive_event
    simp only [herr, ite_self]
    rw [if_neg (Ne.symm hoe), if_neg (Ne.symm hre)]

/-- C24: in a build without USE_EGEAR, from each of the modes Reverse, Brake-Low,
Brake-High, Drive-Low and Drive-High, for every switch word with SW_IGN_ON set, SW_FUEL
clear and none of SW_MODE_R, SW_MODE_N, SW_MODE_B, SW_MODE_D set, and for every event word
and gearbox status, the state-machine step yields the mode it started in. -/
theorem C24_mode_held (b : Build) (hb : b.USE_EGEAR = false) (h : CanH)
    (state switches events current_egear : Nat)
    (hm : state = MODE_R ∨ state = MODE_BL ∨ state = MODE_BH ∨ state = MODE_DL ∨
      state = MODE_DH)
    (hign : bit_set switches h.SW_IGN_ON) (hfuel : ¬ bit_set switches h.SW_FUEL)
    (hR : ¬ bit_set switches h.SW_MODE_R) (hN : ¬ bit_set switches h.SW_MODE_N)
    (hB : ¬ bit_set switches h.SW_MODE_B) (hD : ¬ bit_set switches h.SW_MODE_D) :
    next_state_of b h state switches events current_egear = state := by
  unfold next_state_of
  rcases hm with hm | hm | hm | hm | hm <;>
    simp [hm, hb, hign, hfuel, hR, hN, hB, hD, MODE_OFF, MODE_N, MODE_R, MODE_BL, MODE_BH,
      MODE_DL, MODE_DH, MODE_CO_R, MODE_CO_BL, MODE_CO_BH, MODE_CO_DL, MODE_CO_DH, MODE_CHARGE]

/-- C27: after the override step of the comms event, `command.current` and `command.rpm`
are both 0 unless SW_IGN_ON is set and the mode is one of Reverse, Drive-Low, Drive-High,
Brake-Low, Brake-High; in the configured build the override leaves current and rpm unchanged
in those five modes when SW_IGN_ON is set; in every build it leaves the flags, the mode and
the bus current unchanged. -/
theorem C27_comms_override (b : Build) (h : CanH) (switches : Nat)
    (command : command_variables) :
    (¬ (bit_set switches h.SW_IGN_ON ∧
        (command.state = MODE_R ∨ command.state = MODE_DL ∨ command.state = MODE_DH ∨
          command.state = MODE_BL ∨ command.state = MODE_BH)) →
      (comms_override b h switches command).current = 0 ∧
      (comms_override b h switches command).rpm = 0) ∧
    (b = build_configured → bit_set switches h.SW_IGN_ON →
      (command.state = MODE_R ∨ command.state = MODE_DL ∨ command.state = MODE_DH ∨
          command.state = MODE_BL ∨ command.state = MODE_BH) →
      (comms_override b h switches command).current = command.current ∧
      (comms_override b h switches command).rpm = command.rpm) ∧
    (comms_override b h switches command).flags = command.flags ∧
    (comms_override b h switches command).state = command.state ∧
    (comms_override b h switches command).bus_current = command.bus_current := by
  unfold comms_override
  refine ⟨?_, ?_, ?_, ?_, ?_⟩
  · intro hn
    split_ifs with h1 h2 <;> first | exact ⟨rfl, rfl⟩ | exact absurd ⟨h1, h2⟩ hn
  · intro hb hign hm
    subst hb
    simp [hign, hm, build_configured]
  · split_ifs <;> rfl
  · split_ifs <;> rfl
  · split_ifs <;> rfl

/-- A run without the reception of a motor velocity Data frame leaves the five velocity
flags unchanged. -/
theorem loop_run_velocity_bits (fl : ℚ → ℚ) (b : Build) (k : PedalH) (h : CanH)
    (g : GaugeC) (hg : g.ok) (float_of : Nat → rx_float) (float_bits : ℚ → Nat) (evs : List LoopEvent)
    (hv : ∀ e ∈ evs, ¬ is_velocity_frame h e) (s : State) (i : Nat)
    (hi : i = 4 ∨ i = 5 ∨ i = 6 ∨ i = 10 ∨ i = 11) :
    (loop_run fl b k h g float_of float_bits evs s).events.testBit i = s.events.testBit i := by
  induction evs generalizing s with
  | nil => rfl
  | cons e rest ih =>
    show (loop_run fl b k h g float_of float_bits rest
      (loop_step fl b k h g float_of float_bits e s)).events.testBit i = _
    rw [ih (fun e' he' => hv e' (List.mem_cons_of_mem _ he')),
      loop_step_velocity_bits fl b k h g hg float_of float_bits e s
        (hv e (List.mem_cons_self _ _)) i hi]

/-- C28: in a build without USE_EGEAR, the mode after any sequence of state-machine steps
from Off, each step with its own switch word, event word and gearbox status, is one of Off,
Neutral, Reverse, Brake-Low, Drive-Low, Charge; so is the mode of every state that any
sequence of events of the main loop reaches from power-up. -/
theorem C28_reachable_modes (fl : ℚ → ℚ) (b : Build) (hb : b.USE_EGEAR = false)
    (k : PedalH) (h : CanH) (g : GaugeC) (float_of : Nat → rx_float) (float_bits : ℚ → Nat) :
    (∀ steps : List (Nat × Nat × Nat),
      mode_run b h steps MODE_OFF = MODE_OFF ∨ mode_run b h steps MODE_OFF = MODE_N ∨
      mode_run b h steps MODE_OFF = MODE_R ∨ mode_run b h steps MODE_OFF = MODE_BL ∨
      mode_run b h steps MODE_OFF = MODE_DL ∨ mode_run b h steps MODE_OFF = MODE_CHARGE) ∧
    (∀ (P1IN P2IN : Nat) (evs : List LoopEvent),
      (loop_run fl b k h g float_of float_bits evs (power_up h P1IN P2IN)).command.state
          = MODE_OFF ∨
      (loop_run fl b k h g float_of float_bits evs (power_up h P1IN P2IN)).command.state
          = MODE_N ∨
      (loop_run fl b k h g float_of float_bits evs (power_up h P1IN P2IN)).command.state
          = MODE_R ∨
      (loop_run fl b k h g float_of float_bits evs (power_up h P1IN P2IN)).command.state
          = MODE_BL ∨
      (loop_run fl b k h g float_of float_bits evs (power_up h P1IN P2IN)).command.state
          = MODE_DL ∨
      (loop_run fl b k h g float_of float_bits evs (power_up h P1IN P2IN)).command.state
          = MODE_CHARGE) := by
  constructor
  · have key : ∀ (steps : List (Nat × Nat × Nat)) (m : Nat),
        (m = MODE_OFF ∨ m = MODE_N ∨ m = MODE_R ∨ m = MODE_BL ∨ m = MODE_DL ∨
          m = MODE_CHARGE) →
        (mode_run b h steps m = MODE_OFF ∨ mode_run b h steps m = MODE_N ∨
        mode_run b h steps m = MODE_R ∨ mode_run b h steps m = MODE_BL ∨
        mode_run b h steps m = MODE_DL ∨ mode_run b h steps m = MODE_CHARGE) := by
      intro steps
      induction steps with
      | nil => intro m hm; exact hm
      | cons t rest ih =>
        intro m hm
        exact ih _ (next_state_of_no_egear b hb h m t.1 t.2.1 t.2.2 hm)
    intro steps
    exact key steps MODE_OFF (Or.inl rfl)
  · have key : ∀ (evs : List LoopEvent) (s : State),
        (s.command.state = MODE_OFF ∨ s.command.state = MODE_N ∨ s.command.state = MODE_R ∨
          s.command.state = MODE_BL ∨ s.command.state = MODE_DL ∨
          s.command.state = MODE_CHARGE) →
        ((loop_run fl b k h g float_of float_bits evs s).command.state = MODE_OFF ∨
        (loop_run fl b k h g float_of float_bits evs s).command.state = MODE_N ∨
        (loop_run fl b k h g float_of float_bits evs s).command.state = MODE_R ∨
        (loop_run fl b k h g float_of float_bits evs s).command.state = MODE_BL ∨
        (loop_run fl b k h g float_of float_bits evs s).command.state = MODE_DL ∨
        (loop_run fl b k h g float_of float_bits evs s).command.state = MODE_CHARGE) := by
      intro evs
      induction evs with
      | nil => intro s hs; exact hs
      | cons e rest ih =>
        intro s hs
        apply ih
        rcases loop_step_state fl b k h g float_of float_bits e s with he | ⟨sw, he⟩
        · rw [he]; exact hs
        · rw [he]; exact next_state_of_no_egear b hb h _ _ _ _ hs
    intro P1IN P2IN evs
    exact key evs _ (Or.inl rfl)

/-- C29: with the gauge flags within bits 12..15, in every state reached from power-up by
events of the main loop none of which is the reception of a motor velocity Data frame,
whatever the switch words of the ADC events, the mode is one of Off, Neutral, Charge and
EVENT_SLOW, EVENT_FORWARD and EVENT_REVERSE are clear. -/
theorem C29_no_velocity_no_gear (fl : ℚ → ℚ) (b : Build) (k : PedalH) (h : CanH)
    (g : GaugeC) (hg : g.ok) (float_of : Nat → rx_float) (float_bits : ℚ → Nat) (P1IN P2IN : Nat)
    (evs : List LoopEvent) (hv : ∀ e ∈ evs, ¬ is_velocity_frame h e) :
    ((loop_run fl b k h g float_of float_bits evs (power_up h P1IN P2IN)).command.state
        = MODE_OFF ∨
      (loop_run fl b k h g float_of float_bits evs (power_up h P1IN P2IN)).command.state
        = MODE_N ∨
      (loop_run fl b k h g float_of float_bits evs (power_up h P1IN P2IN)).command.state
        = MODE_CHARGE) ∧
    ¬ bit_set (loop_run fl b k h g float_of float_bits evs (power_up h P1IN P2IN)).events
      EVENT_SLOW ∧
    ¬ bit_set (loop_run fl b k h g float_of float_bits evs (power_up h P1IN P2IN)).events
      EVENT_FORWARD ∧
    ¬ bit_set (loop_run fl b k h g float_of float_bits evs (power_up h P1IN P2IN)).events
      EVENT_REVERSE := by
  have key : ∀ (evs : List LoopEvent) (s : State), (∀ e ∈ evs, ¬ is_velocity_frame h e) →
      (s.command.state = MODE_OFF ∨ s.command.state = MODE_N ∨ s.command.state = MODE_CHARGE) →
      s.events.testBit 4 = false → s.events.testBit 5 = false → s.events.testBit 6 = false →
      ((loop_run fl b k h g float_of float_bits evs s).command.state = MODE_OFF ∨
        (loop_run fl b k h g float_of float_bits evs s).command.state = MODE_N ∨
        (loop_run fl b k h g float_of float_bits evs s).command.state = MODE_CHARGE) ∧
      (loop_run fl b k h g float_of float_bits evs s).events.testBit 4 = false ∧
      (loop_run fl b k h g float_of float_bits evs s).events.testBit 5 = false ∧
      (loop_run fl b k h g float_of float_bits evs s).events.testBit 6 = false := by
    intro evs
    induction evs with
    | nil => intro s _ hm h4 h5 h6; exact ⟨hm, h4, h5, h6⟩
    | cons e rest ih =>
      intro s hv hm h4 h5 h6
      have hve := hv e (List.mem_cons_self _ _)
      have b4 := loop_step_velocity_bits fl b k h g hg float_of float_bits e s hve 4 (by omega)
      have b5 := loop_step_velocity_bits fl b k h g hg float_of float_bits e s hve 5 (by omega)
      have b6 := loop_step_velocity_bits fl b k h g hg float_of float_bits e s hve 6 (by omega)
      apply ih _ (fun e' he' => hv e' (List.mem_cons_of_mem _ he'))
      · rcases loop_step_state fl b k h g float_of float_bits e s with he | ⟨sw, he⟩
        · rw [he]; exact hm
        · rw [he]
          apply next_state_of_no_velocity b h _ _ _ _ _ _ _ hm
          · rw [show EVENT_SLOW = 2 ^ 4 from rfl, bit_set_two_pow, testBit_u16_and_not, h4]
            simp
          · rw [show EVENT_FORWARD = 2 ^ 5 from rfl, bit_set_two_pow, testBit_u16_and_not, h5]
            simp
          · rw [show EVENT_REVERSE = 2 ^ 6 from rfl, bit_set_two_pow, testBit_u16_and_not, h6]
            simp
      · rw [b4, h4]
      · rw [b5, h5]
      · rw [b6, h6]
  have e0 : (power_up h P1IN P2IN).events = u16_or 0 EVENT_CONNECTED := rfl
  have h0 := key evs (power_up h P1IN P2IN) hv (Or.inl rfl) (by rw [e0]; decide)
    (by rw [e0]; decide) (by rw [e0]; decide)
  refine ⟨h0.1, ?_, ?_, ?_⟩
  · rw [show EVENT_SLOW = 2 ^ 4 from rfl, bit_set_two_pow, h0.2.1]; simp
  · rw [show EVENT_FORWARD = 2 ^ 5 from rfl, bit_set_two_pow, h0.2.2.1]; simp
  · rw [show EVENT_REVERSE = 2 ^ 6 from rfl, bit_set_two_pow, h0.2.2.2]; simp

/-- C30: with the gauge flags within bits 12..15, after the reception of a motor velocity
Data frame whose velocity pattern has a value `q` (a number), and after any further events
of the main loop none of which is the reception of a motor velocity Data frame, exactly one
of EVENT_SLOW, EVENT_FORWARD, EVENT_REVERSE is set, and EVENT_OVER_VEL_LTOH set implies
EVENT_OVER_VEL_HTOL set. -/
theorem C30_velocity_flags_consistent (fl : ℚ → ℚ) (b : Build) (k : PedalH) (h : CanH)
    (g : GaugeC) (hg : g.ok) (float_of : Nat → rx_float) (float_bits : ℚ → Nat)
    (can slot : can_variables) (s : State) (q : ℚ)
    (hst : can.status = h.CAN_OK) (ha : can.address = h.MC_CAN_BASE + h.MC_VELOCITY)
    (hq : float_of (get_u8 can.data 0 + 256 * get_u8 can.data 1 + 65536 * get_u8 can.data 2
      + 16777216 * get_u8 can.data 3) = some q)
    (evs : List LoopEvent) (hv : ∀ e ∈ evs, ¬ is_velocity_frame h e) :
    ((bit_set (loop_run fl b k h g float_of float_bits evs
          (can_receive_event h g float_of float_bits can slot s)).events EVENT_SLOW ∧
        ¬ bit_set (loop_run fl b k h g float_of float_bits evs
          (can_receive_event h g float_of float_bits can slot s)).events EVENT_FORWARD ∧
        ¬ bit_set (loop_run fl b k h g float_of float_bits evs
          (can_receive_event h g float_of float_bits can slot s)).events EVENT_REVERSE) ∨
      (¬ bit_set (loop_run fl b k h g float_of float_bits evs
          (can_receive_event h g float_of float_bits can slot s)).events EVENT_SLOW ∧
        bit_set (loop_run fl b k h g float_of float_bits evs
          (can_receive_event h g float_of float_bits can slot s)).events EVENT_FORWARD ∧
        ¬ bit_set (loop_run fl b k h g float_of float_bits evs
          (can_receive_event h g float_of float_bits can slot s)).events EVENT_REVERSE) ∨
      (¬ bit_set (loop_run fl b k h g float_of float_bits evs
          (can_receive_event h g float_of float_bits can slot s)).events EVENT_SLOW ∧
        ¬ bit_set (loop_run fl b k h g float_of float_bits evs
          (can_receive_event h g float_of float_bits can slot s)).events EVENT_FORWARD ∧
        bit_set (loop_run fl b k h g float_of float_bits evs
          (can_receive_event h g float_of float_bits can slot s)).events EVENT_REVERSE)) ∧
    (bit_set (loop_run fl b k h g float_of float_bits evs
        (can_receive_event h g float_of float_bits can slot s)).events EVENT_OVER_VEL_LTOH →
      bit_set (loop_run fl b k h g float_of float_bits evs
        (can_receive_event h g float_of float_bits can slot s)).events EVENT_OVER_VEL_HTOL) := by
  have hfp : get_fp float_of can.data 0 = some q := hq
  have hlow : ∀ i, i < 12 → g.tach_events.testBit i = false :=
    fun i hi => gauge_mask_low _ i hg.1.1 hi
  have hbit : ∀ i, (i = 4 ∨ i = 5 ∨ i = 6 ∨ i = 10 ∨ i = 11) →
      (loop_run fl b k h g float_of float_bits evs
        (can_receive_event h g float_of float_bits can slot s)).events.testBit i =
      (velocity_events (some q) (u16_or s.events EVENT_CONNECTED)).testBit i := by
    intro i hi
    rw [loop_run_velocity_bits fl b k h g hg float_of float_bits evs hv _ i hi,
      can_receive_velocity_events h g float_of float_bits can slot s hst ha, hfp,
      testBit_u16_or, hlow i (by omega)]
    have : i < 16 := by omega
    simp [this]
  rw [show EVENT_OVER_VEL_HTOL = 2 ^ 11 from rfl, show EVENT_OVER_VEL_LTOH = 2 ^ 10 from rfl,
    show EVENT_SLOW = 2 ^ 4 from rfl, show EVENT_REVERSE = 2 ^ 6 from rfl,
    show EVENT_FORWARD = 2 ^ 5 from rfl]
  simp only [bit_set_two_pow]
  rw [hbit 4 (by omega), hbit 5 (by omega), hbit 6 (by omega), hbit 10 (by omega),
    hbit 11 (by omega)]
  simp only [testBit_velocity_events]
  simp only [float_ge, float_le, float_gt, float_lt, ENGAGE_VEL_F, ENGAGE_VEL_R,
    CHANGE_VEL_LTOH, CHANGE_VEL_HTOL]
  constructor
  · rcases lt_trichotomy q (-50) with h1 | h1 | h1
    · right; right
      have a : ¬ (-50 ≤ q ∧ q ≤ 50) := fun hh => absurd hh.1 (not_le.mpr h1)
      have c : ¬ q > 50 := by intro hh; linarith
      simp [a, c, h1]
    · left
      subst h1
      norm_num
    · by_cases h2 : q ≤ 50
      · left
        have a : -50 ≤ q ∧ q ≤ 50 := ⟨h1.le, h2⟩
        have c : ¬ q > 50 := not_lt.mpr h2
        have d : ¬ q < -50 := not_lt.mpr h1.le
        simp [a, c, d]
      · right; left
        have a : ¬ (-50 ≤ q ∧ q ≤ 50) := fun hh => h2 hh.2
        have c : q > 50 := not_le.mp h2
        have d : ¬ q < -50 := not_lt.mpr h1.le
        simp [a, c, d]
  · intro hl
    have hl' : q ≥ 1800 := by simpa using hl
    have : q ≥ 1600 := by linarith
    simp [this]

/-- The speed setpoint that `process_pedal_fl` leaves, by the mode it ran under: not
positive in Reverse, not negative in the forward modes, zero in every other mode. -/
theorem process_pedal_fl_rpm (fl : ℚ → ℚ) (hfl : ∀ x : ℚ, 0 ≤ x → 0 ≤ fl x) (k : PedalH)
    (hr : k.RPM_REV_MAX < 0) (hf : 0 < k.RPM_FWD_MAX) (c : command_variables)
    (a b cc r : Nat) :
    (c.state = MODE_R → (process_pedal_fl fl k c a b cc r).rpm ≤ 0) ∧
    (mode_forward c.state → 0 ≤ (process_pedal_fl fl k c a b cc r).rpm) ∧
    (c.state ≠ MODE_R → ¬ mode_forward c.state →
      (process_pedal_fl fl k c a b cc r).rpm = 0) := by
  by_cases hfl0 : (process_pedal_fl fl k c a b cc r).flags = 0
  · have hrow := process_pedal_fl_no_fault fl k c a b cc r hfl0
    refine ⟨?_, ?_, ?_⟩
    · intro hm
      by_cases hreg : r = 0
      · rw [(hrow.1 hm hreg).2]; exact hr.le
      · rw [(hrow.2.1 hm hreg).2]
    · intro hm
      have hbrake : c.state = MODE_BL ∨ c.state = MODE_BH →
          0 ≤ (process_pedal_fl fl k c a b cc r).rpm := by
        intro hb
        by_cases hp : scale_pedal_fl fl k a > 0
        · rw [(hrow.2.2.2.1 hb hp).2]
          exact hfl _ (mul_nonneg hp.le hf.le)
        · rw [(hrow.2.2.2.2.1 hb hp).2]
      rcases hm with hm | hm | hm | hm
      · rw [(hrow.2.2.1 (Or.inl hm)).2]; exact hf.le
      · rw [(hrow.2.2.1 (Or.inr hm)).2]; exact hf.le
      · exact hbrake (Or.inl hm)
      · exact hbrake (Or.inr hm)
    · intro h1 h2
      exact (hrow.2.2.2.2.2 h1 (fun hh => h2 (Or.inl hh)) (fun hh => h2 (Or.inr (Or.inl hh)))
        (fun hh => h2 (Or.inr (Or.inr (Or.inl hh))))
        (fun hh => h2 (Or.inr (Or.inr (Or.inr hh))))).2
  · have hz := (process_pedal_fl_fault fl k c a b cc r hfl0).2
    rw [hz]
    exact ⟨fun _ => le_refl 0, fun _ => le_refl 0, fun _ _ => rfl⟩

/-- The override of the comms event keeps the setpoint in agreement with the mode. -/
theorem comms_override_direction (b : Build) (h : CanH) (switches : Nat)
    (c : command_variables) (hc : direction_ok c) :
    direction_ok (comms_override b h switches c) := by
  unfold comms_override
  split_ifs
  · exact ⟨fun _ => le_refl 0, fun _ => le_refl 0⟩
  · exact hc
  · exact hc
  · exact ⟨fun _ => le_refl 0, fun _ => le_refl 0⟩
  · exact ⟨fun _ => le_refl 0, fun _ => le_refl 0⟩

/-- An event other than the ADC block leaves the command unchanged, except for the override
of the comms event. -/
theorem loop_step_command (fl : ℚ → ℚ) (b : Build) (k : PedalH) (h : CanH) (g : GaugeC)
    (float_of : Nat → rx_float) (float_bits : ℚ → Nat) (e : LoopEvent) (s : State)
    (he : ¬ is_adc_event e) :
    (loop_step fl b k h g float_of float_bits e s).command = s.command ∨
    (loop_step fl b k h g float_of float_bits e s).command
      = comms_override b h s.switches s.command := by
  cases e with
  | isr_timer_a0 t => exact Or.inl rfl
  | isr_timer_b0 => exact Or.inl rfl
  | isr_adc => exact Or.inl rfl
  | timer =>
    simp only [loop_step]
    split_ifs <;> exact Or.inl rfl
  | adc inp sampled => exact absurd trivial he
  | comms slots =>
    simp only [loop_step]
    split_ifs
    · exact Or.inr (comms_event_keeps b h float_bits slots s).2.1
    · exact Or.inl rfl
  | receive P2IN can slot =>
    simp only [loop_step]
    split_ifs
    · exact Or.inl (can_receive_event_command h g float_of float_bits can slot s).1
    · exact Or.inl rfl

/-- A run without ADC events keeps the setpoint in agreement with the mode. -/
theorem loop_run_direction (fl : ℚ → ℚ) (b : Build) (k : PedalH) (h : CanH) (g : GaugeC)
    (float_of : Nat → rx_float) (float_bits : ℚ → Nat) (evs : List LoopEvent)
    (he : ∀ e ∈ evs, ¬ is_adc_event e) (s : State) (hs : direction_ok s.command) :
    direction_ok (loop_run fl b k h g float_of float_bits evs s).command := by
  induction evs generalizing s with
  | nil => exact hs
  | cons e rest ih =>
    apply ih (fun e' he' => he e' (List.mem_cons_of_mem _ he'))
    rcases loop_step_command fl b k h g float_of float_bits e s (he e (List.mem_cons_self _ _))
      with hc | hc
    · rw [hc]; exact hs
    · rw [hc]; exact comms_override_direction b h _ _ hs

/-- The command after an ADC event: the record `process_pedal_fl` left, with the new
mode. -/
theorem adc_event_fl_command (fl : ℚ → ℚ) (b : Build) (k : PedalH) (h : CanH) (i : Inputs)
    (sampled : Nat × Nat) (s : State) :
    (adc_event_fl fl b k h i sampled s).command =
      { process_pedal_fl fl k s.command i.ADC12MEM0 i.ADC12MEM1 i.ADC12MEM2
          (if b.REGEN_ON_BRAKE = true then (s.switches &&& h.SW_BRAKE) % 256 else FALSE) with
        state := next_state_of b h s.command.state sampled.1 (u16_and_not s.events EVENT_ADC)
          s.current_egear } := by
  unfold adc_event_fl
  simp only [process_pedal_fl_state]

/-- The setpoint after an ADC event agrees with the new mode unless the event changed the
mode between Reverse and a forward mode. -/
theorem adc_event_fl_direction (fl : ℚ → ℚ) (hfl : ∀ x : ℚ, 0 ≤ x → 0 ≤ fl x) (b : Build)
    (k : PedalH) (hr : k.RPM_REV_MAX < 0) (hf : 0 < k.RPM_FWD_MAX) (h : CanH) (i : Inputs)
    (sampled : Nat × Nat) (s : State)
    (h1 : ¬ (s.command.state = MODE_R ∧
      mode_forward (adc_event_fl fl b k h i sampled s).command.state))
    (h2 : ¬ (mode_forward s.command.state ∧
      (adc_event_fl fl b k h i sampled s).command.state = MODE_R)) :
    direction_ok (adc_event_fl fl b k h i sampled s).command := by
  have hp := process_pedal_fl_rpm fl hfl k hr hf s.command i.ADC12MEM0 i.ADC12MEM1
    i.ADC12MEM2 (if b.REGEN_ON_BRAKE = true then (s.switches &&& h.SW_BRAKE) % 256 else FALSE)
  rw [adc_event_fl_command] at h1 h2 ⊢
  simp only at h1 h2
  unfold direction_ok
  simp only
  constructor
  · intro hn
    by_cases hR : s.command.state = MODE_R
    · exact hp.1 hR
    · by_cases hF : mode_forward s.command.state
      · exact absurd ⟨hF, hn⟩ h2
      · rw [hp.2.2 hR hF]
  · intro hn
    by_cases hR : s.command.state = MODE_R
    · exact absurd ⟨hR, hn⟩ h1
    · by_cases hF : mode_forward s.command.state
      · exact hp.2.1 hF
      · rw [hp.2.2 hR hF]

/-- The switch pairs of the sample runs are the ones `update_switches` returns. -/
theorem sample_switch_pairs :
    update_switches canH_sample 0x06 0x84 0 = (0x0032, 0x0032) ∧
    update_switches canH_sample 0x06 0x84 0x0032 = (0x0032, 0) ∧
    update_switches canH_sample 0x06 0x81 0x0032 = (0x0038, 0x000A) ∧
    update_switches canH_sample 0x06 0x88 0x0038 = (0x0031, 0x0009) := by decide

set_option maxRecDepth 100000 in
/-- C26 (counterexample): with the sample headers on the binary32 arithmetic, the vehicle at
rest (a motor velocity frame of 0.0 was received) and the accelerator fully pressed, the
selector goes from Drive to Reverse in the ninth timer period after power-up. The ADC event
of that period runs `process_pedal` in Drive-Low, which stores the setpoint 4000 rpm, and
then its state machine enters Reverse. The comms event of the tenth period transmits three
frames: the switch frame reports mode Reverse in byte 7 and the drive frame carries the
pattern of 4000.0 in slot 0, a setpoint above zero. -/
theorem C26_counterexample :
    pedalH_unit.RPM_REV_MAX < 0 ∧ 0 < pedalH_unit.RPM_FWD_MAX ∧
    (loop_run f32 build_configured pedalH_unit canH_sample gauge_sample float_of_sample
      float_bits_sample reverse_after_drive (power_up canH_sample 0x06 0x84)).tx.length = 3 ∧
    ((loop_run f32 build_configured pedalH_unit canH_sample gauge_sample float_of_sample
      float_bits_sample reverse_after_drive (power_up canH_sample 0x06 0x84)).tx.getD 2
        (frame_of 0 0)).address = canH_sample.DC_CAN_BASE + canH_sample.DC_SWITCH ∧
    get_u8 ((loop_run f32 build_configured pedalH_unit canH_sample gauge_sample float_of_sample
      float_bits_sample reverse_after_drive (power_up canH_sample 0x06 0x84)).tx.getD 2
        (frame_of 0 0)).data 7 = MODE_R ∧
    ((loop_run f32 build_configured pedalH_unit canH_sample gauge_sample float_of_sample
      float_bits_sample reverse_after_drive (power_up canH_sample 0x06 0x84)).tx.getD 0
        (frame_of 0 0)).address = canH_sample.DC_CAN_BASE + canH_sample.DC_DRIVE ∧
    get_u32 ((loop_run f32 build_configured pedalH_unit canH_sample gauge_sample float_of_sample
      float_bits_sample reverse_after_drive (power_up canH_sample 0x06 0x84)).tx.getD 0
        (frame_of 0 0)).data 0 = 0x457A0000 ∧
    (loop_run f32 build_configured pedalH_unit canH_sample gauge_sample float_of_sample
      float_bits_sample reverse_after_drive (power_up canH_sample 0x06 0x84)).command.rpm
        = 4000 ∧
    (loop_run f32 build_configured pedalH_unit canH_sample gauge_sample float_of_sample
      float_bits_sample reverse_after_drive (power_up canH_sample 0x06 0x84)).command.state
        = MODE_R ∧
    ¬ direction_ok (loop_run f32 build_configured pedalH_unit canH_sample gauge_sample
      float_of_sample float_bits_sample reverse_after_drive
        (power_up canH_sample 0x06 0x84)).command := by
  have hrpm : (loop_run f32 build_configured pedalH_unit canH_sample gauge_sample
      float_of_sample float_bits_sample reverse_after_drive
        (power_up canH_sample 0x06 0x84)).command.rpm = 4000 := by decide
  have hst : (loop_run f32 build_configured pedalH_unit canH_sample gauge_sample
      float_of_sample float_bits_sample reverse_after_drive
        (power_up canH_sample 0x06 0x84)).command.state = MODE_R := by decide
  refine ⟨by simp only [pedalH_unit]; norm_num, by simp only [pedalH_unit]; norm_num,
    by decide, by decide, by decide, by decide, by decide, hrpm, hst, ?_⟩
  intro hd
  have := hd.1 hst
  rw [hrpm] at this
  norm_num at this

/-- C26 (amended): with RPM_REV_MAX < 0 < RPM_FWD_MAX and a rounding `fl` of the `float`
operations that keeps the sign (`0 ≤ fl x` for `0 ≤ x`), take the state `s1` at power-up
or after any ADC event that did not change the mode between Reverse and one of Drive-Low,
Drive-High, Brake-Low, Brake-High, then any events other than the ADC block, and then a
comms event with EVENT_CONNECTED set. That comms event enqueues, first, the drive, power
and switch frames of one and the same command record; the switch frame reports the mode of
that record in byte 7 and the drive frame carries the pattern of its speed setpoint in
slot 0; the setpoint is at most 0 when the mode is Reverse and at least 0 when the mode is
Drive-Low, Drive-High, Brake-Low or Brake-High. -/
theorem C26_direction_consistency (fl : ℚ → ℚ) (hfl : ∀ x : ℚ, 0 ≤ x → 0 ≤ fl x) (b : Build)
    (k : PedalH) (hr : k.RPM_REV_MAX < 0) (hf : 0 < k.RPM_FWD_MAX) (h : CanH) (g : GaugeC)
    (float_of : Nat → rx_float) (float_bits : ℚ → Nat) (s1 s2 : State)
    (mid : List LoopEvent) (slots : Nat → can_variables)
    (hs1 : (∃ P1IN P2IN : Nat, s1 = power_up h P1IN P2IN) ∨
      ∃ (s : State) (i : Inputs) (sampled : Nat × Nat),
        s1 = adc_event_fl fl b k h i sampled s ∧
        ¬ (s.command.state = MODE_R ∧ mode_forward s1.command.state) ∧
        ¬ (mode_forward s.command.state ∧ s1.command.state = MODE_R))
    (hmid : ∀ e ∈ mid, ¬ is_adc_event e)
    (hs2 : s2 = loop_run fl b k h g float_of float_bits mid s1)
    (hcon : bit_set s2.events EVENT_CONNECTED) :
    ((comms_event b h float_bits slots s2).command.state = MODE_R →
      (comms_event b h float_bits slots s2).command.rpm ≤ 0) ∧
    ((comms_event b h float_bits slots s2).command.state = MODE_DL ∨
        (comms_event b h float_bits slots s2).command.state = MODE_DH ∨
        (comms_event b h float_bits slots s2).command.state = MODE_BL ∨
        (comms_event b h float_bits slots s2).command.state = MODE_BH →
      0 ≤ (comms_event b h float_bits slots s2).command.rpm) ∧
    (∃ rest : List can_variables,
      (comms_event b h float_bits slots s2).tx =
        s2.tx ++ [comms_drive_frame h float_bits (slots s2.tx.length)
            (comms_event b h float_bits slots s2).command,
          comms_power_frame h float_bits (slots (s2.tx.length + 1))
            (comms_event b h float_bits slots s2).command,
          comms_switch_frame h (slots (s2.tx.length + 2))
            (comms_event b h float_bits slots s2).command s2.switches] ++ rest) ∧
    (∀ (slot : can_variables) (c : command_variables),
      get_u32 (comms_drive_frame h float_bits slot c).data 0 = float_bits c.rpm % 2 ^ 32) ∧
    (∀ (slot : can_variables) (c : command_variables) (switches : Nat),
      get_u8 (comms_switch_frame h slot c switches).data 7 = c.state % 256) := by
  have h1 : direction_ok s1.command := by
    rcases hs1 with ⟨P1IN, P2IN, rfl⟩ | ⟨s, i, sampled, rfl, ha, hb⟩
    · exact ⟨fun _ => le_refl 0, fun _ => le_refl 0⟩
    · exact adc_event_fl_direction fl hfl b k hr hf h i sampled s ha hb
  have h2 : direction_ok s2.command := by
    rw [hs2]
    exact loop_run_direction fl b k h g float_of float_bits mid hmid _ h1
  have hc : (comms_event b h float_bits slots s2).command
      = comms_override b h s2.switches s2.command :=
    (comms_event_keeps b h float_bits slots s2).2.1
  have h3 : direction_ok (comms_event b h float_bits slots s2).command := by
    rw [hc]; exact comms_override_direction b h _ _ h2
  obtain ⟨rest, hrest⟩ := comms_transmit_head b h float_bits slots
    { s2 with events := u16_and_not s2.events EVENT_COMMS
              command := comms_override b h s2.switches s2.command }
  refine ⟨h3.1, h3.2, ⟨rest, ?_⟩, ?_, ?_⟩
  · rw [hc, comms_event_connected b h float_bits slots s2 hcon]
    exact hrest
  · intro slot c
    exact (fp_pair_payload float_bits slot.data c.current c.rpm).1
  · intro slot c switches
    have hd : (comms_switch_frame h slot c switches).data = _ :=
      switch_payload slot.data c.state c.flags switches
    rw [hd]; rfl

theorem C26_direction_consistency_witness :
    (∀ x : ℚ, 0 ≤ x → 0 ≤ f32 x) ∧
    pedalH_unit.RPM_REV_MAX < 0 ∧ 0 < pedalH_unit.RPM_FWD_MAX ∧
    (adc_event_fl f32 build_configured pedalH_unit canH_sample (inputs_gear 0x81 4000)
      (0x0038, 0)
      { power_up canH_sample 0x06 0x81 with command := command_in MODE_DL }).command.state
        = MODE_DL ∧
    bit_set (loop_run f32 build_configured pedalH_unit canH_sample gauge_sample
      float_of_sample float_bits_sample
      [LoopEvent.isr_timer_a0 { comms_count := 1, activity_count := 0 }, LoopEvent.timer]
      (adc_event_fl f32 build_configured pedalH_unit canH_sample (inputs_gear 0x81 4000)
        (0x0038, 0)
        { power_up canH_sample 0x06 0x81 with command := command_in MODE_DL })).events
      EVENT_CONNECTED ∧
    (comms_event build_configured canH_sample float_bits_sample (fun _ => frame_of 0 0)
      (loop_run f32 build_configured pedalH_unit canH_sample gauge_sample float_of_sample
        float_bits_sample
        [LoopEvent.isr_timer_a0 { comms_count := 1, activity_count := 0 }, LoopEvent.timer]
        (adc_event_fl f32 build_configured pedalH_unit canH_sample (inputs_gear 0x81 4000)
          (0x0038, 0)
          { power_up canH_sample 0x06 0x81 with command := command_in MODE_DL }))).command.rpm
        = 4000 ∧
    0 ≤ (comms_event build_configured canH_sample float_bits_sample (fun _ => frame_of 0 0)
      (loop_run f32 build_configured pedalH_unit canH_sample gauge_sample float_of_sample
        float_bits_sample
        [LoopEvent.isr_timer_a0 { comms_count := 1, activity_count := 0 }, LoopEvent.timer]
        (adc_event_fl f32 build_configured pedalH_unit canH_sample (inputs_gear 0x81 4000)
          (0x0038, 0)
          { power_up canH_sample 0x06 0x81 with command := command_in MODE_DL }))).command.rpm
      := by
  have hr : pedalH_unit.RPM_REV_MAX < 0 := by simp only [pedalH_unit]; norm_num
  have hf : 0 < pedalH_unit.RPM_FWD_MAX := by simp only [pedalH_unit]; norm_num
  have hsame : (adc_event_fl f32 build_configured pedalH_unit canH_sample
      (inputs_gear 0x81 4000) (0x0038, 0)
      { power_up canH_sample 0x06 0x81 with command := command_in MODE_DL }).command.state
        = MODE_DL := by decide
  have hcon : bit_set (loop_run f32 build_configured pedalH_unit canH_sample gauge_sample
      float_of_sample float_bits_sample
      [LoopEvent.isr_timer_a0 { comms_count := 1, activity_count := 0 }, LoopEvent.timer]
      (adc_event_fl f32 build_configured pedalH_unit canH_sample (inputs_gear 0x81 4000)
        (0x0038, 0)
        { power_up canH_sample 0x06 0x81 with command := command_in MODE_DL })).events
      EVENT_CONNECTED := by decide
  have hw := C26_direction_consistency f32 f32_nonneg build_configured pedalH_unit hr hf
    canH_sample gauge_sample float_of_sample float_bits_sample
    (adc_event_fl f32 build_configured pedalH_unit canH_sample (inputs_gear 0x81 4000)
      (0x0038, 0) { power_up canH_sample 0x06 0x81 with command := command_in MODE_DL })
    _
    [LoopEvent.isr_timer_a0 { comms_count := 1, activity_count := 0 }, LoopEvent.timer]
    (fun _ => frame_of 0 0)
    (Or.inr ⟨_, _, _, rfl, by rw [hsame]; decide, by rw [hsame]; decide⟩)
    (by
      intro e he
      simp only [List.mem_cons, List.mem_singleton, List.not_mem_nil, or_false] at he
      rcases he with he | he <;> subst he <;> exact fun hh => hh)
    rfl hcon
  exact ⟨f32_nonneg, hr, hf, hsame, hcon, by decide, hw.2.1 (Or.inl (by decide))⟩

/-- No Data frame is received in the sample run `comms_at_power_up`. -/
theorem comms_at_power_up_no_frame :
    ∀ e ∈ comms_at_power_up, ¬ is_data_frame canH_sample e := by decide

set_option maxRecDepth 100000 in
/-- C25 (counterexample): with the sample headers, EVENT_CONNECTED is set in the state in
which the main loop is entered, where no frame has been received; in the run
`comms_at_power_up` (nine timer periods and the tenth timer interrupt, no frame received) the
flag is still set when the first comms event runs, and that comms event enqueues three
frames. -/
theorem C25_counterexample :
    bit_set (power_up canH_sample 0x06 0x84).events EVENT_CONNECTED ∧
    (power_up canH_sample 0x06 0x84).tx.length = 0 ∧
    (∀ e ∈ comms_at_power_up, ¬ is_data_frame canH_sample e) ∧
    bit_set (loop_run f32 build_configured pedalH_unit canH_sample gauge_sample
      float_of_sample float_bits_sample comms_at_power_up
        (power_up canH_sample 0x06 0x84)).events EVENT_CONNECTED ∧
    (loop_run f32 build_configured pedalH_unit canH_sample gauge_sample float_of_sample
      float_bits_sample comms_at_power_up (power_up canH_sample 0x06 0x84)).tx.length = 3 ∧
    ((loop_run f32 build_configured pedalH_unit canH_sample gauge_sample float_of_sample
      float_bits_sample comms_at_power_up (power_up canH_sample 0x06 0x84)).tx.getD 0
        (frame_of 0 0)).address = canH_sample.DC_CAN_BASE + canH_sample.DC_DRIVE :=
  ⟨by decide, by decide, comms_at_power_up_no_frame, by decide, by decide, by decide⟩

/-- C25 (amended): EVENT_CONNECTED is set when the main loop is entered and by the reception
of every Data frame. Of all events of the loop, only an ADC event whose sampled switch word
has neither ignition bit (accessory, on) clears it, and every such ADC event does. Once
clear, it stays clear over every run in which no Data frame is received, and a comms event
that finds it clear enqueues nothing. -/
theorem C25_connected_flag (fl : ℚ → ℚ) (b : Build) (k : PedalH) (h : CanH) (g : GaugeC)
    (float_of : Nat → rx_float) (float_bits : ℚ → Nat) :
    (∀ P1IN P2IN : Nat, bit_set (power_up h P1IN P2IN).events EVENT_CONNECTED) ∧
    (∀ (can slot : can_variables) (s : State), can.status = h.CAN_OK →
      bit_set (can_receive_event h g float_of float_bits can slot s).events
        EVENT_CONNECTED) ∧
    (∀ (e : LoopEvent) (s : State), bit_set s.events EVENT_CONNECTED →
      ¬ bit_set (loop_step fl b k h g float_of float_bits e s).events EVENT_CONNECTED →
      ∃ (i : Inputs) (sampled : Nat × Nat), e = LoopEvent.adc i sampled ∧
        bit_set s.events EVENT_ADC ∧
        ¬ bit_set sampled.1 h.SW_IGN_ACC ∧ ¬ bit_set sampled.1 h.SW_IGN_ON) ∧
    (∀ (i : Inputs) (sampled : Nat × Nat) (s : State),
      ¬ bit_set sampled.1 h.SW_IGN_ACC → ¬ bit_set sampled.1 h.SW_IGN_ON →
      ¬ bit_set (adc_event_fl fl b k h i sampled s).events EVENT_CONNECTED) ∧
    (∀ (evs : List LoopEvent) (s : State), (∀ e ∈ evs, ¬ is_data_frame h e) →
      ¬ bit_set s.events EVENT_CONNECTED →
      ¬ bit_set (loop_run fl b k h g float_of float_bits evs s).events EVENT_CONNECTED) ∧
    (∀ (slots : Nat → can_variables) (s : State), ¬ bit_set s.events EVENT_CONNECTED →
      (comms_event b h float_bits slots s).tx = s.tx) := by
  refine ⟨?_, ?_, ?_, ?_, ?_, ?_⟩
  · intro P1IN P2IN
    exact bit_set_u16_or_self 0 7 (by decide)
  · intro can slot s hok
    rw [can_receive_event_events, if_pos hok]
    exact can_data_frame_connected h g float_of can s
  · intro e s hc hn
    exact loop_step_connected fl b k h g float_of float_bits e s hc hn
  · intro i sampled s hacc hon
    have hp : ¬ (bit_set sampled.1 h.SW_IGN_ACC ∨ bit_set sampled.1 h.SW_IGN_ON) :=
      fun hh => hh.elim hacc hon
    rw [adc_event_fl_events, if_neg hp, show EVENT_CONNECTED = 2 ^ 7 from rfl,
      bit_set_two_pow, testBit_u16_and_not, Nat.testBit_two_pow_self]
    simp
  · intro evs
    induction evs with
    | nil => intro s _ hc; exact hc
    | cons e rest ih =>
      intro s hd hc
      exact ih _ (fun e' he' => hd e' (List.mem_cons_of_mem _ he'))
        (loop_step_unconnected fl b k h g float_of float_bits e s
          (hd e (List.mem_cons_self _ _)) hc)
  · intro slots s hc
    rw [comms_event_unconnected b h float_bits slots s hc]

set_option maxRecDepth 100000 in
theorem C25_connected_flag_witness :
    canH_sample.CAN_OK = 0x0001 ∧
    ¬ bit_set (0x0002 : Nat) canH_sample.SW_IGN_ACC ∧
    ¬ bit_set (0x0002 : Nat) canH_sample.SW_IGN_ON ∧
    (∀ e ∈ comms_at_power_up, ¬ is_data_frame canH_sample e) ∧
    ¬ bit_set (loop_run f32 build_configured pedalH_unit canH_sample gauge_sample
      float_of_sample float_bits_sample comms_at_power_up
      (adc_event_fl f32 build_configured pedalH_unit canH_sample inputs_released
        (0x0002, 0x0030) (power_up canH_sample 0x06 0x84))).events EVENT_CONNECTED ∧
    (loop_run f32 build_configured pedalH_unit canH_sample gauge_sample float_of_sample
      float_bits_sample comms_at_power_up
      (adc_event_fl f32 build_configured pedalH_unit canH_sample inputs_released
        (0x0002, 0x0030) (power_up canH_sample 0x06 0x84))).tx.length = 0 ∧
    bit_set (can_receive_event canH_sample gauge_sample float_of_sample float_bits_sample
      (frame_of 0x0001 0x402) (frame_of 0 0)
      (adc_event_fl f32 build_configured pedalH_unit canH_sample inputs_released
        (0x0002, 0x0030) (power_up canH_sample 0x06 0x84))).events EVENT_CONNECTED := by
  have hw := C25_connected_flag f32 build_configured pedalH_unit canH_sample gauge_sample
    float_of_sample float_bits_sample
  refine ⟨rfl, by decide, by decide, comms_at_power_up_no_frame, ?_, by decide, ?_⟩
  · exact hw.2.2.2.2.1 comms_at_power_up _ comms_at_power_up_no_frame
      (hw.2.2.2.1 inputs_released (0x0002, 0x0030) (power_up canH_sample 0x06 0x84)
        (by decide) (by decide))
  · exact hw.2.1 (frame_of 0x0001 0x402) (frame_of 0 0) _ rfl

theorem C22_switch_frame_payload_witness :
    (6 : Nat) < 256 ∧ (0x12 : Nat) < 256 ∧ (0x1234 : Nat) < 65536 ∧
    get_u8 (comms_switch_frame canH_sample (frame_of 0 0)
      { rpm := 0, current := 0, bus_current := 1, flags := 0x12, state := 6 } 0x1234).data 0
        = 0x34 ∧
    get_u8 (comms_switch_frame canH_sample (frame_of 0 0)
      { rpm := 0, current := 0, bus_current := 1, flags := 0x12, state := 6 } 0x1234).data 1
        = 0x12 ∧
    get_u8 (comms_switch_frame canH_sample (frame_of 0 0)
      { rpm := 0, current := 0, bus_current := 1, flags := 0x12, state := 6 } 0x1234).data 6
        = 0x12 ∧
    get_u8 (comms_switch_frame canH_sample (frame_of 0 0)
      { rpm := 0, current := 0, bus_current := 1, flags := 0x12, state := 6 } 0x1234).data 7
        = 6 ∧
    (comms_switch_frame canH_sample bootload_request
      { rpm := 0, current := 0, bus_current := 1, flags := 0x12, state := 6 } 0x1234).data =
    (comms_switch_frame canH_sample (frame_of 0 0)
      { rpm := 0, current := 0, bus_current := 1, flags := 0x12, state := 6 } 0x1234).data := by
  have hw := C22_switch_frame_payload canH_sample (frame_of 0 0)
    { rpm := 0, current := 0, bus_current := 1, flags := 0x12, state := 6 } 0x1234
    (by decide) (by decide) (by decide)
  exact ⟨by decide, by decide, by decide, hw.1, hw.2.1, hw.2.2.2.2.2.2.1,
    hw.2.2.2.2.2.2.2.1, hw.2.2.2.2.2.2.2.2.2 bootload_request⟩

theorem C23_unhandled_frames_witness :
    canH_sample.labels_ok ∧
    (can_receive_event canH_sample gauge_sample float_of_sample float_bits_sample
      (frame_of 0x0001 0x7FF) (frame_of 0 0)
      (adc_event_fl f32 build_configured pedalH_unit canH_sample inputs_released (0, 0x0032)
        (power_up canH_sample 0x06 0x84))).events = 0x0080 ∧
    (adc_event_fl f32 build_configured pedalH_unit canH_sample inputs_released (0, 0x0032)
        (power_up canH_sample 0x06 0x84)).events = 0 ∧
    can_receive_event canH_sample gauge_sample float_of_sample float_bits_sample
      (frame_of 0xFFFF 0x403) (frame_of 0 0) (power_up canH_sample 0x06 0x84)
      = power_up canH_sample 0x06 0x84 := by
  have hw := C23_unhandled_frames canH_sample canH_sample_labels_ok gauge_sample
    float_of_sample float_bits_sample
  have h1 := (hw (frame_of 0x0001 0x7FF) (frame_of 0 0)
    (adc_event_fl f32 build_configured pedalH_unit canH_sample inputs_released (0, 0x0032)
        (power_up canH_sample 0x06 0x84))).1 rfl (by decide) (by decide) (by decide)
    (by decide) (by decide) (by decide) (by decide)
  refine ⟨canH_sample_labels_ok, ?_, by decide, ?_⟩
  · rw [h1.1]; decide
  · exact (hw (frame_of 0xFFFF 0x403) (frame_of 0 0) (power_up canH_sample 0x06 0x84)).2 rfl

theorem C24_mode_held_witness :
    build_configured.USE_EGEAR = false ∧
    bit_set 0x0030 canH_sample.SW_IGN_ON ∧ ¬ bit_set 0x0030 canH_sample.SW_FUEL ∧
    next_state_of build_configured canH_sample MODE_DL 0x0030 0x0C20 0 = MODE_DL ∧
    next_state_of build_configured canH_sample MODE_BH 0x0030 0x0000 0 = MODE_BH :=
  ⟨rfl, by decide, by decide,
    C24_mode_held build_configured rfl canH_sample MODE_DL 0x0030 0x0C20 0
      (Or.inr (Or.inr (Or.inr (Or.inl rfl)))) (by decide) (by decide) (by decide) (by decide)
      (by decide) (by decide),
    C24_mode_held build_configured rfl canH_sample MODE_BH 0x0030 0x0000 0
      (Or.inr (Or.inr (Or.inl rfl))) (by decide) (by decide) (by decide) (by decide)
      (by decide) (by decide)⟩

theorem C27_comms_override_witness :
    ¬ (bit_set 0x0010 canH_sample.SW_IGN_ON ∧
      ((command_in MODE_DL).state = MODE_R ∨ (command_in MODE_DL).state = MODE_DL ∨
        (command_in MODE_DL).state = MODE_DH ∨ (command_in MODE_DL).state = MODE_BL ∨
        (command_in MODE_DL).state = MODE_BH)) ∧
    (comms_override build_configured canH_sample 0x0010
      { command_in MODE_DL with rpm := 4000, current := 1 / 2 }).rpm = 0 ∧
    (comms_override build_configured canH_sample 0x0030
      { command_in MODE_DL with rpm := 4000, current := 1 / 2 }).rpm = 4000 ∧
    (comms_override build_configured canH_sample 0x0030
      { command_in MODE_N with rpm := 4000, current := 1 / 2 }).current = 0 := by
  refine ⟨by decide, ?_, ?_, ?_⟩
  · exact ((C27_comms_override build_configured canH_sample 0x0010
      { command_in MODE_DL with rpm := 4000, current := 1 / 2 }).1 (by decide)).2
  · exact ((C27_comms_override build_configured canH_sample 0x0030
      { command_in MODE_DL with rpm := 4000, current := 1 / 2 }).2.1 rfl (by decide)
      (Or.inr (Or.inl rfl))).2
  · exact ((C27_comms_override build_configured canH_sample 0x0030
      { command_in MODE_N with rpm := 4000, current := 1 / 2 }).1 (by decide)).1

set_option maxRecDepth 100000 in
theorem C28_reachable_modes_witness :
    build_configured.USE_EGEAR = false ∧
    mode_run build_configured canH_sample
      [(0x0030, 0x0090, 0), (0x0038, 0x0090, 0), (0x0034, 0x0CA0, 0)] MODE_OFF = MODE_BL ∧
    (loop_run f32 build_configured pedalH_unit canH_sample gauge_sample float_of_sample
      float_bits_sample reverse_after_drive (power_up canH_sample 0x06 0x84)).command.state
        = MODE_R := by
  have hw := C28_reachable_modes f32 build_configured rfl pedalH_unit canH_sample gauge_sample
    float_of_sample float_bits_sample
  refine ⟨rfl, ?_, ?_⟩
  · rcases hw.1 [(0x0030, 0x0090, 0), (0x0038, 0x0090, 0), (0x0034, 0x0CA0, 0)]
      with h | h | h | h | h | h <;> first | exact h | exact absurd h (by decide)
  · rcases hw.2 0x06 0x84 reverse_after_drive
      with h | h | h | h | h | h <;> first | exact h | exact absurd h (by decide)

/-- No motor velocity frame is received in the sample run `gears_without_velocity`. -/
theorem gears_without_velocity_ok :
    ∀ e ∈ gears_without_velocity, ¬ is_velocity_frame canH_sample e := by decide

theorem C29_no_velocity_no_gear_witness :
    gauge_sample.ok ∧
    (∀ e ∈ gears_without_velocity, ¬ is_velocity_frame canH_sample e) ∧
    (loop_run f32 build_configured pedalH_unit canH_sample gauge_sample float_of_sample
      float_bits_sample gears_without_velocity (power_up canH_sample 0x06 0x84)).switches
        = 0x0031 ∧
    (loop_run f32 build_configured pedalH_unit canH_sample gauge_sample float_of_sample
      float_bits_sample gears_without_velocity (power_up canH_sample 0x06 0x84)).command.state
        = MODE_N := by
  have hw := C29_no_velocity_no_gear f32 build_configured pedalH_unit canH_sample gauge_sample
    gauge_sample_ok float_of_sample float_bits_sample 0x06 0x84 gears_without_velocity
    gears_without_velocity_ok
  refine ⟨gauge_sample_ok, gears_without_velocity_ok, by decide, ?_⟩
  rcases hw.1 with h | h | h
  · exact absurd h (by decide)
  · exact h
  · exact absurd h (by decide)

theorem C30_velocity_flags_consistent_witness :
    gauge_sample.ok ∧
    (∀ e ∈ gears_without_velocity, ¬ is_velocity_frame canH_sample e) ∧
    ¬ bit_set (loop_run f32 build_configured pedalH_unit canH_sample gauge_sample float_of_sample
      float_bits_sample gears_without_velocity
      (can_receive_event canH_sample gauge_sample float_of_sample float_bits_sample
        velocity_frame_60 (frame_of 0 0) (power_up canH_sample 0x06 0x84))).events
        EVENT_SLOW ∧
    bit_set (loop_run f32 build_configured pedalH_unit canH_sample gauge_sample float_of_sample
      float_bits_sample gears_without_velocity
      (can_receive_event canH_sample gauge_sample float_of_sample float_bits_sample
        velocity_frame_60 (frame_of 0 0) (power_up canH_sample 0x06 0x84))).events
        EVENT_FORWARD := by
  have hw := C30_velocity_flags_consistent f32 build_configured pedalH_unit canH_sample
    gauge_sample gauge_sample_ok float_of_sample float_bits_sample velocity_frame_60
    (frame_of 0 0) (power_up canH_sample 0x06 0x84) 60 rfl rfl velocity_frame_60_value
    gears_without_velocity gears_without_velocity_ok
  have hf : bit_set (loop_run f32 build_configured pedalH_unit canH_sample gauge_sample
      float_of_sample float_bits_sample gears_without_velocity
      (can_receive_event canH_sample gauge_sample float_of_sample float_bits_sample
        velocity_frame_60 (frame_of 0 0) (power_up canH_sample 0x06 0x84))).events
        EVENT_FORWARD := by decide
  refine ⟨gauge_sample_ok, gears_without_velocity_ok, ?_, hf⟩
  rcases hw.1 with h | h | h
  · exact absurd hf h.2.1
  · exact h.1
  · exact h.1

end Tri86
